import Mathlib

/-!
# ARToolKit6 camera calibration utility: session and solver helpers

A shallow embedding of `Calibration.cpp` (the calibration session: frame hand-off,
capture / uncapture of corner samples) and of `calc.cpp` (object-point generation and
the `getSizeFactor` normalisation), followed by theorems about them.

Conventions of the embedding
* `float` / `ARdouble` values are exact rationals (`ℚ`); rounding is not modelled.
* `int` values are mathematical integers (`Int`); where the source converts or may
  overflow, the conversion is written out (`toSizeT`, `wrapInt`).
* `std::vector` is `List`; `push_back` appends at the end.
* OpenCV and the ARUtil worker-thread primitives are not part of the sources; OpenCV
  entry points are passed in as a record of functions, the thread primitives are small
  flag updates.
-/

namespace ARToolKit

/-! ## Machine integers -/

/-- Smallest value of a 32-bit `int`. -/
def INT_MIN : Int := -2147483648

/-- Largest value of a 32-bit `int`. -/
def INT_MAX : Int := 2147483647

/-- The value fits a 32-bit `int`. -/
def isInt (x : Int) : Prop := INT_MIN ≤ x ∧ x ≤ INT_MAX

instance (x : Int) : Decidable (isInt x) := by
  unfold isInt; exact inferInstance

/-- Conversion of an `int` operand to `size_t` (64 bit), as the usual arithmetic
conversions do when an `int` is compared with a `size_t`: reduction modulo `2^64`. -/
def toSizeT (x : Int) : Nat := (x % 18446744073709551616).toNat

/-- Two's-complement wrap of an integer result into the 32-bit `int` range. -/
def wrapInt (x : Int) : Int := (x + 2147483648) % 4294967296 - 2147483648

/-! ## Geometry and image types (OpenCV value types) -/

/-- The type `ARdouble` (and `float`) of the source, as exact rationals. -/
abbrev ARdouble := ℚ

/-- The point type `cv::Point2f`. -/
structure Point2f where
  x : ℚ
  y : ℚ
deriving DecidableEq, Repr

/-- The point type `cv::Point3f`. -/
structure Point3f where
  x : ℚ
  y : ℚ
  z : ℚ
deriving DecidableEq, Repr

/-- The type `cv::Size`: two `int` fields. -/
structure Size where
  width : Int
  height : Int
deriving DecidableEq, Repr

/-- The type `cv::TermCriteria`. -/
structure TermCriteria where
  type : Int
  maxCount : Int
  epsilon : ℚ
deriving DecidableEq, Repr

/-- A single-channel 8-bit image header over a byte buffer (`IplImage` set up by
`cvCreateImageHeader` + `cvSetData`). -/
structure IplImage where
  width : Int
  height : Int
  imageData : List Nat
deriving DecidableEq, Repr

/-- The enum `Calibration::CalibrationPatternType`. -/
inductive CalibrationPatternType where
  | CHESSBOARD
  | CIRCLES_GRID
  | ASYMMETRIC_CIRCLES_GRID
deriving DecidableEq, Repr

/-- The constant `CV_TERMCRIT_ITER`. -/
def CV_TERMCRIT_ITER : Int := 1
/-- The constant `CV_CALIB_CB_ADAPTIVE_THRESH`. -/
def CV_CALIB_CB_ADAPTIVE_THRESH : Nat := 1
/-- The constant `CV_CALIB_CB_FILTER_QUADS`. -/
def CV_CALIB_CB_FILTER_QUADS : Nat := 4
/-- The constant `CV_CALIB_CB_FAST_CHECK`. -/
def CV_CALIB_CB_FAST_CHECK : Nat := 8
/-- The constant `cv::CALIB_CB_SYMMETRIC_GRID`. -/
def CALIB_CB_SYMMETRIC_GRID : Nat := 1
/-- The constant `cv::CALIB_CB_ASYMMETRIC_GRID`. -/
def CALIB_CB_ASYMMETRIC_GRID : Nat := 2

/-- The OpenCV entry points used by `Calibration.cpp`. They are outside the sources and
are taken as parameters. The detectors return the `bool` result together with the
contents of the output array; `cornerSubPix` returns the new contents of its in/out
array. -/
structure OpenCV where
  findChessboardCorners : IplImage → Size → Nat → Bool × List Point2f
  findCirclesGrid : IplImage → Size → Nat → Bool × List Point2f
  cornerSubPix : IplImage → List Point2f → Size → Size → TermCriteria → List Point2f

/-- The C library call `memcpy(dst, src, n)` on byte buffers that hold at least `n` bytes. -/
def memcpy (dst src : List Nat) (n : Nat) : List Nat := src.take n ++ dst.drop n

/-! ## `Calibration::CalibrationCornerFinderData` -/

/-- Inputs and outputs of one corner-finding run. `calibImage` is a header over
`videoFrame` and is derived (see `calibImage`); a null `videoFrame` is the empty list. -/
structure CalibrationCornerFinderData where
  patternType : CalibrationPatternType
  patternSize : Size
  videoWidth : Int
  videoHeight : Int
  videoFrame : List Nat
  cornerFoundAllFlag : Int
  corners : List Point2f
deriving DecidableEq, Repr

namespace CalibrationCornerFinderData

/-- The buffer allocated by `init()`: `videoWidth * videoHeight` bytes (an `int`
product) when both are positive (contents unspecified in C, zero here), otherwise null. -/
def init (videoWidth videoHeight : Int) : List Nat :=
  if videoWidth > 0 ∧ videoHeight > 0 then
    List.replicate (wrapInt (videoWidth * videoHeight)).toNat 0
  else []

/-- The principal constructor. -/
def construct (patternType_in : CalibrationPatternType) (patternSize_in : Size)
    (videoWidth_in videoHeight_in : Int) : CalibrationCornerFinderData where
  patternType := patternType_in
  patternSize := patternSize_in
  videoWidth := videoWidth_in
  videoHeight := videoHeight_in
  videoFrame := init videoWidth_in videoHeight_in
  cornerFoundAllFlag := 0
  corners := []

/-- Copy assignment `operator=` from a distinct object: every field is copied, a new
buffer is set up by `init()` and filled by `copy()`, which copies
`sizeof(uint8_t) * videoWidth * videoHeight` bytes (a `size_t` product). -/
def assign (orig : CalibrationCornerFinderData) : CalibrationCornerFinderData where
  patternType := orig.patternType
  patternSize := orig.patternSize
  videoWidth := orig.videoWidth
  videoHeight := orig.videoHeight
  cornerFoundAllFlag := orig.cornerFoundAllFlag
  corners := orig.corners
  videoFrame := memcpy (init orig.videoWidth orig.videoHeight) orig.videoFrame
    (toSizeT orig.videoWidth * toSizeT orig.videoHeight % 18446744073709551616)

/-- The buffer of the object is the one `init()` allocates for its dimensions (so it
holds `videoWidth * videoHeight` bytes, or is null), and that byte count fits an `int`. -/
def bufferAllocated (d : CalibrationCornerFinderData) : Prop :=
  d.videoFrame.length = (init d.videoWidth d.videoHeight).length ∧
  (0 < d.videoWidth → 0 < d.videoHeight → d.videoWidth * d.videoHeight ≤ INT_MAX)

/-- The image header `calibImage` over `videoFrame`. -/
def calibImage (d : CalibrationCornerFinderData) : IplImage :=
  ⟨d.videoWidth, d.videoHeight, d.videoFrame⟩

end CalibrationCornerFinderData

/-! ## Worker-thread handle (ARUtil `thread_sub`) -/

/-- Modelled from the spec: the worker handle of `AR6/ARUtil/thread_sub.h`, whose
implementation is not among the sources. It carries the three conditions the session
and the worker exchange: a start has been signalled (`startF`), the worker is running a
detection (`busyF`), a finished result awaits collection (`endF`). -/
structure THREAD_HANDLE_T where
  startF : Bool
  endF : Bool
  busyF : Bool
deriving DecidableEq, Repr

/-- Modelled from the spec: `threadInit` yields an idle worker. -/
def threadInit : THREAD_HANDLE_T := ⟨false, false, false⟩

/-- Modelled from the spec: `threadGetStatus` polls whether a result is ready. -/
def threadGetStatus (t : THREAD_HANDLE_T) : Bool := t.endF

/-- Modelled from the spec: `threadGetBusyStatus` polls whether the worker is busy. -/
def threadGetBusyStatus (t : THREAD_HANDLE_T) : Bool := t.busyF

/-- Modelled from the spec: `threadEndWait` acknowledges a finished result. -/
def threadEndWait (t : THREAD_HANDLE_T) : THREAD_HANDLE_T := { t with endF := false }

/-- Modelled from the spec: `threadStartSignal` signals the worker to start. -/
def threadStartSignal (t : THREAD_HANDLE_T) : THREAD_HANDLE_T := { t with startF := true }

/-- Modelled from the spec: `threadStartWait` returning 0: a pending start signal is
consumed and the worker becomes busy; `none` while no start is pending. -/
def threadStartWait (t : THREAD_HANDLE_T) : Option THREAD_HANDLE_T :=
  if t.startF then some { t with startF := false, busyF := true } else none

/-- Modelled from the spec: `threadEndSignal` marks the run finished and the worker no
longer busy. -/
def threadEndSignal (t : THREAD_HANDLE_T) : THREAD_HANDLE_T :=
  { t with endF := true, busyF := false }

/-- What `Calibration::frame` uses of an `ARVideoSource`: the buffer handed out by
`checkoutFrameIfNewerThan` (its luma plane; `none` for a null result) and the video size. -/
structure ARVideoSource where
  buffLuma : Option (List Nat)
  videoWidth : Int
  videoHeight : Int
deriving DecidableEq, Repr

/-! ## `Calibration` -/

/-- The data members of class `Calibration` (the result mutex is not represented). -/
structure Calibration where
  m_cornerFinderData : CalibrationCornerFinderData
  m_cornerFinderThread : THREAD_HANDLE_T
  m_cornerFinderResultData : CalibrationCornerFinderData
  m_corners : List (List Point2f)
  m_calibImageCountMax : Int
  m_patternType : CalibrationPatternType
  m_patternSize : Size
  m_chessboardSquareWidth : Int
  m_videoWidth : Int
  m_videoHeight : Int
deriving DecidableEq, Repr

/-- The arguments `Calibration::calib` passes to `calc`. -/
structure CalcArgs where
  capturedImageNum : Int
  patternType : CalibrationPatternType
  patternSize : Size
  patternSpacing : ℚ
  cornerSet : List (List Point2f)
  width : Int
  height : Int
deriving DecidableEq, Repr

namespace Calibration

/-- The constructor `Calibration::Calibration`. -/
def construct (patternType : CalibrationPatternType) (calibImageCountMax : Int)
    (patternSize : Size) (chessboardSquareWidth videoWidth videoHeight : Int) : Calibration where
  m_cornerFinderData :=
    CalibrationCornerFinderData.construct patternType patternSize videoWidth videoHeight
  m_cornerFinderResultData := CalibrationCornerFinderData.construct patternType patternSize 0 0
  m_calibImageCountMax := calibImageCountMax
  m_patternType := patternType
  m_patternSize := patternSize
  m_chessboardSquareWidth := chessboardSquareWidth
  m_videoWidth := videoWidth
  m_videoHeight := videoHeight
  m_corners := []
  m_cornerFinderThread := threadInit

/-- The accessor `calibImageCount()`. -/
def calibImageCount (s : Calibration) : Int := wrapInt s.m_corners.length

/-- The method `Calibration::frame`: collect a finished result, then submit a new image
if the worker is not busy. -/
def frame (s : Calibration) (vs : ARVideoSource) : Bool × Calibration :=
  let s1 : Calibration :=
    if threadGetStatus s.m_cornerFinderThread then
      { s with
        m_cornerFinderThread := threadEndWait s.m_cornerFinderThread
        m_cornerFinderResultData := CalibrationCornerFinderData.assign s.m_cornerFinderData }
    else s
  let s2 : Calibration :=
    if ! threadGetBusyStatus s1.m_cornerFinderThread then
      match vs.buffLuma with
      | some buff =>
        { s1 with
          m_cornerFinderData :=
            { s1.m_cornerFinderData with
              videoFrame := memcpy s1.m_cornerFinderData.videoFrame buff
                (toSizeT (wrapInt (vs.videoWidth * vs.videoHeight))) }
          m_cornerFinderThread := threadStartSignal s1.m_cornerFinderThread }
      | none => s1
    else s1
  (true, s2)

/-- The first half of `Calibration::frame`: if the worker has finished, acknowledge it
and copy the worker data into the cached result. -/
def frameCollect (s : Calibration) : Calibration :=
  if threadGetStatus s.m_cornerFinderThread then
    { s with
      m_cornerFinderThread := threadEndWait s.m_cornerFinderThread
      m_cornerFinderResultData := CalibrationCornerFinderData.assign s.m_cornerFinderData }
  else s

/-- The second half of `Calibration::frame`: if the worker is not busy and the video
source has a frame, copy it into the worker's input buffer and signal the start. -/
def frameSubmit (s : Calibration) (vs : ARVideoSource) : Calibration :=
  if ! threadGetBusyStatus s.m_cornerFinderThread then
    match vs.buffLuma with
    | some buff =>
      { s with
        m_cornerFinderData :=
          { s.m_cornerFinderData with
            videoFrame := memcpy s.m_cornerFinderData.videoFrame buff
              (toSizeT (wrapInt (vs.videoWidth * vs.videoHeight))) }
        m_cornerFinderThread := threadStartSignal s.m_cornerFinderThread }
    | none => s
  else s

/-- One detection by the worker `Calibration::cornerFinder` on its data: the `switch` on
the pattern type, storing the detector's result and output array. -/
def cornerFinderDetect (cv : OpenCV) (d : CalibrationCornerFinderData) :
    CalibrationCornerFinderData :=
  let r : Bool × List Point2f :=
    match d.patternType with
    | .CHESSBOARD =>
      cv.findChessboardCorners d.calibImage d.patternSize
        (CV_CALIB_CB_FAST_CHECK ||| CV_CALIB_CB_ADAPTIVE_THRESH ||| CV_CALIB_CB_FILTER_QUADS)
    | .CIRCLES_GRID => cv.findCirclesGrid d.calibImage d.patternSize CALIB_CB_SYMMETRIC_GRID
    | .ASYMMETRIC_CIRCLES_GRID =>
      cv.findCirclesGrid d.calibImage d.patternSize CALIB_CB_ASYMMETRIC_GRID
  { d with cornerFoundAllFlag := if r.1 then 1 else 0, corners := r.2 }

/-- The worker loop head of `cornerFinder`: `threadStartWait` returns 0 when a start is
pending; otherwise the worker stays blocked and nothing changes. -/
def cornerFinderWake (s : Calibration) : Calibration :=
  match threadStartWait s.m_cornerFinderThread with
  | some t => { s with m_cornerFinderThread := t }
  | none => s

/-- The worker loop body of `cornerFinder` for a busy worker: run the detection and
signal the end; nothing happens while the worker is not busy. -/
def cornerFinderRun (cv : OpenCV) (s : Calibration) : Calibration :=
  if threadGetBusyStatus s.m_cornerFinderThread then
    { s with
      m_cornerFinderData := cornerFinderDetect cv s.m_cornerFinderData
      m_cornerFinderThread := threadEndSignal s.m_cornerFinderThread }
  else s

/-- The method `Calibration::capture`. -/
def capture (cv : OpenCV) (s : Calibration) : Bool × Calibration :=
  if s.m_corners.length ≥ toSizeT s.m_calibImageCountMax then (false, s)
  else if s.m_cornerFinderResultData.cornerFoundAllFlag ≠ 0 then
    let refined : List Point2f :=
      cv.cornerSubPix s.m_cornerFinderResultData.calibImage s.m_cornerFinderResultData.corners
        ⟨5, 5⟩ ⟨-1, -1⟩ ⟨CV_TERMCRIT_ITER, 100, 1 / 10⟩
    (true,
      { s with
        m_cornerFinderResultData := { s.m_cornerFinderResultData with corners := refined }
        m_corners := s.m_corners ++ [refined] })
  else (false, s)

/-- The method `Calibration::uncapture`. -/
def uncapture (s : Calibration) : Bool × Calibration :=
  if s.m_corners.length ≤ 0 then (false, s)
  else (true, { s with m_corners := s.m_corners.dropLast })

/-- The method `Calibration::uncaptureAll`. -/
def uncaptureAll (s : Calibration) : Bool × Calibration :=
  if s.m_corners.length ≤ 0 then (false, s)
  else (true, { s with m_corners := [] })

/-- The method `Calibration::calib`: the call of `calc` it makes; the session itself is
not modified. -/
def calib (s : Calibration) : CalcArgs × Calibration :=
  (⟨wrapInt s.m_corners.length, s.m_patternType, s.m_patternSize, s.m_chessboardSquareWidth,
    s.m_corners, s.m_videoWidth, s.m_videoHeight⟩, s)

end Calibration

/-- One event in the life of a session: a call of a public method from the session
thread, or a step of the worker thread. -/
inductive Event where
  | frame (vs : ARVideoSource)
  | capture
  | uncapture
  | uncaptureAll
  | calib
  | workerWake
  | workerRun
deriving DecidableEq, Repr

/-- The session after one event. -/
def Calibration.step (cv : OpenCV) (s : Calibration) : Event → Calibration
  | .frame vs => (s.frame vs).2
  | .capture => (s.capture cv).2
  | .uncapture => s.uncapture.2
  | .uncaptureAll => s.uncaptureAll.2
  | .calib => s.calib.2
  | .workerWake => s.cornerFinderWake
  | .workerRun => s.cornerFinderRun cv

/-- The session after a sequence of events, in order. -/
def Calibration.run (cv : OpenCV) (s : Calibration) (evs : List Event) : Calibration :=
  evs.foldl (Calibration.step cv) s

/-! ## `calc.cpp` -/

/-- The function `calcChessboardCorners`: the object points of the pattern, row by row.
The `int` expression `2*i + j % 2` of the asymmetric case is evaluated in 32-bit
arithmetic before it is converted to `float`. -/
def calcChessboardCorners (patternType : CalibrationPatternType) (patternSize : Size)
    (patternSpacing : ℚ) : List Point3f :=
  match patternType with
  | .CHESSBOARD | .CIRCLES_GRID =>
    (List.range patternSize.height.toNat).flatMap fun (j : Nat) =>
      (List.range patternSize.width.toNat).map fun (i : Nat) =>
        ⟨(i : ℚ) * patternSpacing, (j : ℚ) * patternSpacing, 0⟩
  | .ASYMMETRIC_CIRCLES_GRID =>
    (List.range patternSize.height.toNat).flatMap fun (j : Nat) =>
      (List.range patternSize.width.toNat).map fun (i : Nat) =>
        ⟨((wrapInt (wrapInt (2 * (i : Int)) + Int.tmod (j : Int) 2) : Int) : ℚ) * patternSpacing,
          (j : ℚ) * patternSpacing, 0⟩

/-- One candidate of `getSizeFactor`:
`if (ilen > 0.0f) { sf1 = ilen / olen; if (sf1 < sf) sf = sf1; }`.
A positive `ilen` over a zero `olen` is `+infinity` in floating point, which is never
below `sf`; that case is written out, since rationals have no infinity. -/
def sizeFactorStep (sf ilen olen : ARdouble) : ARdouble :=
  if ilen > 0 then
    if olen = 0 then sf
    else
      let sf1 := ilen / olen
      if sf1 < sf then sf1 else sf
  else sf

/-- The function `getSizeFactor`. The library routine `arParamObserv2Ideal` is outside
the sources and is passed in; it returns the ideal point `(ix, iy)`. -/
def getSizeFactor (arParamObserv2Ideal : (Nat → ARdouble) → ARdouble → ARdouble → Int → ARdouble × ARdouble)
    (dist_factor : Nat → ARdouble) (xsize ysize : Int) (dist_function_version : Int) : ARdouble :=
  let sf : ARdouble := 100
  -- ox = 0, oy = dist_factor[7]
  let p := arParamObserv2Ideal dist_factor 0 (dist_factor 7) dist_function_version
  let sf := sizeFactorStep sf (dist_factor 6 - p.1) (dist_factor 6)
  -- ox = xsize, oy = dist_factor[7]
  let p := arParamObserv2Ideal dist_factor xsize (dist_factor 7) dist_function_version
  let sf := sizeFactorStep sf (p.1 - dist_factor 6) (xsize - dist_factor 6)
  -- ox = dist_factor[6], oy = 0
  let p := arParamObserv2Ideal dist_factor (dist_factor 6) 0 dist_function_version
  let sf := sizeFactorStep sf (dist_factor 7 - p.2) (dist_factor 7)
  -- ox = dist_factor[6], oy = ysize
  let p := arParamObserv2Ideal dist_factor (dist_factor 6) ysize dist_function_version
  let sf := sizeFactorStep sf (p.2 - dist_factor 7) (ysize - dist_factor 7)
  -- ox = 0, oy = 0
  let p := arParamObserv2Ideal dist_factor 0 0 dist_function_version
  let sf := sizeFactorStep sf (dist_factor 6 - p.1) (dist_factor 6)
  let sf := sizeFactorStep sf (dist_factor 7 - p.2) (dist_factor 7)
  -- ox = xsize, oy = 0
  let p := arParamObserv2Ideal dist_factor xsize 0 dist_function_version
  let sf := sizeFactorStep sf (p.1 - dist_factor 6) (xsize - dist_factor 6)
  let sf := sizeFactorStep sf (dist_factor 7 - p.2) (dist_factor 7)
  -- ox = 0, oy = ysize
  let p := arParamObserv2Ideal dist_factor 0 ysize dist_function_version
  let sf := sizeFactorStep sf (dist_factor 6 - p.1) (dist_factor 6)
  let sf := sizeFactorStep sf (p.2 - dist_factor 7) (ysize - dist_factor 7)
  -- ox = xsize, oy = ysize
  let p := arParamObserv2Ideal dist_factor xsize ysize dist_function_version
  let sf := sizeFactorStep sf (p.1 - dist_factor 6) (xsize - dist_factor 6)
  let sf := sizeFactorStep sf (p.2 - dist_factor 7) (ysize - dist_factor 7)
  if sf = 100 then 1 else sf

/-- The twelve candidates `(ilen, olen)` of `getSizeFactor`, in the order in which the
function takes them: one for each of the four edge midpoints (left, right, top, bottom),
then an x- and a y-candidate for each of the four corners. -/
def sizeFactorCandidates
    (arParamObserv2Ideal : (Nat → ARdouble) → ARdouble → ARdouble → Int → ARdouble × ARdouble)
    (dist_factor : Nat → ARdouble) (xsize ysize : Int) (dist_function_version : Int) :
    List (ARdouble × ARdouble) :=
  let l := arParamObserv2Ideal dist_factor 0 (dist_factor 7) dist_function_version
  let r := arParamObserv2Ideal dist_factor xsize (dist_factor 7) dist_function_version
  let t := arParamObserv2Ideal dist_factor (dist_factor 6) 0 dist_function_version
  let b := arParamObserv2Ideal dist_factor (dist_factor 6) ysize dist_function_version
  let tl := arParamObserv2Ideal dist_factor 0 0 dist_function_version
  let tr := arParamObserv2Ideal dist_factor xsize 0 dist_function_version
  let bl := arParamObserv2Ideal dist_factor 0 ysize dist_function_version
  let br := arParamObserv2Ideal dist_factor xsize ysize dist_function_version
  [(dist_factor 6 - l.1, dist_factor 6),
   (r.1 - dist_factor 6, xsize - dist_factor 6),
   (dist_factor 7 - t.2, dist_factor 7),
   (b.2 - dist_factor 7, ysize - dist_factor 7),
   (dist_factor 6 - tl.1, dist_factor 6),
   (dist_factor 7 - tl.2, dist_factor 7),
   (tr.1 - dist_factor 6, xsize - dist_factor 6),
   (dist_factor 7 - tr.2, dist_factor 7),
   (dist_factor 6 - bl.1, dist_factor 6),
   (bl.2 - dist_factor 7, ysize - dist_factor 7),
   (br.1 - dist_factor 6, xsize - dist_factor 6),
   (br.2 - dist_factor 7, ysize - dist_factor 7)]

/-- The usable candidate ratios in the words of the specification: the ratios
`ilen / olen` of the twelve candidates that are strictly positive. -/
def usableRatios
    (arParamObserv2Ideal : (Nat → ARdouble) → ARdouble → ARdouble → Int → ARdouble × ARdouble)
    (dist_factor : Nat → ARdouble) (xsize ysize : Int) (dist_function_version : Int) :
    List ARdouble :=
  ((sizeFactorCandidates arParamObserv2Ideal dist_factor xsize ysize
      dist_function_version).map fun c => c.1 / c.2).filter fun r => 0 < r

/-- The scale factor in the words of the specification: the minimum of the usable
ratios, and 1 when none is usable. -/
def minUsableRatio
    (arParamObserv2Ideal : (Nat → ARdouble) → ARdouble → ARdouble → Int → ARdouble × ARdouble)
    (dist_factor : Nat → ARdouble) (xsize ysize : Int) (dist_function_version : Int) :
    ARdouble :=
  match usableRatios arParamObserv2Ideal dist_factor xsize ysize dist_function_version with
  | [] => 1
  | r :: rs => rs.foldl min r

/-- Modelled from the spec: the type `ARParam` of `AR6/AR/param.h`, whose declaration is
outside the sources: the image size, the 3 x 4 matrix `mat`, the distortion vector
`dist_factor` (nine entries) and its version tag. Arrays are functions of the index. -/
structure ARParam where
  xsize : Int
  ysize : Int
  mat : Nat → Nat → ARdouble
  dist_factor : Nat → ARdouble
  dist_function_version : Int

/-- The array assignment `a[k] = v`. -/
def setAt (a : Nat → ARdouble) (k : Nat) (v : ARdouble) : Nat → ARdouble :=
  fun n => if n = k then v else a n

/-- The matrix assignment `m[j][i] = v`. -/
def setAt2 (m : Nat → Nat → ARdouble) (j i : Nat) (v : ARdouble) : Nat → Nat → ARdouble :=
  fun r c => if r = j ∧ c = i then v else m r c

/-- The vector that `convParam` hands to `getSizeFactor`: `dist[0..3]`, the focal
lengths and principal point of `intr`, and 1 for the scale. -/
def convParamDistFactor (intr : Nat → Nat → ARdouble) (dist : Nat → ARdouble)
    (dist_factor : Nat → ARdouble) : Nat → ARdouble :=
  let df := setAt dist_factor 0 (dist 0)
  let df := setAt df 1 (dist 1)
  let df := setAt df 2 (dist 2)
  let df := setAt df 3 (dist 3)
  let df := setAt df 4 (intr 0 0)
  let df := setAt df 5 (intr 1 1)
  let df := setAt df 6 (intr 0 2)
  let df := setAt df 7 (intr 1 2)
  setAt df 8 1

/-- The function `convParam`; `param` is the object behind the output pointer as it is
before the call. -/
def convParam
    (arParamObserv2Ideal : (Nat → ARdouble) → ARdouble → ARdouble → Int → ARdouble × ARdouble)
    (intr : Nat → Nat → ARdouble) (dist : Nat → ARdouble) (xsize ysize : Int)
    (param : ARParam) : ARParam :=
  let df := convParamDistFactor intr dist param.dist_factor
  let mat := (List.range 3).foldl
    (fun m (j : Nat) => (List.range 4).foldl (fun m (i : Nat) => setAt2 m j i (intr j i)) m)
    param.mat
  let s := getSizeFactor arParamObserv2Ideal df xsize ysize 4
  let mat := setAt2 mat 0 0 (mat 0 0 / s)
  let mat := setAt2 mat 0 1 (mat 0 1 / s)
  let mat := setAt2 mat 1 0 (mat 1 0 / s)
  let mat := setAt2 mat 1 1 (mat 1 1 / s)
  { xsize := xsize
    ysize := ysize
    mat := mat
    dist_factor := setAt df 8 s
    dist_function_version := 4 }

/-! ## `calc` -/

/-- The constant `cv::CALIB_FIX_K3`. -/
def CALIB_FIX_K3 : Nat := 128
/-- The constant `cv::CALIB_FIX_K4`. -/
def CALIB_FIX_K4 : Nat := 2048
/-- The constant `cv::CALIB_FIX_K5`. -/
def CALIB_FIX_K5 : Nat := 4096

/-- What `cv::calibrateCamera` hands back: its return value and the contents of its four
output arrays. -/
structure CameraSolve where
  rms : ARdouble
  intrinsics : Nat → Nat → ARdouble
  distortionCoeff : Nat → ARdouble
  rotationVectors : List (Nat → ARdouble)
  translationVectors : List (Nat → ARdouble)

/-- The routines `calc` calls that are outside the sources (OpenCV, the AR library, the C
library), taken as parameters. `cv::checkRange` is applied to two matrices of different
shape and appears once for each. -/
structure CalcEnv where
  calibrateCamera : List (List Point3f) → List (List Point2f) → Size → Nat → CameraSolve
  checkRangeIntrinsics : (Nat → Nat → ARdouble) → Bool
  checkRangeDistortion : (Nat → ARdouble) → Bool
  cvRodrigues2 : (Nat → ARdouble) → Nat → Nat → ARdouble
  arParamObserv2Ideal : (Nat → ARdouble) → ARdouble → ARdouble → Int → ARdouble × ARdouble
  arParamIdeal2Observ : (Nat → ARdouble) → ARdouble → ARdouble → Int → ARdouble × ARdouble
  sqrtf : ARdouble → ARdouble

/-- The pose matrix `trans` that `calc` builds for sample `k`: the rotation matrix of the
sample's rotation vector in columns 0 to 2, its translation in column 3. -/
def calcTrans (env : CalcEnv) (solve : CameraSolve) (k : Nat) : Nat → Nat → ARdouble :=
  let rotationVector : Nat → ARdouble := fun i => (solve.rotationVectors.getD k fun _ => 0) i
  let rotationMatrix := env.cvRodrigues2 rotationVector
  fun j i => if i < 3 then rotationMatrix j i else (solve.translationVectors.getD k fun _ => 0) j

/-- The homogeneous image point `(hx, hy, h)` that the error loop of `calc` computes for
the pattern point `(x, y, 0)`: pose first, then the matrix of `param`. -/
def projectPoint (param : ARParam) (trans : Nat → Nat → ARdouble) (x y : ARdouble) :
    ARdouble × ARdouble × ARdouble :=
  let cx := trans 0 0 * x + trans 0 1 * y + trans 0 3
  let cy := trans 1 0 * x + trans 1 1 * y + trans 1 3
  let cz := trans 2 0 * x + trans 2 1 * y + trans 2 3
  let hx := param.mat 0 0 * cx + param.mat 0 1 * cy + param.mat 0 2 * cz + param.mat 0 3
  let hy := param.mat 1 0 * cx + param.mat 1 1 * cy + param.mat 1 2 * cz + param.mat 1 3
  let h := param.mat 2 0 * cx + param.mat 2 1 * cy + param.mat 2 2 * cz + param.mat 2 3
  (hx, hy, h)

/-- The body of the error loop of `calc` for the point with index `idx`: `continue` when
`h == 0.0`, otherwise add the squared pixel distance between the projected and distorted
object point and the observed point. Reading past the end of a vector is undefined in
C++; here it yields the origin. -/
def pointErrorStep (env : CalcEnv) (param : ARParam) (trans : Nat → Nat → ARdouble)
    (objectPoints0 : List Point3f) (corners : List Point2f) (idx : Nat) (err : ARdouble) :
    ARdouble :=
  let x := (objectPoints0.getD idx ⟨0, 0, 0⟩).x
  let y := (objectPoints0.getD idx ⟨0, 0, 0⟩).y
  let p := projectPoint param trans x y
  if p.2.2 = 0 then err
  else
    let o := env.arParamIdeal2Observ param.dist_factor (p.1 / p.2.2) (p.2.1 / p.2.2)
      param.dist_function_version
    let sx := (corners.getD idx ⟨0, 0⟩).x
    let sy := (corners.getD idx ⟨0, 0⟩).y
    err + ((o.1 - sx) * (o.1 - sx) + (o.2 - sy) * (o.2 - sy))

/-- The error of one sample in `calc`: the two nested loops over `i < width`,
`j < height` with index `i * height + j`, then `sqrtf(err / (width * height))`. -/
def sampleError (env : CalcEnv) (param : ARParam) (trans : Nat → Nat → ARdouble)
    (objectPoints0 : List Point3f) (corners : List Point2f) (patternSize : Size) : ARdouble :=
  let err := (List.range patternSize.width.toNat).foldl
    (fun err (i : Nat) => (List.range patternSize.height.toNat).foldl
      (fun err (j : Nat) =>
        pointErrorStep env param trans objectPoints0 corners
          (toSizeT (wrapInt (wrapInt ((i : Int) * patternSize.height) + (j : Int)))) err)
      err)
    0
  env.sqrtf (err / ((wrapInt (patternSize.width * patternSize.height) : Int) : ARdouble))

/-- The three running statistics of `calc`. -/
structure ErrorStats where
  err_min : ARdouble
  err_avg : ARdouble
  err_max : ARdouble
deriving DecidableEq, Repr

/-- One update of the statistics with the error of a sample:
`if (err < err_min) err_min = err; err_avg += err; if (err > err_max) err_max = err;`. -/
def ErrorStats.track (st : ErrorStats) (err : ARdouble) : ErrorStats where
  err_min := if err < st.err_min then err else st.err_min
  err_avg := st.err_avg + err
  err_max := if err > st.err_max then err else st.err_max

/-- The statistics of `calc` over the per-sample errors, in sample order: start values
1000000, 0, 0, one update per sample, then `err_avg /= (ARdouble)(capturedImageNum + 1)`.
In the source the updates sit in the loop that also computes each sample's error; the
statistics do not feed back into that computation. -/
def calcErrorStats (capturedImageNum : Int) (errs : List ARdouble) : ErrorStats :=
  let st := errs.foldl ErrorStats.track ⟨1000000, 0, 0⟩
  { st with err_avg := st.err_avg / ((wrapInt (capturedImageNum + 1) : Int) : ARdouble) }

/-- What `calc` leaves behind: the object stored through `param_out` (`none` would mean
that nothing was stored), the three statistics, and its log: whether the range-check
error was logged, and the `Err[k]` value of every sample. -/
structure CalcOutput where
  param_out : Option ARParam
  err_min_out : ARdouble
  err_avg_out : ARdouble
  err_max_out : ARdouble
  rangeErrorLogged : Bool
  errLog : List ARdouble

/-- The object points `calc` sets up: the pattern's points, once per captured image
(`objectPoints.resize(capturedImageNum, objectPoints[0])`). -/
def calcObjectPoints (a : CalcArgs) : List (List Point3f) :=
  List.replicate a.capturedImageNum.toNat
    (calcChessboardCorners a.patternType a.patternSize a.patternSpacing)

/-- The call of `calibrateCamera` in `calc`. -/
def calcSolve (env : CalcEnv) (a : CalcArgs) : CameraSolve :=
  let flags : Nat := 0
  env.calibrateCamera (calcObjectPoints a) a.cornerSet ⟨a.width, a.height⟩
    (flags ||| CALIB_FIX_K3 ||| CALIB_FIX_K4 ||| CALIB_FIX_K5)

/-- The parameters `calc` converts from the solver's output: `intr` is the solved
intrinsic matrix with a zero fourth column, `dist` the solved distortion coefficients;
`param` is the local object of that name as it is before `convParam` fills it. -/
def calcParam (env : CalcEnv) (a : CalcArgs) (param : ARParam) : ARParam :=
  let solve := calcSolve env a
  let intr : Nat → Nat → ARdouble := fun j i => if i < 3 then solve.intrinsics j i else 0
  let dist : Nat → ARdouble := solve.distortionCoeff
  convParam env.arParamObserv2Ideal intr dist a.width a.height param

/-- The function `calc` (the name is a reserved word here, hence `calcCamera`). `param`
is the local object of that name as it is before `convParam` fills it. The result of the
range check is used for the log message only. -/
def calcCamera (env : CalcEnv) (a : CalcArgs) (param : ARParam) : CalcOutput :=
  let solve := calcSolve env a
  let ok := env.checkRangeIntrinsics solve.intrinsics &&
    env.checkRangeDistortion solve.distortionCoeff
  let param := calcParam env a param
  let errs : List ARdouble := (List.range a.capturedImageNum.toNat).map fun (k : Nat) =>
    sampleError env param (calcTrans env solve k) ((calcObjectPoints a).getD 0 [])
      (a.cornerSet.getD k []) a.patternSize
  let st := calcErrorStats a.capturedImageNum errs
  { param_out := some param
    err_min_out := st.err_min
    err_avg_out := st.err_avg
    err_max_out := st.err_max
    rangeErrorLogged := !ok
    errLog := errs }

/-- The squared pixel distance between the projected and distorted object point with
index `n` and the observed point with the same index, in the words of the
specification. -/
def pointSquaredError (env : CalcEnv) (param : ARParam) (trans : Nat → Nat → ARdouble)
    (objectPoints0 : List Point3f) (corners : List Point2f) (n : Nat) : ARdouble :=
  let pt := objectPoints0.getD n ⟨0, 0, 0⟩
  let p := projectPoint param trans pt.x pt.y
  let o := env.arParamIdeal2Observ param.dist_factor (p.1 / p.2.2) (p.2.1 / p.2.2)
    param.dist_function_version
  let c := corners.getD n ⟨0, 0⟩
  (o.1 - c.x) ^ 2 + (o.2 - c.y) ^ 2

/-- The projective depth `h` of the object point with index `n`. -/
def pointDepth (param : ARParam) (trans : Nat → Nat → ARdouble)
    (objectPoints0 : List Point3f) (n : Nat) : ARdouble :=
  (projectPoint param trans (objectPoints0.getD n ⟨0, 0, 0⟩).x
    (objectPoints0.getD n ⟨0, 0, 0⟩).y).2.2

/-- The per-sample error when the points of projective depth 0 are left out of the sum:
the square root of the sum, over the pattern points with `h ≠ 0`, of the squared pixel
distance, divided by the number `width * height` of pattern points. -/
def reprojectionErrorSkipping (env : CalcEnv) (param : ARParam) (trans : Nat → Nat → ARdouble)
    (objectPoints0 : List Point3f) (corners : List Point2f) (patternSize : Size) : ARdouble :=
  env.sqrtf
    ((((List.range (patternSize.width * patternSize.height).toNat).filter
          fun n => pointDepth param trans objectPoints0 n ≠ 0).map
        (pointSquaredError env param trans objectPoints0 corners)).sum /
      ((patternSize.width * patternSize.height : Int) : ARdouble))

/-- The per-sample error in the words of the specification: the square root of the sum,
over all `width * height` pattern points, of the squared pixel distance, divided by the
number of points. -/
def reprojectionError (env : CalcEnv) (param : ARParam) (trans : Nat → Nat → ARdouble)
    (objectPoints0 : List Point3f) (corners : List Point2f) (patternSize : Size) : ARdouble :=
  env.sqrtf
    (((List.range (patternSize.width * patternSize.height).toNat).map
        (pointSquaredError env param trans objectPoints0 corners)).sum /
      ((patternSize.width * patternSize.height : Int) : ARdouble))

/-! ## Concrete stand-ins for the external routines, used to evaluate the definitions -/

/-- A detector stand-in that reports the full grid for every image, with
`width * height` points at the origin (and reports nothing found when that product is
negative). -/
def gridDetector (_ : IplImage) (patternSize : Size) (_ : Nat) : Bool × List Point2f :=
  (decide (0 ≤ patternSize.width * patternSize.height),
    List.replicate (patternSize.width * patternSize.height).toNat ⟨0, 0⟩)

/-- An OpenCV stand-in: the detectors are `gridDetector`, and `cornerSubPix` replaces
every point `(x, y)` by `(1, x)`. -/
def demoCV : OpenCV where
  findChessboardCorners := gridDetector
  findCirclesGrid := gridDetector
  cornerSubPix := fun _ corners _ _ _ => corners.map fun p => ⟨1, p.x⟩

/-- The distortion-free observed-to-ideal map: the ideal point is the observed point. -/
def identityObserv2Ideal (_ : Nat → ARdouble) (ox oy : ARdouble) (_ : Int) : ARdouble × ARdouble :=
  (ox, oy)

/-- An observed-to-ideal stand-in that stretches the image by the factor 200 about the
point (1, 1). -/
def stretchObserv2Ideal (_ : Nat → ARdouble) (ox oy : ARdouble) (_ : Int) : ARdouble × ARdouble :=
  (1 + 200 * (ox - 1), 1 + 200 * (oy - 1))

/-- An observed-to-ideal stand-in that moves every point two pixels to the left. -/
def shiftObserv2Ideal (_ : Nat → ARdouble) (ox oy : ARdouble) (_ : Int) : ARdouble × ARdouble :=
  (ox - 2, oy)

/-- A square-root stand-in that is exact on squares of rationals: the integer square
roots of numerator and denominator. -/
def demoSqrt (x : ARdouble) : ARdouble := (Nat.sqrt x.num.toNat : ARdouble) / Nat.sqrt x.den

/-- A stand-in for the routines behind `calc`: the solver returns the identity as
intrinsics, no distortion, and for every sample the rotation vector 0 and the translation
`(0, 0, tz)`; `cvRodrigues2` returns the identity rotation; both distortion maps are the
identity; the range checks report `inRange`. -/
def demoEnv (tz : ARdouble) (inRange : Bool) : CalcEnv where
  calibrateCamera := fun _ cornerSet _ _ =>
    { rms := 0
      intrinsics := fun j i => if j = i then 1 else 0
      distortionCoeff := fun _ => 0
      rotationVectors := cornerSet.map fun _ _ => 0
      translationVectors := cornerSet.map fun _ (j : Nat) => if j = 2 then tz else 0 }
  checkRangeIntrinsics := fun _ => inRange
  checkRangeDistortion := fun _ => inRange
  cvRodrigues2 := fun _ j i => if j = i then 1 else 0
  arParamObserv2Ideal := identityObserv2Ideal
  arParamIdeal2Observ := identityObserv2Ideal
  sqrtf := demoSqrt

/-- Arguments of `calc` for one sample of a 1 x 1 chessboard with spacing 30 in a
640 x 480 image, the single corner observed at `(x, y)`. -/
def onePointArgs (x y : ARdouble) : CalcArgs :=
  ⟨1, .CHESSBOARD, ⟨1, 1⟩, 30, [[⟨x, y⟩]], 640, 480⟩

/-- An `ARParam` object with every field zero. -/
def zeroParam : ARParam := ⟨0, 0, fun _ _ => 0, fun _ => 0, 0⟩

/-- A session that has collected one full detection of a 2 x 2 chessboard and holds no
accepted sample yet: construction with the given maximum, one submitted frame, one
worker run, one collecting `frame` call. -/
def collectedSession (calibImageCountMax : Int) : Calibration :=
  Calibration.run demoCV (Calibration.construct .CHESSBOARD calibImageCountMax ⟨2, 2⟩ 30 2 2)
    [.frame ⟨some [1, 2, 3, 4], 2, 2⟩, .workerWake, .workerRun, .frame ⟨none, 2, 2⟩]

/-- A session in which the worker is busy while a finished result awaits collection,
reached from construction when a `frame` call and the worker interleave: a first `frame`
call submits image A; the worker starts on A; a second `frame` call finds nothing to
collect; the worker finishes A; the second `frame` call goes on, finds the worker not
busy and submits image B; the worker starts on B. -/
def busyWithPendingResult : Calibration :=
  let s0 := Calibration.construct .CHESSBOARD 10 ⟨2, 2⟩ 30 2 2
  let s1 := (s0.frame ⟨some [1, 2, 3, 4], 2, 2⟩).2
  let s2 := s1.cornerFinderWake
  let s3 := s2.frameCollect
  let s4 := s3.cornerFinderRun demoCV
  let s5 := s4.frameSubmit ⟨some [5, 6, 7, 8], 2, 2⟩
  s5.cornerFinderWake

/-- The session on the way to `busyWithPendingResult` at the moment the worker finishes
its detection on image A, inside the second `frame` call: that call has made its first
test and not yet its second. -/
def finishedInsideFrame : Calibration :=
  let s0 := Calibration.construct .CHESSBOARD 10 ⟨2, 2⟩ 30 2 2
  let s1 := (s0.frame ⟨some [1, 2, 3, 4], 2, 2⟩).2
  let s2 := s1.cornerFinderWake
  let s3 := s2.frameCollect
  s3.cornerFinderRun demoCV

/-- A session whose worker has just finished its first detection: one submitted frame,
one worker run. -/
def finishedSession : Calibration :=
  Calibration.run demoCV (Calibration.construct .CHESSBOARD 10 ⟨2, 2⟩ 30 2 2)
    [.frame ⟨some [1, 2, 3, 4], 2, 2⟩, .workerWake, .workerRun]

/-- The point-count invariant of a session for pattern size `size`: every accepted
sample has `width * height` points, a non-zero found-all flag (cached or in the worker
data) comes with that many points, and the worker data carry the pattern size. -/
def SampleLengths (size : Size) (s : Calibration) : Prop :=
  (∀ c ∈ s.m_corners, (c.length : Int) = size.width * size.height) ∧
  (s.m_cornerFinderResultData.cornerFoundAllFlag ≠ 0 →
    (s.m_cornerFinderResultData.corners.length : Int) = size.width * size.height) ∧
  (s.m_cornerFinderData.cornerFoundAllFlag ≠ 0 →
    (s.m_cornerFinderData.corners.length : Int) = size.width * size.height) ∧
  s.m_cornerFinderData.patternSize = size

/-! ## Further definitions: the session -/

/-- The method `Calibration::cornerFinderResultsLockAndFetch`: its return value, the
three values it stores through its output parameters (the found-all flag, the point
sequence and the image buffer of the cached result), and the session, which it does not
modify. It takes the result lock and leaves it held for the caller; the lock is not
represented. -/
def Calibration.cornerFinderResultsLockAndFetch (s : Calibration) :
    Bool × (Int × List Point2f × List Nat) × Calibration :=
  (true,
    (s.m_cornerFinderResultData.cornerFoundAllFlag, s.m_cornerFinderResultData.corners,
      s.m_cornerFinderResultData.videoFrame),
    s)

/-- The refinement `capture` applies to the cached points of a session: `cornerSubPix` on
the cached image with window (5, 5), no dead zone, and at most 100 iterations or an
accuracy of 0.1. -/
def Calibration.refinedCorners (cv : OpenCV) (s : Calibration) : List Point2f :=
  cv.cornerSubPix s.m_cornerFinderResultData.calibImage s.m_cornerFinderResultData.corners
    ⟨5, 5⟩ ⟨-1, -1⟩ ⟨CV_TERMCRIT_ITER, 100, 1 / 10⟩

/-- The three conditions of the worker handshake (start signalled, worker busy, result
ready) exclude each other. -/
def THREAD_HANDLE_T.exclusive (t : THREAD_HANDLE_T) : Prop :=
  ¬ (t.startF = true ∧ t.busyF = true) ∧
  ¬ (t.startF = true ∧ t.endF = true) ∧
  ¬ (t.busyF = true ∧ t.endF = true)

/-- A session right after its first `frame` call: image A = 1, 2, 3, 4 is in the
worker's input buffer and the start is signalled; the worker has not woken yet. -/
def submittedSession : Calibration :=
  Calibration.run demoCV (Calibration.construct .CHESSBOARD 10 ⟨2, 2⟩ 30 2 2)
    [.frame ⟨some [1, 2, 3, 4], 2, 2⟩]

/-- The integer part of a rational: the fractional part is discarded (rounding toward
zero). -/
def truncQ (x : ℚ) : Int := if 0 ≤ x then ⌊x⌋ else ⌈x⌉

/-- The implicit conversion of a `float` argument to an `int` parameter: the fractional
part is discarded. When the integer part does not fit an `int` the conversion is
undefined in C++; the x86 conversion instruction then delivers `INT_MIN`, and so does
this function. -/
def floatToInt (x : ℚ) : Int := if isInt (truncQ x) then truncQ x else INT_MIN

/-- The construction of the session in `calib_camera.cpp`,
`new Calibration(gCalibrationPatternType, gPreferencesCalibImageCountMax,
gCalibrationPatternSize, gCalibrationPatternSpacing, videoWidth, videoHeight)`: the
`float` variable `gCalibrationPatternSpacing` is the argument for the constructor's
parameter `const int chessboardSquareWidth`. -/
def newCalibration (gCalibrationPatternType : CalibrationPatternType)
    (gPreferencesCalibImageCountMax : Int) (gCalibrationPatternSize : Size)
    (gCalibrationPatternSpacing : ℚ) (videoWidth videoHeight : Int) : Calibration :=
  Calibration.construct gCalibrationPatternType gPreferencesCalibImageCountMax
    gCalibrationPatternSize (floatToInt gCalibrationPatternSpacing) videoWidth videoHeight

/-- Arguments of `calc` without any captured image: a 1 x 1 chessboard with spacing 30 in
a 640 x 480 image. -/
def noSampleArgs : CalcArgs := ⟨0, .CHESSBOARD, ⟨1, 1⟩, 30, [], 640, 480⟩

/-- The squared error `err` that the two nested loops of `calc` accumulate for one
sample, before the division by the point count and the square root. -/
def accumulatedSquaredError (env : CalcEnv) (param : ARParam) (trans : Nat → Nat → ARdouble)
    (objectPoints0 : List Point3f) (corners : List Point2f) (patternSize : Size) : ARdouble :=
  (List.range patternSize.width.toNat).foldl
    (fun err (i : Nat) => (List.range patternSize.height.toNat).foldl
      (fun err (j : Nat) =>
        pointErrorStep env param trans objectPoints0 corners
          (toSizeT (wrapInt (wrapInt ((i : Int) * patternSize.height) + (j : Int)))) err)
      err)
    0

/-! ## `fileUploader.c` -/

/-- The type `struct timeval`: seconds and microseconds. -/
structure timeval where
  tv_sec : Int
  tv_usec : Int
deriving DecidableEq, Repr

/-- The constant `UPLOAD_STATUS_BUFFER_LEN`. -/
def UPLOAD_STATUS_BUFFER_LEN : Nat := 128

/-- The type `struct _FILE_UPLOAD_HANDLE`. A C string is the list of its characters
before the terminating NUL; `uploadStatus` is the string held in the array of that name.
The upload thread is represented by its handshake flags; the status lock is not
represented. -/
structure FILE_UPLOAD_HANDLE_t where
  queueDirPath : List Char
  formExtension : List Char
  formPostURL : List Char
  uploadThread : THREAD_HANDLE_T
  uploadStatus : List Char
  uploadStatusHide : Bool
  uploadStatusHideAtTime : timeval
  uploadStatusHideAfterSecs : timeval
deriving DecidableEq, Repr

/-- The string left in the destination by `strncpy(dst, src, n)`: the first `n`
characters of `src`, which is all of `src` when it is shorter than `n`. -/
def strncpy (_ src : List Char) (n : Nat) : List Char := src.take n

/-- The function `fileUploaderStatusGet`: its return value, the handle after the call
(`none` is the null pointer) and the contents of `statusBuf` after the call. -/
def fileUploaderStatusGet (handle : Option FILE_UPLOAD_HANDLE_t) (statusBuf : List Char)
    (currentTime : timeval) : Int × Option FILE_UPLOAD_HANDLE_t × List Char :=
  match handle with
  | none => (-1, none, statusBuf)
  | some h =>
    if h.uploadStatus ≠ [] then
      if h.uploadStatusHide = true ∧ currentTime.tv_sec ≥ h.uploadStatusHideAtTime.tv_sec ∧
          currentTime.tv_usec ≥ h.uploadStatusHideAtTime.tv_usec then
        (0, some { h with uploadStatus := [], uploadStatusHide := false }, statusBuf)
      else
        (if threadGetStatus h.uploadThread = false then 1 else 2, some h,
          strncpy statusBuf h.uploadStatus UPLOAD_STATUS_BUFFER_LEN)
    else (0, some h, statusBuf)

/-- A handle after a finished upload pass: the message `Uploaded 1 file` is stored, the
thread has signalled completion, and the message is to be hidden from 100 s 600000 µs
on. -/
def uploadedHandle : FILE_UPLOAD_HANDLE_t where
  queueDirPath := "queue".toList
  formExtension := "upload".toList
  formPostURL := "https://example.org/upload".toList
  uploadThread := ⟨false, true, false⟩
  uploadStatus := "Uploaded 1 file".toList
  uploadStatusHide := true
  uploadStatusHideAtTime := ⟨100, 600000⟩
  uploadStatusHideAfterSecs := ⟨2, 0⟩

/-- The constant `BUFSIZE` of `fileUploader`. -/
def BUFSIZE : Nat := 1024

/-- The newline character. -/
def charLF : Char := Char.ofNat 10
/-- The carriage-return character. -/
def charCR : Char := Char.ofNat 13
/-- The comment character `#`. -/
def charHash : Char := Char.ofNat 35
/-- The comma. -/
def charComma : Char := Char.ofNat 44

/-- The characters `fgets` stores when the buffer has room for `k` more: the characters
of the stream up to and including the first newline, at most `k` of them; with them, the
unread rest of the stream. -/
def fgetsChars : Nat → List Char → List Char × List Char
  | 0, cs => ([], cs)
  | _ + 1, [] => ([], [])
  | k + 1, c :: cs =>
    if c = charLF then ([c], cs)
    else (c :: (fgetsChars k cs).1, (fgetsChars k cs).2)

/-- The library function `fgets(buf, n, fp)` on a stream given by its unread characters:
`none` (a null result) at end of file, otherwise the string stored in `buf`, of at most
`n - 1` characters, and the unread rest. Read errors are not represented, and the file
holds no NUL character. -/
def fgets (n : Nat) (fp : List Char) : Option (List Char × List Char) :=
  if fp = [] then none else some (fgetsChars (n - 1) fp)

/-- The loop of `get_buff` that removes newlines and carriage returns from the end of
the string. -/
def stripEol (buf : List Char) : List Char :=
  (buf.reverse.dropWhile fun c => c = charLF ∨ c = charCR).reverse

/-- The `do ... while` loop of `get_buff`, run for at most the given number of rounds:
read, strip, and go round again while the string starts with `#` or (with `skipblanks`)
is empty. -/
def get_buffLoop : Nat → Nat → List Char → Bool → Option (List Char × List Char)
  | 0, _, _, _ => none
  | rounds + 1, n, fp, skipblanks =>
    match fgets n fp with
    | none => none
    | some (buf, rest) =>
      if (stripEol buf).head? = some charHash ∨ (skipblanks = true ∧ stripEol buf = []) then
        get_buffLoop rounds n rest skipblanks
      else some (stripEol buf, rest)

/-- The function `get_buff`: `none` for a null result, otherwise the string left in
`buf` and the unread rest of the stream. For `n >= 2` every round but the last reads at
least one character, so one round more than there are unread characters is enough
(`get_buffLoop_rounds`, `get_buff_eq`). For `n < 2` the loop in the source need not end;
here the result is then `none`. -/
def get_buff (n : Nat) (fp : List Char) (skipblanks : Bool) : Option (List Char × List Char) :=
  get_buffLoop (fp.length + 1) n fp skipblanks

/-- The call `strchr(buf, c)` followed by `*commaPos = '\0'`: `none` when `c` does not
occur, otherwise the text before the first `c` and the text after it. -/
def splitAtFirst (c : Char) : List Char → Option (List Char × List Char)
  | [] => none
  | x :: xs =>
    if x = c then some ([], xs)
    else match splitAtFirst c xs with
      | none => none
      | some p => some (x :: p.1, p.2)

/-- One part of the form that `fileUploader` builds with `curl_formadd`: the name, the
contents, and whether the contents are the path of a file to upload (`CURLFORM_FILE`)
or the field's text (`CURLFORM_COPYCONTENTS`). -/
structure FormField where
  name : List Char
  contents : List Char
  isFile : Bool
deriving DecidableEq, Repr

/-- The body of the reading loop in `fileUploader` for one string delivered by
`get_buff`: nothing without a comma; otherwise one form part, a file part when the name
is `file`. -/
def lineFormFields (buf : List Char) : List FormField :=
  match splitAtFirst charComma buf with
  | none => []
  | some p =>
    if p.1 = "file".toList then [⟨p.1, p.2, true⟩] else [⟨p.1, p.2, false⟩]

/-- The reading loop `while (get_buff(buf, BUFSIZE, fp, true)) ...` of `fileUploader`,
run for at most the given number of rounds: the form parts in the order in which they
are added. -/
def indexFormFieldsLoop : Nat → List Char → List FormField
  | 0, _ => []
  | rounds + 1, fp =>
    match get_buff BUFSIZE fp true with
    | none => []
    | some (buf, rest) => lineFormFields buf ++ indexFormFieldsLoop rounds rest

/-- The form parts that `fileUploader` reads from an index file with the given
contents. Every round reads at least one character, so one round more than there are
characters is enough (`indexFormFieldsLoop_rounds`). -/
def indexFormFields (fp : List Char) : List FormField :=
  indexFormFieldsLoop (fp.length + 1) fp

/-- An index-file line of 1025 characters: `a,`, then 1021 times `x`, then `,b`. -/
def longLine : List Char :=
  'a' :: charComma :: (List.replicate 1021 'x' ++ [charComma, 'b'])

/-! ## Theorems: the accepted-sample list -/

/-- A non-negative `int` converts to `size_t` unchanged. -/
theorem toSizeT_of_nonneg (x : Int) (h0 : 0 ≤ x) (h : isInt x) : toSizeT x = x.toNat := by
  unfold isInt INT_MIN INT_MAX at h
  unfold toSizeT
  rw [Int.emod_eq_of_lt h0 (by omega)]

/-- A negative `int` converts to a `size_t` of at least `2^63`. -/
theorem toSizeT_of_neg (x : Int) (h0 : x < 0) (h : isInt x) :
    9223372036854775808 ≤ toSizeT x := by
  unfold isInt INT_MIN INT_MAX at h
  unfold toSizeT
  omega

/-- With a non-negative maximum, `capture` rejects without any change when the list has
reached the maximum or the cached detection is not a full one. -/
theorem capture_rejects_of_nonneg (cv : OpenCV) (s : Calibration)
    (h0 : 0 ≤ s.m_calibImageCountMax) (hint : isInt s.m_calibImageCountMax)
    (h : s.m_calibImageCountMax ≤ (s.m_corners.length : Int) ∨
      s.m_cornerFinderResultData.cornerFoundAllFlag = 0) :
    s.capture cv = (false, s) := by
  unfold Calibration.capture
  rw [toSizeT_of_nonneg _ h0 hint]
  rcases h with h | h
  · rw [if_pos (by omega)]
  · simp [h]

/-- C1: evaluation of `capture` at a state the claim covers. The session
`collectedSession (-1)` has no accepted sample and maximum -1, so its count is above the
maximum; `capture` nevertheless returns true and appends a sample. -/
theorem capture_accepts_above_negative_max :
    (collectedSession (-1)).m_calibImageCountMax ≤ ((collectedSession (-1)).m_corners.length : Int) ∧
    ((collectedSession (-1)).capture demoCV).1 = true ∧
    ((collectedSession (-1)).capture demoCV).2.m_corners.length = 1 ∧
    ((collectedSession (-1)).capture demoCV).2.m_corners ≠ (collectedSession (-1)).m_corners := by
  decide

/-- C2, as stated, fails: a session constructed with maximum -1 holds 0 samples, and 0
exceeds -1; after one collected detection a `capture` still succeeds and the count is 1. -/
theorem count_exceeds_negative_max :
    (((Calibration.construct .CHESSBOARD (-1) ⟨2, 2⟩ 30 2 2).run demoCV []).m_corners.length : Int) >
      -1 ∧
    (((Calibration.construct .CHESSBOARD (-1) ⟨2, 2⟩ 30 2 2).run demoCV
      [.frame ⟨some [1, 2, 3, 4], 2, 2⟩, .workerWake, .workerRun, .frame ⟨none, 2, 2⟩,
        .capture]).m_corners.length : Int) > -1 := by
  decide

/-- C3: a successful capture appends exactly one sample. For every session state (the
maximum being an `int` value) with accepted-sample count below the maximum and cached
`cornerFoundAllFlag` non-zero, `capture` returns true, the new list is the old list
followed by one new last element equal to the sub-pixel refinement of the cached points,
and the count grows by exactly one. -/
theorem capture_appends_one (cv : OpenCV) (s : Calibration)
    (hint : isInt s.m_calibImageCountMax)
    (hlt : (s.m_corners.length : Int) < s.m_calibImageCountMax)
    (hflag : s.m_cornerFinderResultData.cornerFoundAllFlag ≠ 0) :
    (s.capture cv).1 = true ∧
    (s.capture cv).2.m_corners = s.m_corners ++
      [cv.cornerSubPix s.m_cornerFinderResultData.calibImage s.m_cornerFinderResultData.corners
        ⟨5, 5⟩ ⟨-1, -1⟩ ⟨CV_TERMCRIT_ITER, 100, 1 / 10⟩] ∧
    (s.capture cv).2.m_corners.length = s.m_corners.length + 1 := by
  have h0 : 0 ≤ s.m_calibImageCountMax := by omega
  unfold Calibration.capture
  rw [toSizeT_of_nonneg _ h0 hint, if_neg (by omega), if_pos hflag]
  simp

/-- Witness of `capture_appends_one`: the collected session with maximum 10. -/
theorem capture_appends_one_witness :
    (((collectedSession 10).capture demoCV).1 = true ∧
    ((collectedSession 10).capture demoCV).2.m_corners = (collectedSession 10).m_corners ++
      [demoCV.cornerSubPix (collectedSession 10).m_cornerFinderResultData.calibImage
        (collectedSession 10).m_cornerFinderResultData.corners
        ⟨5, 5⟩ ⟨-1, -1⟩ ⟨CV_TERMCRIT_ITER, 100, 1 / 10⟩] ∧
    ((collectedSession 10).capture demoCV).2.m_corners.length =
      (collectedSession 10).m_corners.length + 1) :=
  capture_appends_one demoCV (collectedSession 10) (by decide) (by decide) (by decide)

/-- On a list that is `earlier` followed by `last`, `uncapture` returns true and leaves
`earlier`. -/
theorem uncapture_concat (s : Calibration) (earlier : List (List Point2f))
    (last : List Point2f) (h : s.m_corners = earlier ++ [last]) :
    s.uncapture = (true, { s with m_corners := earlier }) := by
  unfold Calibration.uncapture
  rw [if_neg (by simp [h]), h, List.dropLast_concat]

/-- C4: `uncapture` on an empty list returns false and changes nothing; on a non-empty
list it returns true, and when the list is `earlier` followed by `last` the new session
is the old one with the list replaced by `earlier`. -/
theorem uncapture_removes_last (s : Calibration) :
    (s.m_corners = [] → s.uncapture = (false, s)) ∧
    (s.m_corners ≠ [] → s.uncapture.1 = true) ∧
    (∀ (earlier : List (List Point2f)) (last : List Point2f), s.m_corners = earlier ++ [last] →
      s.uncapture = (true, { s with m_corners := earlier })) := by
  refine ⟨?_, ?_, ?_⟩
  · intro h
    simp [Calibration.uncapture, h]
  · intro h
    have hpos : 0 < s.m_corners.length := List.length_pos.mpr h
    unfold Calibration.uncapture
    rw [if_neg (by omega)]
  · intro earlier last h
    exact uncapture_concat s earlier last h

/-- Witness of `uncapture_removes_last`: the collected session before and after one
capture. -/
theorem uncapture_removes_last_witness :
    (collectedSession 10).uncapture = (false, collectedSession 10) ∧
    ((collectedSession 10).capture demoCV).2.uncapture.1 = true ∧
    ((collectedSession 10).capture demoCV).2.uncapture =
      (true, { ((collectedSession 10).capture demoCV).2 with m_corners := [] }) :=
  ⟨(uncapture_removes_last (collectedSession 10)).1 (by decide),
    (uncapture_removes_last ((collectedSession 10).capture demoCV).2).2.1 (by decide),
    (uncapture_removes_last ((collectedSession 10).capture demoCV).2).2.2 []
      [⟨1, 0⟩, ⟨1, 0⟩, ⟨1, 0⟩, ⟨1, 0⟩] (by decide)⟩

/-- C5: `uncaptureAll` on an empty list returns false and changes nothing; on a non-empty
list it returns true, the accepted-sample count is 0 afterwards and nothing else
changes. -/
theorem uncaptureAll_clears (s : Calibration) :
    (s.m_corners = [] → s.uncaptureAll = (false, s)) ∧
    (s.m_corners ≠ [] → s.uncaptureAll.1 = true ∧ s.uncaptureAll.2.m_corners.length = 0 ∧
      s.uncaptureAll.2 = { s with m_corners := [] }) := by
  refine ⟨?_, ?_⟩
  · intro h
    simp [Calibration.uncaptureAll, h]
  · intro h
    have hpos : 0 < s.m_corners.length := List.length_pos.mpr h
    unfold Calibration.uncaptureAll
    rw [if_neg (by omega)]
    simp

/-- Witness of `uncaptureAll_clears`: the collected session before and after one
capture. -/
theorem uncaptureAll_clears_witness :
    (collectedSession 10).uncaptureAll = (false, collectedSession 10) ∧
    (((collectedSession 10).capture demoCV).2.uncaptureAll.1 = true ∧
      ((collectedSession 10).capture demoCV).2.uncaptureAll.2.m_corners.length = 0 ∧
      ((collectedSession 10).capture demoCV).2.uncaptureAll.2 =
        { ((collectedSession 10).capture demoCV).2 with m_corners := [] }) :=
  ⟨(uncaptureAll_clears (collectedSession 10)).1 (by decide),
    (uncaptureAll_clears ((collectedSession 10).capture demoCV).2).2 (by decide)⟩

/-- A successful `capture` passed both of its tests. -/
theorem capture_true_iff (cv : OpenCV) (s : Calibration) :
    (s.capture cv).1 = true ↔
      s.m_corners.length < toSizeT s.m_calibImageCountMax ∧
      s.m_cornerFinderResultData.cornerFoundAllFlag ≠ 0 := by
  unfold Calibration.capture
  by_cases h1 : s.m_corners.length ≥ toSizeT s.m_calibImageCountMax
  · rw [if_pos h1]
    simp only [Bool.false_eq_true, false_iff, not_and]
    intro h
    omega
  · rw [if_neg h1]
    by_cases h2 : s.m_cornerFinderResultData.cornerFoundAllFlag ≠ 0
    · rw [if_pos h2]
      simp only [true_iff]
      exact ⟨by omega, h2⟩
    · rw [if_neg h2]
      simp only [Bool.false_eq_true, false_iff, not_and]
      intro _
      exact h2

/-- The session after a successful `capture`. -/
theorem capture_snd_of_true (cv : OpenCV) (s : Calibration) (h : (s.capture cv).1 = true) :
    (s.capture cv).2 =
      { s with
        m_cornerFinderResultData :=
          { s.m_cornerFinderResultData with
            corners := cv.cornerSubPix s.m_cornerFinderResultData.calibImage
              s.m_cornerFinderResultData.corners ⟨5, 5⟩ ⟨-1, -1⟩ ⟨CV_TERMCRIT_ITER, 100, 1 / 10⟩ }
        m_corners := s.m_corners ++
          [cv.cornerSubPix s.m_cornerFinderResultData.calibImage
            s.m_cornerFinderResultData.corners ⟨5, 5⟩ ⟨-1, -1⟩ ⟨CV_TERMCRIT_ITER, 100, 1 / 10⟩] } := by
  obtain ⟨h1, h2⟩ := (capture_true_iff cv s).mp h
  unfold Calibration.capture
  rw [if_neg (by omega), if_pos h2]

/-- C6: undo then re-accept keeps the point count. Let `s` hold the accepted list, the
cached detection and the maximum that a successful `capture` on `s0` left behind. Then
`uncapture` on `s` succeeds, the following `capture` succeeds, the list is again the
earlier samples plus one sample, and the new sample has as many points as the removed
one, given that `cornerSubPix` returns as many points as it receives. -/
theorem uncapture_capture_same_count (cv : OpenCV) (s0 s : Calibration)
    (hsub : ∀ img c w z t, (cv.cornerSubPix img c w z t).length = c.length)
    (hcap : (s0.capture cv).1 = true)
    (hcorners : s.m_corners = (s0.capture cv).2.m_corners)
    (hres : s.m_cornerFinderResultData = (s0.capture cv).2.m_cornerFinderResultData)
    (hmax : s.m_calibImageCountMax = s0.m_calibImageCountMax) :
    s.uncapture.1 = true ∧ (s.uncapture.2.capture cv).1 = true ∧
    ∃ removed added : List Point2f,
      s.m_corners = s0.m_corners ++ [removed] ∧
      (s.uncapture.2.capture cv).2.m_corners = s0.m_corners ++ [added] ∧
      added.length = removed.length ∧
      (s.uncapture.2.capture cv).2.m_corners.length = s.m_corners.length := by
  obtain ⟨h1, h2⟩ := (capture_true_iff cv s0).mp hcap
  rw [capture_snd_of_true cv s0 hcap] at hcorners hres
  simp only at hcorners hres
  have hun : s.uncapture = (true, { s with m_corners := s0.m_corners }) :=
    uncapture_concat s _ _ hcorners
  have hcap2 : (s.uncapture.2.capture cv).1 = true := by
    rw [capture_true_iff, hun]
    simp only [hmax, hres]
    exact ⟨h1, h2⟩
  have hfin : (s.uncapture.2.capture cv).2.m_corners = s0.m_corners ++
      [cv.cornerSubPix s.m_cornerFinderResultData.calibImage s.m_cornerFinderResultData.corners
        ⟨5, 5⟩ ⟨-1, -1⟩ ⟨CV_TERMCRIT_ITER, 100, 1 / 10⟩] := by
    rw [capture_snd_of_true cv _ hcap2, hun]
  refine ⟨by rw [hun], hcap2, _, _, hcorners, hfin, ?_, ?_⟩
  · rw [hsub, hsub, hres]
    exact hsub _ _ _ _ _
  · rw [hfin, hcorners]
    simp

/-- Witness of `uncapture_capture_same_count`: the collected session, captured once. -/
theorem uncapture_capture_same_count_witness :
    ((collectedSession 10).capture demoCV).2.uncapture.1 = true ∧
    (((collectedSession 10).capture demoCV).2.uncapture.2.capture demoCV).1 = true ∧
    ∃ removed added : List Point2f,
      ((collectedSession 10).capture demoCV).2.m_corners =
        (collectedSession 10).m_corners ++ [removed] ∧
      (((collectedSession 10).capture demoCV).2.uncapture.2.capture demoCV).2.m_corners =
        (collectedSession 10).m_corners ++ [added] ∧
      added.length = removed.length ∧
      (((collectedSession 10).capture demoCV).2.uncapture.2.capture demoCV).2.m_corners.length =
        ((collectedSession 10).capture demoCV).2.m_corners.length :=
  uncapture_capture_same_count demoCV (collectedSession 10)
    ((collectedSession 10).capture demoCV).2
    (fun _ c _ _ _ => List.length_map c _) (by decide) rfl rfl (by decide)

/-- Every event preserves the point-count invariant, for detectors that report a full
grid only together with `width * height` points and a `cornerSubPix` that returns as many
points as it receives. -/
theorem step_preserves_sampleLengths (cv : OpenCV) (size : Size)
    (hchess : ∀ img sz fl, (cv.findChessboardCorners img sz fl).1 = true →
      ((cv.findChessboardCorners img sz fl).2.length : Int) = sz.width * sz.height)
    (hcirc : ∀ img sz fl, (cv.findCirclesGrid img sz fl).1 = true →
      ((cv.findCirclesGrid img sz fl).2.length : Int) = sz.width * sz.height)
    (hsub : ∀ img c w z t, (cv.cornerSubPix img c w z t).length = c.length)
    (s : Calibration) (ev : Event) (h : SampleLengths size s) :
    SampleLengths size (s.step cv ev) := by
  obtain ⟨hall, hres, hdat, hsize⟩ := h
  cases ev with
  | frame vs =>
    simp only [Calibration.step, Calibration.frame]
    by_cases hend : threadGetStatus s.m_cornerFinderThread = true
    · rw [if_pos hend]
      by_cases hbusy : threadGetBusyStatus (threadEndWait s.m_cornerFinderThread) = true
      · simp only [hbusy, Bool.not_true, Bool.false_eq_true, if_false]
        exact ⟨hall, hdat, hdat, hsize⟩
      · simp only [hbusy, Bool.not_false, if_true]
        cases vs.buffLuma with
        | none => exact ⟨hall, hdat, hdat, hsize⟩
        | some buff => exact ⟨hall, hdat, hdat, hsize⟩
    · rw [if_neg hend]
      by_cases hbusy : threadGetBusyStatus s.m_cornerFinderThread = true
      · simp only [hbusy, Bool.not_true, Bool.false_eq_true, if_false]
        exact ⟨hall, hres, hdat, hsize⟩
      · simp only [hbusy, Bool.not_false, if_true]
        cases vs.buffLuma with
        | none => exact ⟨hall, hres, hdat, hsize⟩
        | some buff => exact ⟨hall, hres, hdat, hsize⟩
  | capture =>
    simp only [Calibration.step]
    by_cases hc : (s.capture cv).1 = true
    · obtain ⟨_, hflag⟩ := (capture_true_iff cv s).mp hc
      rw [capture_snd_of_true cv s hc]
      refine ⟨?_, ?_, hdat, hsize⟩
      · intro c hcmem
        rcases List.mem_append.mp hcmem with hold | hnew
        · exact hall c hold
        · rw [List.mem_singleton.mp hnew, hsub]
          exact hres hflag
      · intro _
        show ((cv.cornerSubPix _ _ _ _ _).length : Int) = _
        rw [hsub]
        exact hres hflag
    · have hsame : (s.capture cv).2 = s := by
        unfold Calibration.capture at hc ⊢
        split_ifs at hc ⊢ <;> simp_all
      rw [hsame]
      exact ⟨hall, hres, hdat, hsize⟩
  | uncapture =>
    simp only [Calibration.step, Calibration.uncapture]
    split_ifs
    · exact ⟨hall, hres, hdat, hsize⟩
    · exact ⟨fun c hcmem => hall c (List.mem_of_mem_dropLast hcmem), hres, hdat, hsize⟩
  | uncaptureAll =>
    simp only [Calibration.step, Calibration.uncaptureAll]
    split_ifs
    · exact ⟨hall, hres, hdat, hsize⟩
    · exact ⟨fun c hcmem => absurd hcmem (List.not_mem_nil c), hres, hdat, hsize⟩
  | calib => exact ⟨hall, hres, hdat, hsize⟩
  | workerWake =>
    simp only [Calibration.step, Calibration.cornerFinderWake]
    cases threadStartWait s.m_cornerFinderThread with
    | none => exact ⟨hall, hres, hdat, hsize⟩
    | some t => exact ⟨hall, hres, hdat, hsize⟩
  | workerRun =>
    simp only [Calibration.step, Calibration.cornerFinderRun]
    split_ifs
    · refine ⟨hall, hres, ?_, hsize⟩
      rw [← hsize]
      simp only [Calibration.cornerFinderDetect]
      cases s.m_cornerFinderData.patternType with
      | CHESSBOARD =>
        intro hne
        exact hchess _ _ _ (by simpa using hne)
      | CIRCLES_GRID =>
        intro hne
        exact hcirc _ _ _ (by simpa using hne)
      | ASYMMETRIC_CIRCLES_GRID =>
        intro hne
        exact hcirc _ _ _ (by simpa using hne)
    · exact ⟨hall, hres, hdat, hsize⟩

/-- The point-count invariant holds along every event sequence. -/
theorem run_preserves_sampleLengths (cv : OpenCV) (size : Size)
    (hchess : ∀ img sz fl, (cv.findChessboardCorners img sz fl).1 = true →
      ((cv.findChessboardCorners img sz fl).2.length : Int) = sz.width * sz.height)
    (hcirc : ∀ img sz fl, (cv.findCirclesGrid img sz fl).1 = true →
      ((cv.findCirclesGrid img sz fl).2.length : Int) = sz.width * sz.height)
    (hsub : ∀ img c w z t, (cv.cornerSubPix img c w z t).length = c.length)
    (evs : List Event) (s : Calibration) (h : SampleLengths size s) :
    SampleLengths size (s.run cv evs) := by
  induction evs generalizing s with
  | nil => exact h
  | cons ev rest ih =>
    exact ih (s.step cv ev) (step_preserves_sampleLengths cv size hchess hcirc hsub s ev h)

/-- The point-count invariant holds in a newly constructed session. -/
theorem construct_sampleLengths (patternType : CalibrationPatternType) (calibImageCountMax : Int)
    (patternSize : Size) (chessboardSquareWidth videoWidth videoHeight : Int) :
    SampleLengths patternSize (Calibration.construct patternType calibImageCountMax patternSize
      chessboardSquareWidth videoWidth videoHeight) := by
  refine ⟨?_, ?_, ?_, rfl⟩
  · intro c hcmem
    exact absurd hcmem (List.not_mem_nil c)
  · intro hne
    exact absurd rfl hne
  · intro hne
    exact absurd rfl hne

/-- C7: sample length invariant. In every session state reached from construction by
`frame`, `capture`, `uncapture`, `uncaptureAll`, `calib` and worker steps, every accepted
sample has exactly `patternSize.width * patternSize.height` points, given that the
detectors report a full grid only with that many points and that `cornerSubPix` returns
as many points as it receives. -/
theorem accepted_samples_have_pattern_count (cv : OpenCV)
    (patternType : CalibrationPatternType) (calibImageCountMax : Int)
    (patternSize : Size) (chessboardSquareWidth videoWidth videoHeight : Int)
    (evs : List Event)
    (hchess : ∀ img sz fl, (cv.findChessboardCorners img sz fl).1 = true →
      ((cv.findChessboardCorners img sz fl).2.length : Int) = sz.width * sz.height)
    (hcirc : ∀ img sz fl, (cv.findCirclesGrid img sz fl).1 = true →
      ((cv.findCirclesGrid img sz fl).2.length : Int) = sz.width * sz.height)
    (hsub : ∀ img c w z t, (cv.cornerSubPix img c w z t).length = c.length) :
    ∀ sample ∈ ((Calibration.construct patternType calibImageCountMax patternSize
        chessboardSquareWidth videoWidth videoHeight).run cv evs).m_corners,
      (sample.length : Int) = patternSize.width * patternSize.height :=
  (run_preserves_sampleLengths cv patternSize hchess hcirc hsub evs _
    (construct_sampleLengths patternType calibImageCountMax patternSize
      chessboardSquareWidth videoWidth videoHeight)).1

/-- The stand-in detector reports `width * height` points. -/
theorem gridDetector_length (img : IplImage) (sz : Size) (fl : Nat)
    (hfound : (gridDetector img sz fl).1 = true) :
    ((gridDetector img sz fl).2.length : Int) = sz.width * sz.height := by
  simp only [gridDetector, decide_eq_true_eq] at hfound
  simp only [gridDetector, List.length_replicate]
  exact Int.toNat_of_nonneg hfound

/-- Witness of `accepted_samples_have_pattern_count`: a session for a 2 x 2 chessboard
with the stand-in routines, after two captures, an undo and a third capture. -/
theorem accepted_samples_have_pattern_count_witness :
    ((Calibration.construct .CHESSBOARD 10 ⟨2, 2⟩ 30 2 2).run demoCV
        [.frame ⟨some [1, 2, 3, 4], 2, 2⟩, .workerWake, .workerRun, .frame ⟨none, 2, 2⟩,
          .capture, .capture, .uncapture, .capture]).m_corners.length = 2 ∧
    ∀ sample ∈ ((Calibration.construct .CHESSBOARD 10 ⟨2, 2⟩ 30 2 2).run demoCV
        [.frame ⟨some [1, 2, 3, 4], 2, 2⟩, .workerWake, .workerRun, .frame ⟨none, 2, 2⟩,
          .capture, .capture, .uncapture, .capture]).m_corners,
      (sample.length : Int) = (2 : Int) * 2 :=
  ⟨by decide,
    accepted_samples_have_pattern_count demoCV .CHESSBOARD 10 ⟨2, 2⟩ 30 2 2
      [.frame ⟨some [1, 2, 3, 4], 2, 2⟩, .workerWake, .workerRun, .frame ⟨none, 2, 2⟩,
        .capture, .capture, .uncapture, .capture]
      gridDetector_length gridDetector_length (fun _ c _ _ _ => List.length_map c _)⟩

/-- With a non-negative maximum, no event takes the accepted-sample count above it. -/
theorem step_preserves_count_le_max (cv : OpenCV) (s : Calibration) (ev : Event)
    (h0 : 0 ≤ s.m_calibImageCountMax) (hint : isInt s.m_calibImageCountMax)
    (h : (s.m_corners.length : Int) ≤ s.m_calibImageCountMax) :
    (s.step cv ev).m_calibImageCountMax = s.m_calibImageCountMax ∧
    ((s.step cv ev).m_corners.length : Int) ≤ s.m_calibImageCountMax := by
  cases ev with
  | frame vs =>
    simp only [Calibration.step, Calibration.frame]
    split_ifs <;> cases vs.buffLuma <;> exact ⟨rfl, h⟩
  | capture =>
    simp only [Calibration.step]
    by_cases hc : (s.capture cv).1 = true
    · obtain ⟨hlt, _⟩ := (capture_true_iff cv s).mp hc
      rw [toSizeT_of_nonneg _ h0 hint] at hlt
      rw [capture_snd_of_true cv s hc]
      refine ⟨rfl, ?_⟩
      simp only [List.length_append, List.length_singleton]
      omega
    · have hsame : (s.capture cv).2 = s := by
        unfold Calibration.capture at hc ⊢
        split_ifs at hc ⊢ <;> simp_all
      rw [hsame]
      exact ⟨rfl, h⟩
  | uncapture =>
    simp only [Calibration.step, Calibration.uncapture]
    split_ifs
    · exact ⟨rfl, h⟩
    · refine ⟨rfl, ?_⟩
      simp only [List.length_dropLast]
      omega
  | uncaptureAll =>
    simp only [Calibration.step, Calibration.uncaptureAll]
    split_ifs
    · exact ⟨rfl, h⟩
    · exact ⟨rfl, by simpa using h0⟩
  | calib => exact ⟨rfl, h⟩
  | workerWake =>
    simp only [Calibration.step, Calibration.cornerFinderWake]
    cases threadStartWait s.m_cornerFinderThread <;> exact ⟨rfl, h⟩
  | workerRun =>
    simp only [Calibration.step, Calibration.cornerFinderRun]
    split_ifs <;> exact ⟨rfl, h⟩

/-- C2, amended: bounded sample list. For every configured maximum
`calibImageCountMax ≥ 0` (an `int`) and every sequence of `frame`, `capture`, `uncapture`,
`uncaptureAll`, `calib` calls and worker steps on a newly constructed session, the
accepted-sample count never exceeds `calibImageCountMax`. -/
theorem count_le_max_of_nonneg (cv : OpenCV) (patternType : CalibrationPatternType)
    (calibImageCountMax : Int) (patternSize : Size)
    (chessboardSquareWidth videoWidth videoHeight : Int) (evs : List Event)
    (h0 : 0 ≤ calibImageCountMax) (hint : isInt calibImageCountMax) :
    (((Calibration.construct patternType calibImageCountMax patternSize
      chessboardSquareWidth videoWidth videoHeight).run cv evs).m_corners.length : Int) ≤
      calibImageCountMax := by
  have gen : ∀ (evs : List Event) (s : Calibration), s.m_calibImageCountMax = calibImageCountMax →
      (s.m_corners.length : Int) ≤ calibImageCountMax →
      ((s.run cv evs).m_corners.length : Int) ≤ calibImageCountMax := by
    intro evs
    induction evs with
    | nil => intro s _ h; exact h
    | cons ev rest ih =>
      intro s hm h
      have hstep := step_preserves_count_le_max cv s ev (hm ▸ h0) (hm ▸ hint) (hm ▸ h)
      exact ih (s.step cv ev) (hstep.1.trans hm) (hm ▸ hstep.2)
  exact gen evs _ rfl (by simpa [Calibration.construct] using h0)

/-- Witness of `count_le_max_of_nonneg`: maximum 1 and two capture attempts. -/
theorem count_le_max_of_nonneg_witness :
    (((Calibration.construct .CHESSBOARD 1 ⟨2, 2⟩ 30 2 2).run demoCV
      [.frame ⟨some [1, 2, 3, 4], 2, 2⟩, .workerWake, .workerRun, .frame ⟨none, 2, 2⟩,
        .capture, .capture]).m_corners.length : Int) ≤ 1 :=
  count_le_max_of_nonneg demoCV .CHESSBOARD 1 ⟨2, 2⟩ 30 2 2
    [.frame ⟨some [1, 2, 3, 4], 2, 2⟩, .workerWake, .workerRun, .frame ⟨none, 2, 2⟩,
      .capture, .capture] (by decide) (by decide)

/-! ## Theorems: object points -/

/-- Number of points of a row-by-row grid. -/
theorem grid_length {α : Type} (f : Nat → Nat → α) (h w : Nat) :
    ((List.range h).flatMap fun j => (List.range w).map (f j)).length = h * w := by
  induction h with
  | zero => simp
  | succ n ih =>
    rw [List.range_succ, List.flatMap_append, List.length_append, ih]
    simp [Nat.succ_mul]

/-- The point at row `j`, column `i` of a row-by-row grid sits at index `j * w + i`. -/
theorem grid_getElem? {α : Type} (f : Nat → Nat → α) (h w i j : Nat) (hi : i < w) (hj : j < h) :
    ((List.range h).flatMap fun j => (List.range w).map (f j))[j * w + i]? = some (f j i) := by
  induction h with
  | zero => omega
  | succ n ih =>
    rw [List.range_succ, List.flatMap_append]
    by_cases hjn : j < n
    · have hlt : j * w + i < n * w := by
        calc j * w + i < j * w + w := by omega
          _ = (j + 1) * w := by ring
          _ ≤ n * w := Nat.mul_le_mul_right w hjn
      rw [List.getElem?_append_left (by rw [grid_length]; exact hlt)]
      exact ih hjn
    · have hjeq : j = n := by omega
      subst hjeq
      rw [List.getElem?_append_right (by rw [grid_length]; omega), grid_length]
      simp [hi]

/-- C8: symmetric object points. For pattern type CHESSBOARD or CIRCLES_GRID, every
pattern size `(w, h)` with `w, h ≥ 0` and every spacing `s`, `calcChessboardCorners`
produces exactly `w * h` points, and for `0 ≤ i < w`, `0 ≤ j < h` the point at index
`j * w + i` is `(i * s, j * s, 0)`. -/
theorem calcChessboardCorners_symmetric (patternType : CalibrationPatternType) (w h : Int)
    (s : ℚ) (hpt : patternType = .CHESSBOARD ∨ patternType = .CIRCLES_GRID)
    (hw : 0 ≤ w) (hh : 0 ≤ h) :
    ((calcChessboardCorners patternType ⟨w, h⟩ s).length : Int) = w * h ∧
    ∀ i j : Int, 0 ≤ i → i < w → 0 ≤ j → j < h →
      (calcChessboardCorners patternType ⟨w, h⟩ s)[(j * w + i).toNat]? =
        some ⟨(i : ℚ) * s, (j : ℚ) * s, 0⟩ := by
  have hdef : calcChessboardCorners patternType ⟨w, h⟩ s =
      (List.range h.toNat).flatMap fun j => (List.range w.toNat).map
        ((fun (j i : Nat) => (⟨(i : ℚ) * s, (j : ℚ) * s, 0⟩ : Point3f)) j) := by
    rcases hpt with hpt | hpt <;> subst hpt <;> rfl
  rw [hdef]
  refine ⟨?_, ?_⟩
  · rw [grid_length, Nat.cast_mul, Int.toNat_of_nonneg hw, Int.toNat_of_nonneg hh, mul_comm]
  · intro i j hi0 hiw hj0 hjh
    have hidx : (j * w + i).toNat = j.toNat * w.toNat + i.toNat := by
      have h1 : ((j.toNat * w.toNat + i.toNat : Nat) : Int) = j * w + i := by
        rw [Nat.cast_add, Nat.cast_mul, Int.toNat_of_nonneg hw, Int.toNat_of_nonneg hi0,
          Int.toNat_of_nonneg hj0]
      rw [← h1, Int.toNat_natCast]
    rw [hidx, grid_getElem? _ h.toNat w.toNat i.toNat j.toNat (by omega) (by omega)]
    have hi : ((i.toNat : Nat) : ℚ) = (i : ℚ) := by
      rw [← Int.cast_natCast, Int.toNat_of_nonneg hi0]
    have hj : ((j.toNat : Nat) : ℚ) = (j : ℚ) := by
      rw [← Int.cast_natCast, Int.toNat_of_nonneg hj0]
    simp only [hi, hj]

/-- Witness of `calcChessboardCorners_symmetric`: the default 7 x 5 chessboard with
spacing 30. -/
theorem calcChessboardCorners_symmetric_witness :
    ((calcChessboardCorners .CHESSBOARD ⟨7, 5⟩ 30).length : Int) = 7 * 5 ∧
    ∀ i j : Int, 0 ≤ i → i < 7 → 0 ≤ j → j < 5 →
      (calcChessboardCorners .CHESSBOARD ⟨7, 5⟩ 30)[(j * 7 + i).toNat]? =
        some ⟨(i : ℚ) * 30, (j : ℚ) * 30, 0⟩ :=
  calcChessboardCorners_symmetric .CHESSBOARD 7 5 30 (Or.inl rfl) (by decide) (by decide)

/-- The asymmetric grid, point by point, with the 32-bit evaluation of `2*i + j % 2`
left in place. -/
theorem calcChessboardCorners_asymmetric_getElem? (w h : Int) (s : ℚ) (i j : Nat)
    (hi : (i : Int) < w) (hj : (j : Int) < h) :
    (calcChessboardCorners .ASYMMETRIC_CIRCLES_GRID ⟨w, h⟩ s)[j * w.toNat + i]? =
      some ⟨((wrapInt (wrapInt (2 * (i : Int)) + Int.tmod (j : Int) 2) : Int) : ℚ) * s,
        (j : ℚ) * s, 0⟩ :=
  grid_getElem? (fun (j i : Nat) =>
      (⟨((wrapInt (wrapInt (2 * (i : Int)) + Int.tmod (j : Int) 2) : Int) : ℚ) * s,
        (j : ℚ) * s, 0⟩ : Point3f))
    h.toNat w.toNat i j (by omega) (by omega)

/-- C9, as stated, fails: for pattern size `(-1, -1)` the product `w * h` is 1 but no
point is produced; and for pattern size `(2^30 + 1, 1)` the point at `i = 2^30`, `j = 0`
is not `((2*i + j mod 2) * s, j * s, 0)`, because `2*i` leaves the `int` range. -/
theorem calcChessboardCorners_asymmetric_counterexample :
    ((calcChessboardCorners .ASYMMETRIC_CIRCLES_GRID ⟨-1, -1⟩ 20).length : Int) ≠ (-1) * (-1) ∧
    (calcChessboardCorners .ASYMMETRIC_CIRCLES_GRID ⟨1073741825, 1⟩ 1)[1073741824]? ≠
      some ⟨((2 * 1073741824 + 0 % 2 : Int) : ℚ) * 1, ((0 : Int) : ℚ) * 1, 0⟩ := by
  refine ⟨by decide, ?_⟩
  have hpt := calcChessboardCorners_asymmetric_getElem? 1073741825 1 1 1073741824 0
    (by norm_num) (by norm_num)
  simp only [Nat.zero_mul, Nat.zero_add] at hpt
  rw [hpt]
  intro heq
  have hx := congrArg Point3f.x (Option.some.inj heq)
  simp only [wrapInt] at hx
  norm_num at hx

/-- C9, amended: asymmetric object points. For pattern type ASYMMETRIC_CIRCLES_GRID,
every pattern size `(w, h)` with `w, h ≥ 0` and `w ≤ 2^30`, and every spacing `s`,
`calcChessboardCorners` produces exactly `w * h` points, and for `0 ≤ i < w`,
`0 ≤ j < h` the point at index `j * w + i` is `((2*i + j mod 2) * s, j * s, 0)`; for grid
size `(4, 11)` the point `i = 1`, `j = 1` is `(3 * s, s, 0)`. -/
theorem calcChessboardCorners_asymmetric (w h : Int) (s : ℚ)
    (hw : 0 ≤ w) (hh : 0 ≤ h) (hwmax : w ≤ 1073741824) :
    ((calcChessboardCorners .ASYMMETRIC_CIRCLES_GRID ⟨w, h⟩ s).length : Int) = w * h ∧
    (∀ i j : Int, 0 ≤ i → i < w → 0 ≤ j → j < h →
      (calcChessboardCorners .ASYMMETRIC_CIRCLES_GRID ⟨w, h⟩ s)[(j * w + i).toNat]? =
        some ⟨((2 * i + j % 2 : Int) : ℚ) * s, (j : ℚ) * s, 0⟩) ∧
    (calcChessboardCorners .ASYMMETRIC_CIRCLES_GRID ⟨4, 11⟩ s)[1 * 4 + 1]? =
      some ⟨3 * s, s, 0⟩ := by
  refine ⟨?_, ?_, ?_⟩
  · have hlen := grid_length (fun (j i : Nat) =>
        (⟨((wrapInt (wrapInt (2 * (i : Int)) + Int.tmod (j : Int) 2) : Int) : ℚ) * s,
          (j : ℚ) * s, 0⟩ : Point3f)) h.toNat w.toNat
    have hlen2 : (calcChessboardCorners .ASYMMETRIC_CIRCLES_GRID ⟨w, h⟩ s).length =
        h.toNat * w.toNat := hlen
    rw [hlen2, Nat.cast_mul, Int.toNat_of_nonneg hw, Int.toNat_of_nonneg hh, mul_comm]
  · intro i j hi0 hiw hj0 hjh
    have hidx : (j * w + i).toNat = j.toNat * w.toNat + i.toNat := by
      have h1 : ((j.toNat * w.toNat + i.toNat : Nat) : Int) = j * w + i := by
        rw [Nat.cast_add, Nat.cast_mul, Int.toNat_of_nonneg hw, Int.toNat_of_nonneg hi0,
          Int.toNat_of_nonneg hj0]
      rw [← h1, Int.toNat_natCast]
    rw [hidx, calcChessboardCorners_asymmetric_getElem? w h s i.toNat j.toNat (by omega) (by omega)]
    have hj : ((j.toNat : Nat) : ℚ) = (j : ℚ) := by
      rw [← Int.cast_natCast, Int.toNat_of_nonneg hj0]
    have hmod : Int.tmod ((j.toNat : Nat) : Int) 2 = j % 2 := by
      rw [Int.toNat_of_nonneg hj0]
      exact Int.tmod_eq_emod hj0 (by decide)
    have hwrap : wrapInt (wrapInt (2 * ((i.toNat : Nat) : Int)) + j % 2) = 2 * i + j % 2 := by
      rw [Int.toNat_of_nonneg hi0]
      unfold wrapInt
      omega
    rw [hmod, hwrap, hj]
  · have hpt := calcChessboardCorners_asymmetric_getElem? 4 11 s 1 1 (by decide) (by decide)
    have hfour : (4 : Int).toNat = 4 := rfl
    rw [hfour] at hpt
    rw [hpt]
    have hval : wrapInt (wrapInt (2 * ((1 : Nat) : Int)) + Int.tmod ((1 : Nat) : Int) 2) = 3 := by
      decide
    rw [hval]
    norm_num

/-- Witness of `calcChessboardCorners_asymmetric`: the default 4 x 11 asymmetric circle
grid with spacing 20. -/
theorem calcChessboardCorners_asymmetric_witness :
    ((calcChessboardCorners .ASYMMETRIC_CIRCLES_GRID ⟨4, 11⟩ 20).length : Int) = 4 * 11 ∧
    (∀ i j : Int, 0 ≤ i → i < 4 → 0 ≤ j → j < 11 →
      (calcChessboardCorners .ASYMMETRIC_CIRCLES_GRID ⟨4, 11⟩ 20)[(j * 4 + i).toNat]? =
        some ⟨((2 * i + j % 2 : Int) : ℚ) * 20, (j : ℚ) * 20, 0⟩) ∧
    (calcChessboardCorners .ASYMMETRIC_CIRCLES_GRID ⟨4, 11⟩ 20)[1 * 4 + 1]? =
      some ⟨3 * 20, 20, 0⟩ :=
  calcChessboardCorners_asymmetric 4 11 20 (by decide) (by decide) (by decide)

/-! ## Theorems: `getSizeFactor` -/

/-- A candidate whose ideal and observed lengths coincide leaves a running minimum that
is 100 or 1 at 100 or 1. -/
theorem sizeFactorStep_self (sf x : ARdouble) (h : sf = 100 ∨ sf = 1) :
    sizeFactorStep sf x x = 100 ∨ sizeFactorStep sf x x = 1 := by
  unfold sizeFactorStep
  by_cases hx : x > 0
  · rw [if_pos hx, if_neg (ne_of_gt hx)]
    have hdiv : x / x = 1 := div_self (ne_of_gt hx)
    simp only [hdiv]
    rcases h with h | h
    · right
      rw [h, if_pos (by norm_num)]
    · right
      rw [h, if_neg (lt_irrefl 1)]
  · rw [if_neg hx]
    exact h

/-- With an observed-to-ideal mapping that returns its input point, every candidate of
`getSizeFactor` has equal ideal and observed length, and the result is 1. -/
theorem getSizeFactor_of_identity
    (arParamObserv2Ideal : (Nat → ARdouble) → ARdouble → ARdouble → Int → ARdouble × ARdouble)
    (dist_factor : Nat → ARdouble) (xsize ysize dist_function_version : Int)
    (hid : ∀ d ox oy v, arParamObserv2Ideal d ox oy v = (ox, oy)) :
    getSizeFactor arParamObserv2Ideal dist_factor xsize ysize dist_function_version = 1 := by
  unfold getSizeFactor
  simp only [hid, sub_zero]
  have h1 := sizeFactorStep_self 100 (dist_factor 6) (Or.inl rfl)
  have h2 := sizeFactorStep_self _ ((xsize : ℚ) - dist_factor 6) h1
  have h3 := sizeFactorStep_self _ (dist_factor 7) h2
  have h4 := sizeFactorStep_self _ ((ysize : ℚ) - dist_factor 7) h3
  have h5 := sizeFactorStep_self _ (dist_factor 6) h4
  have h6 := sizeFactorStep_self _ (dist_factor 7) h5
  have h7 := sizeFactorStep_self _ ((xsize : ℚ) - dist_factor 6) h6
  have h8 := sizeFactorStep_self _ (dist_factor 7) h7
  have h9 := sizeFactorStep_self _ (dist_factor 6) h8
  have h10 := sizeFactorStep_self _ ((ysize : ℚ) - dist_factor 7) h9
  have h11 := sizeFactorStep_self _ ((xsize : ℚ) - dist_factor 6) h10
  have h12 := sizeFactorStep_self _ ((ysize : ℚ) - dist_factor 7) h11
  rcases h12 with h | h
  · rw [if_pos h]
  · rw [h]
    norm_num

/-- C10: identity camera gives scale 1. For every image size, every `dist_factor` (so
every principal point) and every version tag, if the observed-to-ideal mapping returns
its input point, `getSizeFactor` returns exactly 1. -/
theorem getSizeFactor_identity
    (arParamObserv2Ideal : (Nat → ARdouble) → ARdouble → ARdouble → Int → ARdouble × ARdouble)
    (dist_factor : Nat → ARdouble) (xsize ysize dist_function_version : Int)
    (hid : ∀ d ox oy v, arParamObserv2Ideal d ox oy v = (ox, oy)) :
    getSizeFactor arParamObserv2Ideal dist_factor xsize ysize dist_function_version = 1 :=
  getSizeFactor_of_identity arParamObserv2Ideal dist_factor xsize ysize dist_function_version
    hid

/-- Witness of `getSizeFactor_identity`: a 640 x 480 image with principal point
(320, 240) and the distortion-free map. -/
theorem getSizeFactor_identity_witness :
    getSizeFactor identityObserv2Ideal (fun k => if k = 6 then 320 else 240) 640 480 4 = 1 :=
  getSizeFactor_identity identityObserv2Ideal (fun k => if k = 6 then 320 else 240) 640 480 4
    (fun _ _ _ _ => rfl)

/-! ## Theorems: the scale factor as a minimum -/

/-- The function `getSizeFactor` as a fold of `sizeFactorStep` over its twelve
candidates, started at 100. -/
theorem getSizeFactor_eq_foldl
    (arParamObserv2Ideal : (Nat → ARdouble) → ARdouble → ARdouble → Int → ARdouble × ARdouble)
    (dist_factor : Nat → ARdouble) (xsize ysize dist_function_version : Int) :
    getSizeFactor arParamObserv2Ideal dist_factor xsize ysize dist_function_version =
      if (sizeFactorCandidates arParamObserv2Ideal dist_factor xsize ysize
            dist_function_version).foldl (fun sf c => sizeFactorStep sf c.1 c.2) 100 = 100
      then 1
      else (sizeFactorCandidates arParamObserv2Ideal dist_factor xsize ysize
            dist_function_version).foldl (fun sf c => sizeFactorStep sf c.1 c.2) 100 :=
  rfl

/-- One candidate with a positive observed length: the running minimum becomes the
smaller of itself and the ratio when the ratio is positive, and stays otherwise. -/
theorem sizeFactorStep_of_pos (sf ilen olen : ARdouble) (holen : 0 < olen) :
    (0 < ilen / olen → sizeFactorStep sf ilen olen = min sf (ilen / olen)) ∧
    (¬ 0 < ilen / olen → sizeFactorStep sf ilen olen = sf) := by
  unfold sizeFactorStep
  refine ⟨?_, ?_⟩
  · intro hr
    have hi : ilen > 0 := by
      by_contra hneg
      exact absurd hr (not_lt.mpr (div_nonpos_of_nonpos_of_nonneg (not_lt.mp hneg) holen.le))
    rw [if_pos hi, if_neg (ne_of_gt holen)]
    by_cases hlt : ilen / olen < sf
    · simp only [hlt, if_true]
      exact (min_eq_right hlt.le).symm
    · simp only [hlt, if_false]
      exact (min_eq_left (not_lt.mp hlt)).symm
  · intro hr
    have hi : ¬ ilen > 0 := fun hi => hr (div_pos hi holen)
    rw [if_neg hi]

/-- The fold of `sizeFactorStep` over candidates with positive observed lengths: the
result is the start value or a positive ratio, and it is below the start value and below
every positive ratio. -/
theorem foldl_sizeFactorStep (cs : List (ARdouble × ARdouble)) (hpos : ∀ c ∈ cs, 0 < c.2)
    (sf0 : ARdouble) :
    (cs.foldl (fun sf c => sizeFactorStep sf c.1 c.2) sf0 = sf0 ∨
      ∃ c ∈ cs, 0 < c.1 / c.2 ∧
        cs.foldl (fun sf c => sizeFactorStep sf c.1 c.2) sf0 = c.1 / c.2) ∧
    cs.foldl (fun sf c => sizeFactorStep sf c.1 c.2) sf0 ≤ sf0 ∧
    ∀ c ∈ cs, 0 < c.1 / c.2 →
      cs.foldl (fun sf c => sizeFactorStep sf c.1 c.2) sf0 ≤ c.1 / c.2 := by
  induction cs generalizing sf0 with
  | nil =>
    refine ⟨Or.inl rfl, le_refl _, ?_⟩
    intro c hc
    exact absurd hc (List.not_mem_nil c)
  | cons c cs ih =>
    have hc2 : 0 < c.2 := hpos c (List.mem_cons_self c cs)
    have hrest : ∀ c' ∈ cs, 0 < c'.2 := fun c' hc' => hpos c' (List.mem_cons_of_mem c hc')
    obtain ⟨hst1, hst2⟩ := sizeFactorStep_of_pos sf0 c.1 c.2 hc2
    obtain ⟨ih1, ih2, ih3⟩ := ih hrest (sizeFactorStep sf0 c.1 c.2)
    simp only [List.foldl_cons]
    by_cases hr : 0 < c.1 / c.2
    · have hstep := hst1 hr
      refine ⟨?_, ?_, ?_⟩
      · rcases ih1 with h | ⟨c', hc', hr', h⟩
        · rcases min_choice sf0 (c.1 / c.2) with hm | hm
          · left
            rw [h, hstep, hm]
          · right
            exact ⟨c, List.mem_cons_self c cs, hr, by rw [h, hstep, hm]⟩
        · right
          exact ⟨c', List.mem_cons_of_mem c hc', hr', h⟩
      · exact le_trans ih2 (by rw [hstep]; exact min_le_left _ _)
      · intro c' hc' hr'
        rcases List.mem_cons.mp hc' with rfl | hmem
        · exact le_trans ih2 (by rw [hstep]; exact min_le_right _ _)
        · exact ih3 c' hmem hr'
    · have hstep := hst2 hr
      rw [hstep] at ih1 ih2 ih3 ⊢
      refine ⟨?_, ih2, ?_⟩
      · rcases ih1 with h | ⟨c', hc', hr', h⟩
        · exact Or.inl h
        · exact Or.inr ⟨c', List.mem_cons_of_mem c hc', hr', h⟩
      · intro c' hc' hr'
        rcases List.mem_cons.mp hc' with rfl | hmem
        · exact absurd hr' hr
        · exact ih3 c' hmem hr'

/-- With the principal point strictly inside the image, every observed length `olen` of
the twelve candidates is positive. -/
theorem sizeFactorCandidates_olen_pos
    (arParamObserv2Ideal : (Nat → ARdouble) → ARdouble → ARdouble → Int → ARdouble × ARdouble)
    (dist_factor : Nat → ARdouble) (xsize ysize dist_function_version : Int)
    (h6 : 0 < dist_factor 6) (h6x : dist_factor 6 < xsize)
    (h7 : 0 < dist_factor 7) (h7y : dist_factor 7 < ysize) :
    ∀ c ∈ sizeFactorCandidates arParamObserv2Ideal dist_factor xsize ysize
      dist_function_version, 0 < c.2 := by
  intro c hc
  simp only [sizeFactorCandidates, List.mem_cons, List.mem_singleton, List.not_mem_nil,
    or_false] at hc
  rcases hc with h | h | h | h | h | h | h | h | h | h | h | h <;> rw [h] <;>
    simp only [sub_pos] <;> assumption

/-- Membership in `usableRatios`: a strictly positive ratio of one of the candidates. -/
theorem mem_usableRatios
    (arParamObserv2Ideal : (Nat → ARdouble) → ARdouble → ARdouble → Int → ARdouble × ARdouble)
    (dist_factor : Nat → ARdouble) (xsize ysize dist_function_version : Int) (r : ARdouble) :
    r ∈ usableRatios arParamObserv2Ideal dist_factor xsize ysize dist_function_version ↔
      ∃ c ∈ sizeFactorCandidates arParamObserv2Ideal dist_factor xsize ysize
        dist_function_version, 0 < c.1 / c.2 ∧ r = c.1 / c.2 := by
  unfold usableRatios
  simp only [List.mem_filter, List.mem_map, decide_eq_true_eq]
  constructor
  · rintro ⟨⟨c, hc, rfl⟩, hr⟩
    exact ⟨c, hc, hr, rfl⟩
  · rintro ⟨c, hc, hr, rfl⟩
    exact ⟨⟨c, hc, rfl⟩, hr⟩

/-- C11, as stated, fails. With principal point (1, 1) in a 2 x 2 image and an ideal map
that stretches by 200, all twelve ratios are 200, the minimum usable ratio is 200, and
`getSizeFactor` returns 1. With principal point (-1, 1) and an ideal map that shifts by
two pixels, the smallest strictly positive ratio is 1/3 and `getSizeFactor` returns -1. -/
theorem getSizeFactor_min_usable_counterexample :
    (getSizeFactor stretchObserv2Ideal (fun _ => 1) 2 2 4 = 1 ∧
      minUsableRatio stretchObserv2Ideal (fun _ => 1) 2 2 4 = 200) ∧
    (getSizeFactor shiftObserv2Ideal (fun k => if k = 6 then -1 else 1) 2 2 4 = -1 ∧
      minUsableRatio shiftObserv2Ideal (fun k => if k = 6 then -1 else 1) 2 2 4 = 1 / 3) := by
  refine ⟨⟨?_, ?_⟩, ?_, ?_⟩
  · norm_num [getSizeFactor, sizeFactorStep, stretchObserv2Ideal]
  · norm_num [minUsableRatio, usableRatios, sizeFactorCandidates, stretchObserv2Ideal]
  · norm_num [getSizeFactor, sizeFactorStep, shiftObserv2Ideal]
  · norm_num [minUsableRatio, usableRatios, sizeFactorCandidates, shiftObserv2Ideal]

/-- C11, amended: for every `dist_factor` whose principal point lies strictly inside the
image (`0 < dist_factor[6] < xsize`, `0 < dist_factor[7] < ysize`) and every
observed-to-ideal mapping, `getSizeFactor` returns the minimum of the strictly positive
candidate ratios when one of them is below 100, and 1 when there is no strictly positive
ratio or none is below 100. -/
theorem getSizeFactor_min_usable
    (arParamObserv2Ideal : (Nat → ARdouble) → ARdouble → ARdouble → Int → ARdouble × ARdouble)
    (dist_factor : Nat → ARdouble) (xsize ysize dist_function_version : Int)
    (h6 : 0 < dist_factor 6) (h6x : dist_factor 6 < xsize)
    (h7 : 0 < dist_factor 7) (h7y : dist_factor 7 < ysize) :
    ((∀ r ∈ usableRatios arParamObserv2Ideal dist_factor xsize ysize dist_function_version,
        100 ≤ r) →
      getSizeFactor arParamObserv2Ideal dist_factor xsize ysize dist_function_version = 1) ∧
    ((∃ r ∈ usableRatios arParamObserv2Ideal dist_factor xsize ysize dist_function_version,
        r < 100) →
      getSizeFactor arParamObserv2Ideal dist_factor xsize ysize dist_function_version ∈
        usableRatios arParamObserv2Ideal dist_factor xsize ysize dist_function_version ∧
      ∀ r ∈ usableRatios arParamObserv2Ideal dist_factor xsize ysize dist_function_version,
        getSizeFactor arParamObserv2Ideal dist_factor xsize ysize dist_function_version ≤ r) := by
  have hpos := sizeFactorCandidates_olen_pos arParamObserv2Ideal dist_factor xsize ysize
    dist_function_version h6 h6x h7 h7y
  obtain ⟨hm1, hm2, hm3⟩ := foldl_sizeFactorStep _ hpos 100
  rw [getSizeFactor_eq_foldl]
  refine ⟨?_, ?_⟩
  · intro hall
    rcases hm1 with h | ⟨c, hc, hr, h⟩
    · rw [if_pos h]
    · have h100 : (100 : ARdouble) ≤ c.1 / c.2 :=
        hall _ ((mem_usableRatios _ _ _ _ _ _).mpr ⟨c, hc, hr, rfl⟩)
      rw [if_pos (le_antisymm hm2 (h ▸ h100))]
  · rintro ⟨r, hr, hlt⟩
    obtain ⟨c, hc, hcpos, rfl⟩ := (mem_usableRatios _ _ _ _ _ _).mp hr
    have hne : ¬ (sizeFactorCandidates arParamObserv2Ideal dist_factor xsize ysize
        dist_function_version).foldl (fun sf c => sizeFactorStep sf c.1 c.2) 100 = 100 := by
      intro heq
      have := hm3 c hc hcpos
      rw [heq] at this
      exact absurd hlt (not_lt.mpr this)
    rw [if_neg hne]
    refine ⟨?_, ?_⟩
    · rcases hm1 with h | ⟨c', hc', hr', h⟩
      · exact absurd h hne
      · exact (mem_usableRatios _ _ _ _ _ _).mpr ⟨c', hc', hr', h⟩
    · intro r' hr'
      obtain ⟨c', hc', hcpos', rfl⟩ := (mem_usableRatios _ _ _ _ _ _).mp hr'
      exact hm3 c' hc' hcpos'

/-- Witness of `getSizeFactor_min_usable`: a 640 x 480 image with principal point
(320, 240) and the distortion-free map. -/
theorem getSizeFactor_min_usable_witness :
    ((∀ r ∈ usableRatios identityObserv2Ideal (fun k => if k = 6 then 320 else 240) 640 480 4,
        100 ≤ r) →
      getSizeFactor identityObserv2Ideal (fun k => if k = 6 then 320 else 240) 640 480 4 = 1) ∧
    ((∃ r ∈ usableRatios identityObserv2Ideal (fun k => if k = 6 then 320 else 240) 640 480 4,
        r < 100) →
      getSizeFactor identityObserv2Ideal (fun k => if k = 6 then 320 else 240) 640 480 4 ∈
        usableRatios identityObserv2Ideal (fun k => if k = 6 then 320 else 240) 640 480 4 ∧
      ∀ r ∈ usableRatios identityObserv2Ideal (fun k => if k = 6 then 320 else 240) 640 480 4,
        getSizeFactor identityObserv2Ideal (fun k => if k = 6 then 320 else 240) 640 480 4 ≤ r) :=
  getSizeFactor_min_usable identityObserv2Ideal (fun k => if k = 6 then 320 else 240) 640 480 4
    (by norm_num) (by norm_num) (by norm_num) (by norm_num)

/-- With the principal point strictly inside the image, the scale factor that
`getSizeFactor` returns is strictly positive. -/
theorem getSizeFactor_pos_of_inside
    (arParamObserv2Ideal : (Nat → ARdouble) → ARdouble → ARdouble → Int → ARdouble × ARdouble)
    (dist_factor : Nat → ARdouble) (xsize ysize dist_function_version : Int)
    (h6 : 0 < dist_factor 6) (h6x : dist_factor 6 < xsize)
    (h7 : 0 < dist_factor 7) (h7y : dist_factor 7 < ysize) :
    0 < getSizeFactor arParamObserv2Ideal dist_factor xsize ysize dist_function_version := by
  have hpos := sizeFactorCandidates_olen_pos arParamObserv2Ideal dist_factor xsize ysize
    dist_function_version h6 h6x h7 h7y
  obtain ⟨hm1, _, _⟩ := foldl_sizeFactorStep _ hpos 100
  rw [getSizeFactor_eq_foldl]
  rcases hm1 with h | ⟨c, hc, hr, h⟩
  · rw [if_pos h]
    norm_num
  · split_ifs
    · norm_num
    · rw [h]
      exact hr

/-- C12, as stated, fails. With principal point (-1, 1) in a 2 x 2 image and an ideal
map that shifts by two pixels, the first candidate has `ilen = 1 > 0` and `olen = -1`:
it is admitted, its ratio is -1, and `getSizeFactor` returns -1. -/
theorem getSizeFactor_pos_counterexample :
    (∃ c ∈ sizeFactorCandidates shiftObserv2Ideal (fun k => if k = 6 then -1 else 1) 2 2 4,
      0 < c.1 ∧ c.1 / c.2 < 0) ∧
    getSizeFactor shiftObserv2Ideal (fun k => if k = 6 then -1 else 1) 2 2 4 < 0 := by
  refine ⟨⟨(1, -1), ?_, ?_⟩, ?_⟩
  · norm_num [sizeFactorCandidates, shiftObserv2Ideal]
  · norm_num
  · norm_num [getSizeFactor, sizeFactorStep, shiftObserv2Ideal]

/-- C12, amended: for every `dist_factor` whose principal point lies strictly inside the
image, every image size and every observed-to-ideal mapping, every ratio that
`getSizeFactor` admits (a candidate with `ilen > 0`) is strictly positive, and the
returned scale factor is strictly positive. -/
theorem getSizeFactor_pos
    (arParamObserv2Ideal : (Nat → ARdouble) → ARdouble → ARdouble → Int → ARdouble × ARdouble)
    (dist_factor : Nat → ARdouble) (xsize ysize dist_function_version : Int)
    (h6 : 0 < dist_factor 6) (h6x : dist_factor 6 < xsize)
    (h7 : 0 < dist_factor 7) (h7y : dist_factor 7 < ysize) :
    (∀ c ∈ sizeFactorCandidates arParamObserv2Ideal dist_factor xsize ysize
        dist_function_version, 0 < c.1 → 0 < c.1 / c.2) ∧
    0 < getSizeFactor arParamObserv2Ideal dist_factor xsize ysize dist_function_version :=
  ⟨fun c hc hi => div_pos hi
      (sizeFactorCandidates_olen_pos arParamObserv2Ideal dist_factor xsize ysize
        dist_function_version h6 h6x h7 h7y c hc),
    getSizeFactor_pos_of_inside arParamObserv2Ideal dist_factor xsize ysize
      dist_function_version h6 h6x h7 h7y⟩

/-- Witness of `getSizeFactor_pos`: a 640 x 480 image with principal point (320, 240) and
the stretching map. -/
theorem getSizeFactor_pos_witness :
    (∀ c ∈ sizeFactorCandidates stretchObserv2Ideal (fun k => if k = 6 then 320 else 240)
        640 480 4, 0 < c.1 → 0 < c.1 / c.2) ∧
    0 < getSizeFactor stretchObserv2Ideal (fun k => if k = 6 then 320 else 240) 640 480 4 :=
  getSizeFactor_pos stretchObserv2Ideal (fun k => if k = 6 then 320 else 240) 640 480 4
    (by norm_num) (by norm_num) (by norm_num) (by norm_num)

/-! ## Theorems: `convParam` -/

/-- The entries of the vector that `convParam` hands to `getSizeFactor`. -/
theorem convParamDistFactor_entries (intr : Nat → Nat → ARdouble) (dist : Nat → ARdouble)
    (dist_factor : Nat → ARdouble) :
    convParamDistFactor intr dist dist_factor 0 = dist 0 ∧
    convParamDistFactor intr dist dist_factor 1 = dist 1 ∧
    convParamDistFactor intr dist dist_factor 2 = dist 2 ∧
    convParamDistFactor intr dist dist_factor 3 = dist 3 ∧
    convParamDistFactor intr dist dist_factor 4 = intr 0 0 ∧
    convParamDistFactor intr dist dist_factor 5 = intr 1 1 ∧
    convParamDistFactor intr dist dist_factor 6 = intr 0 2 ∧
    convParamDistFactor intr dist dist_factor 7 = intr 1 2 ∧
    convParamDistFactor intr dist dist_factor 8 = 1 := by
  simp [convParamDistFactor, setAt]

/-- The copy loops of `convParam`: after them `mat[j][i] = intr[j][i]` for `j < 3`,
`i < 4`. -/
theorem convParam_copy_loops (intr mat : Nat → Nat → ARdouble) (j i : Nat)
    (hj : j < 3) (hi : i < 4) :
    (List.range 3).foldl
      (fun m (j : Nat) => (List.range 4).foldl (fun m (i : Nat) => setAt2 m j i (intr j i)) m)
      mat j i = intr j i := by
  have h3 : List.range 3 = [0, 1, 2] := rfl
  have h4 : List.range 4 = [0, 1, 2, 3] := rfl
  rw [h3, h4]
  simp only [List.foldl_cons, List.foldl_nil, setAt2]
  interval_cases j <;> interval_cases i <;> simp

/-- The matrix and the scale entry that `convParam` writes: four entries of `intr`
divided by the scale factor, the other eight copied, and the scale factor in
`dist_factor[8]`. -/
theorem convParam_entries
    (arParamObserv2Ideal : (Nat → ARdouble) → ARdouble → ARdouble → Int → ARdouble × ARdouble)
    (intr : Nat → Nat → ARdouble) (dist : Nat → ARdouble) (xsize ysize : Int)
    (param : ARParam) :
    (convParam arParamObserv2Ideal intr dist xsize ysize param).mat 0 0 =
      intr 0 0 / getSizeFactor arParamObserv2Ideal
        (convParamDistFactor intr dist param.dist_factor) xsize ysize 4 ∧
    (convParam arParamObserv2Ideal intr dist xsize ysize param).mat 0 1 =
      intr 0 1 / getSizeFactor arParamObserv2Ideal
        (convParamDistFactor intr dist param.dist_factor) xsize ysize 4 ∧
    (convParam arParamObserv2Ideal intr dist xsize ysize param).mat 1 0 =
      intr 1 0 / getSizeFactor arParamObserv2Ideal
        (convParamDistFactor intr dist param.dist_factor) xsize ysize 4 ∧
    (convParam arParamObserv2Ideal intr dist xsize ysize param).mat 1 1 =
      intr 1 1 / getSizeFactor arParamObserv2Ideal
        (convParamDistFactor intr dist param.dist_factor) xsize ysize 4 ∧
    (∀ j i : Nat, j < 3 → i < 4 → ¬ (j < 2 ∧ i < 2) →
      (convParam arParamObserv2Ideal intr dist xsize ysize param).mat j i = intr j i) ∧
    (convParam arParamObserv2Ideal intr dist xsize ysize param).dist_factor 8 =
      getSizeFactor arParamObserv2Ideal
        (convParamDistFactor intr dist param.dist_factor) xsize ysize 4 := by
  have hcopy := convParam_copy_loops intr param.mat
  refine ⟨?_, ?_, ?_, ?_, ?_, ?_⟩
  · simp [convParam, setAt2, hcopy]
  · simp [convParam, setAt2, hcopy]
  · simp [convParam, setAt2, hcopy]
  · simp [convParam, setAt2, hcopy]
  · intro j i hj hi hne
    have h00 : ¬ (j = 0 ∧ i = 0) := fun h => hne ⟨by omega, by omega⟩
    have h01 : ¬ (j = 0 ∧ i = 1) := fun h => hne ⟨by omega, by omega⟩
    have h10 : ¬ (j = 1 ∧ i = 0) := fun h => hne ⟨by omega, by omega⟩
    have h11 : ¬ (j = 1 ∧ i = 1) := fun h => hne ⟨by omega, by omega⟩
    simp only [convParam, setAt2, h00, h01, h10, h11, if_false]
    exact hcopy j i hj hi
  · simp [convParam, setAt]

/-- C13: `convParam` scales exactly four matrix entries. For every `intr`, `dist`,
`xsize`, `ysize`, with `s` the value of `getSizeFactor` on the vector `convParam` builds,
the output has `mat[0][0] = intr[0][0]/s`, `mat[0][1] = intr[0][1]/s`,
`mat[1][0] = intr[1][0]/s`, `mat[1][1] = intr[1][1]/s`, every other `mat[j][i]` equal to
`intr[j][i]`, and `dist_factor[8] = s`. -/
theorem convParam_scales_four_entries
    (arParamObserv2Ideal : (Nat → ARdouble) → ARdouble → ARdouble → Int → ARdouble × ARdouble)
    (intr : Nat → Nat → ARdouble) (dist : Nat → ARdouble) (xsize ysize : Int)
    (param : ARParam) :
    (convParam arParamObserv2Ideal intr dist xsize ysize param).mat 0 0 =
      intr 0 0 / getSizeFactor arParamObserv2Ideal
        (convParamDistFactor intr dist param.dist_factor) xsize ysize 4 ∧
    (convParam arParamObserv2Ideal intr dist xsize ysize param).mat 0 1 =
      intr 0 1 / getSizeFactor arParamObserv2Ideal
        (convParamDistFactor intr dist param.dist_factor) xsize ysize 4 ∧
    (convParam arParamObserv2Ideal intr dist xsize ysize param).mat 1 0 =
      intr 1 0 / getSizeFactor arParamObserv2Ideal
        (convParamDistFactor intr dist param.dist_factor) xsize ysize 4 ∧
    (convParam arParamObserv2Ideal intr dist xsize ysize param).mat 1 1 =
      intr 1 1 / getSizeFactor arParamObserv2Ideal
        (convParamDistFactor intr dist param.dist_factor) xsize ysize 4 ∧
    (∀ j i : Nat, j < 3 → i < 4 → ¬ (j < 2 ∧ i < 2) →
      (convParam arParamObserv2Ideal intr dist xsize ysize param).mat j i = intr j i) ∧
    (convParam arParamObserv2Ideal intr dist xsize ysize param).dist_factor 8 =
      getSizeFactor arParamObserv2Ideal
        (convParamDistFactor intr dist param.dist_factor) xsize ysize 4 :=
  convParam_entries arParamObserv2Ideal intr dist xsize ysize param

/-- Witness of `convParam_scales_four_entries`: the entries `mat[0][2]` and `mat[2][3]`
of the output are those of `intr`. -/
theorem convParam_scales_four_entries_witness
    : (convParam identityObserv2Ideal (fun j i => 10 * j + i) (fun _ => 0) 640 480
        ⟨0, 0, fun _ _ => 0, fun _ => 0, 0⟩).mat 0 2 = 2 ∧
      (convParam identityObserv2Ideal (fun j i => 10 * j + i) (fun _ => 0) 640 480
        ⟨0, 0, fun _ _ => 0, fun _ => 0, 0⟩).mat 2 3 = 23 := by
  have h := (convParam_scales_four_entries identityObserv2Ideal (fun j i => 10 * j + i)
    (fun _ => 0) 640 480 ⟨0, 0, fun _ _ => 0, fun _ => 0, 0⟩).2.2.2.2.1
  refine ⟨?_, ?_⟩
  · rw [h 0 2 (by decide) (by decide) (by decide)]
    norm_num
  · rw [h 2 3 (by decide) (by decide) (by decide)]
    norm_num

/-- C14: the normalised vector layout of `convParam`. For every `intr`, `dist`, `xsize`,
`ysize` the output has `dist_factor[0..3] = dist[0..3]`, `dist_factor[4] = intr[0][0]`,
`dist_factor[5] = intr[1][1]` (not divided by `s`), `dist_factor[6] = intr[0][2]`,
`dist_factor[7] = intr[1][2]`, `xsize` and `ysize` as given, version 4, and
`dist_factor[8]` is the value of `getSizeFactor` on a vector with these same eight
entries and with entry 8 equal to 1. -/
theorem convParam_layout
    (arParamObserv2Ideal : (Nat → ARdouble) → ARdouble → ARdouble → Int → ARdouble × ARdouble)
    (intr : Nat → Nat → ARdouble) (dist : Nat → ARdouble) (xsize ysize : Int)
    (param : ARParam) :
    (convParam arParamObserv2Ideal intr dist xsize ysize param).dist_factor 0 = dist 0 ∧
    (convParam arParamObserv2Ideal intr dist xsize ysize param).dist_factor 1 = dist 1 ∧
    (convParam arParamObserv2Ideal intr dist xsize ysize param).dist_factor 2 = dist 2 ∧
    (convParam arParamObserv2Ideal intr dist xsize ysize param).dist_factor 3 = dist 3 ∧
    (convParam arParamObserv2Ideal intr dist xsize ysize param).dist_factor 4 = intr 0 0 ∧
    (convParam arParamObserv2Ideal intr dist xsize ysize param).dist_factor 5 = intr 1 1 ∧
    (convParam arParamObserv2Ideal intr dist xsize ysize param).dist_factor 6 = intr 0 2 ∧
    (convParam arParamObserv2Ideal intr dist xsize ysize param).dist_factor 7 = intr 1 2 ∧
    (convParam arParamObserv2Ideal intr dist xsize ysize param).xsize = xsize ∧
    (convParam arParamObserv2Ideal intr dist xsize ysize param).ysize = ysize ∧
    (convParam arParamObserv2Ideal intr dist xsize ysize param).dist_function_version = 4 ∧
    ∃ v : Nat → ARdouble,
      (v 0 = dist 0 ∧ v 1 = dist 1 ∧ v 2 = dist 2 ∧ v 3 = dist 3 ∧ v 4 = intr 0 0 ∧
        v 5 = intr 1 1 ∧ v 6 = intr 0 2 ∧ v 7 = intr 1 2 ∧ v 8 = 1) ∧
      (convParam arParamObserv2Ideal intr dist xsize ysize param).dist_factor 8 =
        getSizeFactor arParamObserv2Ideal v xsize ysize 4 := by
  obtain ⟨e0, e1, e2, e3, e4, e5, e6, e7, e8⟩ :=
    convParamDistFactor_entries intr dist param.dist_factor
  refine ⟨?_, ?_, ?_, ?_, ?_, ?_, ?_, ?_, rfl, rfl, rfl,
    convParamDistFactor intr dist param.dist_factor,
    ⟨e0, e1, e2, e3, e4, e5, e6, e7, e8⟩, ?_⟩ <;>
  simp [convParam, setAt, e0, e1, e2, e3, e4, e5, e6, e7]

/-! ## Theorems: the per-sample error of `calc` -/

/-- A loop that adds one term per element computes the start value plus the sum of the
terms. -/
theorem foldl_add_eq_sum {α : Type} (f : α → ARdouble) (l : List α) (e : ARdouble) :
    l.foldl (fun err x => err + f x) e = e + (l.map f).sum := by
  induction l generalizing e with
  | nil => simp
  | cons x xs ih =>
    simp only [List.foldl_cons, List.map_cons, List.sum_cons]
    rw [ih]
    ring

/-- The loop body of the error loop adds the squared pixel distance of the point, or
nothing when its projective depth is 0. -/
theorem pointErrorStep_eq (env : CalcEnv) (param : ARParam) (trans : Nat → Nat → ARdouble)
    (objectPoints0 : List Point3f) (corners : List Point2f) (idx : Nat) (err : ARdouble) :
    pointErrorStep env param trans objectPoints0 corners idx err =
      err + (if pointDepth param trans objectPoints0 idx = 0 then 0
        else pointSquaredError env param trans objectPoints0 corners idx) := by
  unfold pointErrorStep pointDepth pointSquaredError
  by_cases h : (projectPoint param trans (objectPoints0.getD idx ⟨0, 0, 0⟩).x
      (objectPoints0.getD idx ⟨0, 0, 0⟩).y).2.2 = 0
  · simp only [h, if_true, add_zero]
  · simp only [h, if_false]
    ring

/-- Summing row by row over the index `i * h + j` is summing over all indices below
`w * h`. -/
theorem sum_range_grid (F : Nat → ARdouble) (w h : Nat) :
    ((List.range w).map fun i => ((List.range h).map fun j => F (i * h + j)).sum).sum =
      ((List.range (w * h)).map F).sum := by
  induction w with
  | zero => simp
  | succ n ih =>
    rw [List.range_succ, List.map_append, List.sum_append, ih, Nat.succ_mul, List.range_add,
      List.map_append, List.sum_append, List.map_map]
    simp [Function.comp_def]

/-- A sum in which some terms are replaced by 0 is the sum over the other terms. -/
theorem sum_map_ite_zero (c : Nat → Prop) [DecidablePred c] (F : Nat → ARdouble)
    (l : List Nat) :
    (l.map fun n => if c n then 0 else F n).sum = ((l.filter fun n => ¬ c n).map F).sum := by
  induction l with
  | nil => simp
  | cons x xs ih =>
    by_cases hx : c x
    · simp [hx, ih]
    · simp [hx, ih]

/-- The index `i * height + j` of the error loop, computed in `int` and used as a vector
index, is the natural number `i * height + j` while the point count fits an `int`. -/
theorem errorLoop_index (w h : Int) (i j : Nat) (hh : 0 ≤ h)
    (hwh : w * h ≤ INT_MAX) (hi : i < w.toNat) (hj : j < h.toNat) :
    toSizeT (wrapInt (wrapInt ((i : Int) * h) + (j : Int))) = i * h.toNat + j := by
  have hi' : (i : Int) + 1 ≤ w := by omega
  have hj' : (j : Int) < h := by omega
  have h1 : ((i : Int) + 1) * h ≤ w * h := Int.mul_le_mul_of_nonneg_right hi' hh
  have h2 : 0 ≤ (i : Int) * h := Int.mul_nonneg (Int.ofNat_nonneg i) hh
  have h3 : ((i : Int) + 1) * h = (i : Int) * h + h := by ring
  have h4 : ((i * h.toNat + j : Nat) : Int) = (i : Int) * h + j := by
    rw [Nat.cast_add, Nat.cast_mul, Int.toNat_of_nonneg hh]
  unfold INT_MAX at hwh
  unfold toSizeT wrapInt
  omega

/-- The squared-error sum of one sample, as the nested loops of `calc` accumulate it,
is the sum over all pattern points with non-zero projective depth, while the pattern
size is non-negative and the point count fits an `int`. -/
theorem sampleError_eq_skipping (env : CalcEnv) (param : ARParam) (trans : Nat → Nat → ARdouble)
    (objectPoints0 : List Point3f) (corners : List Point2f) (patternSize : Size)
    (hw : 0 ≤ patternSize.width) (hh : 0 ≤ patternSize.height)
    (hwh : patternSize.width * patternSize.height ≤ INT_MAX) :
    sampleError env param trans objectPoints0 corners patternSize =
      reprojectionErrorSkipping env param trans objectPoints0 corners patternSize := by
  unfold sampleError reprojectionErrorSkipping
  have hprod : 0 ≤ patternSize.width * patternSize.height := Int.mul_nonneg hw hh
  have hdiv : wrapInt (patternSize.width * patternSize.height) =
      patternSize.width * patternSize.height := by
    unfold INT_MAX at hwh
    unfold wrapInt
    omega
  have hcount : (patternSize.width * patternSize.height).toNat =
      patternSize.width.toNat * patternSize.height.toNat := by
    have h1 : ((patternSize.width.toNat * patternSize.height.toNat : Nat) : Int) =
        patternSize.width * patternSize.height := by
      rw [Nat.cast_mul, Int.toNat_of_nonneg hw, Int.toNat_of_nonneg hh]
    rw [← h1, Int.toNat_natCast]
  have hsum : (List.range patternSize.width.toNat).foldl
      (fun err (i : Nat) => (List.range patternSize.height.toNat).foldl
        (fun err (j : Nat) =>
          pointErrorStep env param trans objectPoints0 corners
            (toSizeT (wrapInt (wrapInt ((i : Int) * patternSize.height) + (j : Int)))) err)
        err)
      0 =
      (((List.range (patternSize.width * patternSize.height).toNat).filter
          fun n => pointDepth param trans objectPoints0 n ≠ 0).map
        (pointSquaredError env param trans objectPoints0 corners)).sum := by
    simp only [pointErrorStep_eq]
    simp only [foldl_add_eq_sum]
    rw [zero_add, hcount, ← sum_map_ite_zero, ← sum_range_grid]
    congr 1
    apply List.map_congr_left
    intro i hi
    congr 1
    apply List.map_congr_left
    intro j hj
    rw [errorLoop_index patternSize.width patternSize.height i j hh hwh
      (List.mem_range.mp hi) (List.mem_range.mp hj)]
  rw [hsum, hdiv]

/-- The per-sample errors that `calc` logs: one `sampleError` per captured image. -/
theorem calcCamera_errLog (env : CalcEnv) (a : CalcArgs) (param : ARParam) :
    (calcCamera env a param).errLog =
      (List.range a.capturedImageNum.toNat).map fun (k : Nat) =>
        sampleError env (calcParam env a param) (calcTrans env (calcSolve env a) k)
          ((calcObjectPoints a).getD 0 []) (a.cornerSet.getD k []) a.patternSize :=
  rfl

/-- Inside the loop over the captured images, `objectPoints[0]` is the pattern's list of
object points. -/
theorem calcObjectPoints_head (a : CalcArgs) (h : 0 < a.capturedImageNum) :
    (calcObjectPoints a).getD 0 [] =
      calcChessboardCorners a.patternType a.patternSize a.patternSpacing := by
  unfold calcObjectPoints
  rw [List.getD_eq_getElem?_getD, List.getElem?_replicate_of_lt (by omega)]
  rfl

/-- The error that `calc` logs for sample `k`, with the points of projective depth 0
left out of the sum. -/
theorem calcCamera_errLog_getElem? (env : CalcEnv) (a : CalcArgs) (param : ARParam) (k : Nat)
    (hw : 0 ≤ a.patternSize.width) (hh : 0 ≤ a.patternSize.height)
    (hwh : a.patternSize.width * a.patternSize.height ≤ INT_MAX)
    (hk : (k : Int) < a.capturedImageNum) :
    (calcCamera env a param).errLog[k]? =
      some (reprojectionErrorSkipping env (calcParam env a param)
        (calcTrans env (calcSolve env a) k)
        (calcChessboardCorners a.patternType a.patternSize a.patternSpacing)
        (a.cornerSet.getD k []) a.patternSize) := by
  rw [calcCamera_errLog, List.getElem?_map, List.getElem?_range (by omega),
    calcObjectPoints_head a (by omega), Option.map_some',
    sampleError_eq_skipping env _ _ _ _ _ hw hh hwh]

/-- The object points of a 1 x 1 chessboard: the origin. -/
theorem calcChessboardCorners_one_point (s : ℚ) :
    calcChessboardCorners .CHESSBOARD ⟨1, 1⟩ s = [⟨0, 0, 0⟩] := by
  simp [calcChessboardCorners, List.range_succ]

/-- With the stand-in routines, the single object point of `onePointArgs` has the
homogeneous image point `(0, 0, tz)`. -/
theorem demoEnv_projectPoint (tz x y : ARdouble) (inRange : Bool) (param : ARParam) :
    projectPoint (calcParam (demoEnv tz inRange) (onePointArgs x y) param)
      (calcTrans (demoEnv tz inRange) (calcSolve (demoEnv tz inRange) (onePointArgs x y)) 0)
      0 0 = (0, 0, tz) := by
  have hs : ∀ df : Nat → ARdouble, getSizeFactor identityObserv2Ideal df 640 480 4 = 1 :=
    fun df => getSizeFactor_of_identity identityObserv2Ideal df 640 480 4 (fun _ _ _ _ => rfl)
  have hm := convParam_entries identityObserv2Ideal
    (fun j i => if i < 3 then (if j = i then (1 : ARdouble) else 0) else 0) (fun _ => 0) 640 480 param
  simp only [hs, div_one] at hm
  obtain ⟨h00, h01, h10, h11, hrest, _⟩ := hm
  have h02 := hrest 0 2 (by decide) (by decide) (by decide)
  have h03 := hrest 0 3 (by decide) (by decide) (by decide)
  have h12 := hrest 1 2 (by decide) (by decide) (by decide)
  have h13 := hrest 1 3 (by decide) (by decide) (by decide)
  have h20 := hrest 2 0 (by decide) (by decide) (by decide)
  have h21 := hrest 2 1 (by decide) (by decide) (by decide)
  have h22 := hrest 2 2 (by decide) (by decide) (by decide)
  have h23 := hrest 2 3 (by decide) (by decide) (by decide)
  have hparam : calcParam (demoEnv tz inRange) (onePointArgs x y) param =
      convParam identityObserv2Ideal
        (fun j i => if i < 3 then (if j = i then (1 : ARdouble) else 0) else 0) (fun _ => 0)
        640 480 param := rfl
  rw [hparam]
  simp only [projectPoint, h00, h01, h02, h03, h10, h11, h12, h13, h20, h21, h22, h23]
  simp [calcTrans, calcSolve, demoEnv, onePointArgs]

/-- With the stand-in routines, the error that `calc` logs for `onePointArgs x y` is the
root of 0 when `tz = 0` and the root of `x^2 + y^2` otherwise. -/
theorem demoEnv_errLog (tz x y : ARdouble) (inRange : Bool) (param : ARParam) :
    (calcCamera (demoEnv tz inRange) (onePointArgs x y) param).errLog =
      [demoSqrt (if tz = 0 then 0 else x ^ 2 + y ^ 2)] := by
  have hk := calcCamera_errLog_getElem? (demoEnv tz inRange) (onePointArgs x y) param 0
    (show (0 : Int) ≤ 1 by decide) (show (0 : Int) ≤ 1 by decide)
    (show (1 : Int) * 1 ≤ INT_MAX by decide) (show ((0 : Nat) : Int) < 1 by decide)
  have hlen : (calcCamera (demoEnv tz inRange) (onePointArgs x y) param).errLog.length = 1 := by
    rw [calcCamera_errLog]
    simp [onePointArgs]
  have hproj := demoEnv_projectPoint tz x y inRange param
  have hobj : calcChessboardCorners (onePointArgs x y).patternType
      (onePointArgs x y).patternSize (onePointArgs x y).patternSpacing = [⟨0, 0, 0⟩] :=
    calcChessboardCorners_one_point 30
  have hcs : (onePointArgs x y).cornerSet.getD 0 [] = [⟨x, y⟩] := rfl
  have hr : List.range ((onePointArgs x y).patternSize.width *
      (onePointArgs x y).patternSize.height).toNat = [0] := rfl
  have hden : (((onePointArgs x y).patternSize.width *
      (onePointArgs x y).patternSize.height : Int) : ARdouble) = 1 := by
    simp [onePointArgs]
  have hdepth : pointDepth (calcParam (demoEnv tz inRange) (onePointArgs x y) param)
      (calcTrans (demoEnv tz inRange) (calcSolve (demoEnv tz inRange) (onePointArgs x y)) 0)
      [⟨0, 0, 0⟩] 0 = tz := by
    simp only [pointDepth, List.getD_cons_zero]
    rw [hproj]
  have hpse : pointSquaredError (demoEnv tz inRange)
      (calcParam (demoEnv tz inRange) (onePointArgs x y) param)
      (calcTrans (demoEnv tz inRange) (calcSolve (demoEnv tz inRange) (onePointArgs x y)) 0)
      [⟨0, 0, 0⟩] [⟨x, y⟩] 0 = x ^ 2 + y ^ 2 := by
    simp only [pointSquaredError, List.getD_cons_zero]
    rw [hproj]
    simp [demoEnv, identityObserv2Ideal]
  have hval : reprojectionErrorSkipping (demoEnv tz inRange)
      (calcParam (demoEnv tz inRange) (onePointArgs x y) param)
      (calcTrans (demoEnv tz inRange) (calcSolve (demoEnv tz inRange) (onePointArgs x y)) 0)
      (calcChessboardCorners (onePointArgs x y).patternType (onePointArgs x y).patternSize
        (onePointArgs x y).patternSpacing)
      ((onePointArgs x y).cornerSet.getD 0 []) (onePointArgs x y).patternSize =
      demoSqrt (if tz = 0 then 0 else x ^ 2 + y ^ 2) := by
    unfold reprojectionErrorSkipping
    rw [hobj, hcs, hr, hden]
    have hs : (demoEnv tz inRange).sqrtf = demoSqrt := rfl
    rw [hs]
    simp only [List.filter_cons, List.filter_nil, hdepth]
    by_cases htz : tz = 0
    · simp [htz]
    · simp [hpse, htz]
  rw [hval] at hk
  match hlog : (calcCamera (demoEnv tz inRange) (onePointArgs x y) param).errLog, hlen, hk with
  | [e], _, hk' =>
    simp only [List.getElem?_cons_zero, Option.some.injEq] at hk'
    rw [hk']

/-- With the stand-in routines, the squared pixel distance of the single point of
`onePointArgs x y`, in the words of the specification, is `x^2 + y^2` for every `tz`
(for `tz = 0` the quotients by `h = 0` are 0 in the rationals). -/
theorem demoEnv_pointSquaredError (tz x y : ARdouble) (inRange : Bool) (param : ARParam) :
    pointSquaredError (demoEnv tz inRange)
      (calcParam (demoEnv tz inRange) (onePointArgs x y) param)
      (calcTrans (demoEnv tz inRange) (calcSolve (demoEnv tz inRange) (onePointArgs x y)) 0)
      [⟨0, 0, 0⟩] [⟨x, y⟩] 0 = x ^ 2 + y ^ 2 := by
  simp only [pointSquaredError, List.getD_cons_zero]
  rw [demoEnv_projectPoint tz x y inRange param]
  simp [demoEnv, identityObserv2Ideal]

/-- Values of the square-root stand-in. -/
theorem demoSqrt_values :
    demoSqrt 0 = 0 ∧ demoSqrt 25 = 5 ∧ demoSqrt 4000000000000 = 2000000 := by
  have h25 : (Int.toNat 25) = 25 := rfl
  have h4 : (Int.toNat 4000000000000) = 4000000000000 := rfl
  refine ⟨?_, ?_, ?_⟩
  · simp [demoSqrt]
  · norm_num [demoSqrt, h25]
  · norm_num [demoSqrt, h4]

/-- The square-root stand-in is never negative. -/
theorem demoSqrt_nonneg (x : ARdouble) : 0 ≤ demoSqrt x := by
  unfold demoSqrt
  positivity

/-- C15, as stated, fails. With the stand-in routines and translation 0 the single
pattern point has projective depth `h = 0`: `calc` skips it and logs the error 0, while
the root of the summed squared distance over all pattern points, divided by the point
count, is 5 for the observed point (3, 4). -/
theorem calc_sample_error_counterexample :
    (calcCamera (demoEnv 0 true) (onePointArgs 3 4) zeroParam).errLog = [0] ∧
    reprojectionError (demoEnv 0 true) (calcParam (demoEnv 0 true) (onePointArgs 3 4) zeroParam)
      (calcTrans (demoEnv 0 true) (calcSolve (demoEnv 0 true) (onePointArgs 3 4)) 0)
      (calcChessboardCorners .CHESSBOARD ⟨1, 1⟩ 30) [⟨3, 4⟩] ⟨1, 1⟩ = 5 := by
  refine ⟨?_, ?_⟩
  · rw [demoEnv_errLog, if_pos rfl, demoSqrt_values.1]
  · unfold reprojectionError
    have hr : List.range ((⟨1, 1⟩ : Size).width * (⟨1, 1⟩ : Size).height).toNat = [0] := rfl
    have hs : (demoEnv 0 true).sqrtf = demoSqrt := rfl
    rw [hr, hs, calcChessboardCorners_one_point]
    simp only [List.map_cons, List.map_nil, List.sum_cons, List.sum_nil,
      demoEnv_pointSquaredError]
    norm_num [demoSqrt_values.2.1]

/-- C15, amended: per-sample reprojection error. For every pattern size with
non-negative width and height whose point count fits an `int`, and every sample
`k < capturedImageNum`, the error that `calc` reports for it is
`sqrtf(S_k / (width * height))`, where `S_k` is the sum, over the pattern points whose
projective depth `h` is not 0, of the squared pixel distance between the projected and
distorted object point and the sample's observed point with the same index. -/
theorem calc_sample_error (env : CalcEnv) (a : CalcArgs) (param : ARParam) (k : Nat)
    (hw : 0 ≤ a.patternSize.width) (hh : 0 ≤ a.patternSize.height)
    (hwh : a.patternSize.width * a.patternSize.height ≤ INT_MAX)
    (hk : (k : Int) < a.capturedImageNum) :
    (calcCamera env a param).errLog[k]? =
      some (env.sqrtf
        ((((List.range (a.patternSize.width * a.patternSize.height).toNat).filter
            fun n => pointDepth (calcParam env a param) (calcTrans env (calcSolve env a) k)
              (calcChessboardCorners a.patternType a.patternSize a.patternSpacing) n ≠ 0).map
          (pointSquaredError env (calcParam env a param) (calcTrans env (calcSolve env a) k)
            (calcChessboardCorners a.patternType a.patternSize a.patternSpacing)
            (a.cornerSet.getD k []))).sum /
        ((a.patternSize.width * a.patternSize.height : Int) : ARdouble))) :=
  calcCamera_errLog_getElem? env a param k hw hh hwh hk

/-- Witness of `calc_sample_error`: one sample of a 1 x 1 chessboard with the stand-in
routines. -/
theorem calc_sample_error_witness :
    (calcCamera (demoEnv 1 true) (onePointArgs 3 4) zeroParam).errLog[0]? =
      some ((demoEnv 1 true).sqrtf
        ((((List.range ((onePointArgs 3 4).patternSize.width *
              (onePointArgs 3 4).patternSize.height).toNat).filter
            fun n => pointDepth (calcParam (demoEnv 1 true) (onePointArgs 3 4) zeroParam)
              (calcTrans (demoEnv 1 true) (calcSolve (demoEnv 1 true) (onePointArgs 3 4)) 0)
              (calcChessboardCorners (onePointArgs 3 4).patternType
                (onePointArgs 3 4).patternSize (onePointArgs 3 4).patternSpacing) n ≠ 0).map
          (pointSquaredError (demoEnv 1 true)
            (calcParam (demoEnv 1 true) (onePointArgs 3 4) zeroParam)
            (calcTrans (demoEnv 1 true) (calcSolve (demoEnv 1 true) (onePointArgs 3 4)) 0)
            (calcChessboardCorners (onePointArgs 3 4).patternType
              (onePointArgs 3 4).patternSize (onePointArgs 3 4).patternSpacing)
            ((onePointArgs 3 4).cornerSet.getD 0 []))).sum /
        (((onePointArgs 3 4).patternSize.width * (onePointArgs 3 4).patternSize.height : Int) :
          ARdouble))) :=
  calc_sample_error (demoEnv 1 true) (onePointArgs 3 4) zeroParam 0
    (show (0 : Int) ≤ 1 by decide) (show (0 : Int) ≤ 1 by decide)
    (show (1 : Int) * 1 ≤ INT_MAX by decide) (show ((0 : Nat) : Int) < 1 by decide)

/-! ## Theorems: the error statistics of `calc` -/

/-- The three outputs of `calc` are the statistics over its per-sample errors. -/
theorem calcCamera_stats (env : CalcEnv) (a : CalcArgs) (param : ARParam) :
    (calcCamera env a param).err_min_out =
      (calcErrorStats a.capturedImageNum (calcCamera env a param).errLog).err_min ∧
    (calcCamera env a param).err_avg_out =
      (calcErrorStats a.capturedImageNum (calcCamera env a param).errLog).err_avg ∧
    (calcCamera env a param).err_max_out =
      (calcErrorStats a.capturedImageNum (calcCamera env a param).errLog).err_max :=
  ⟨rfl, rfl, rfl⟩

/-- The number of per-sample errors of `calc` is the number of captured images. -/
theorem calcCamera_errLog_length (env : CalcEnv) (a : CalcArgs) (param : ARParam)
    (h0 : 0 ≤ a.capturedImageNum) :
    ((calcCamera env a param).errLog.length : Int) = a.capturedImageNum := by
  rw [calcCamera_errLog, List.length_map, List.length_range, Int.toNat_of_nonneg h0]

/-- The statistics loop, field by field: a running minimum, a running sum and a running
maximum. -/
theorem foldl_track (errs : List ARdouble) (st : ErrorStats) :
    errs.foldl ErrorStats.track st =
      ⟨errs.foldl (fun m e => if e < m then e else m) st.err_min,
        st.err_avg + errs.sum,
        errs.foldl (fun m e => if e > m then e else m) st.err_max⟩ := by
  induction errs generalizing st with
  | nil => simp
  | cons e es ih =>
    simp only [List.foldl_cons, List.sum_cons]
    rw [ih]
    simp only [ErrorStats.track, add_assoc]

/-- The running minimum: the start value or an element, below the start value and below
every element. -/
theorem foldl_running_min (errs : List ARdouble) (m0 : ARdouble) :
    (errs.foldl (fun m e => if e < m then e else m) m0 = m0 ∨
      errs.foldl (fun m e => if e < m then e else m) m0 ∈ errs) ∧
    errs.foldl (fun m e => if e < m then e else m) m0 ≤ m0 ∧
    ∀ e ∈ errs, errs.foldl (fun m e => if e < m then e else m) m0 ≤ e := by
  induction errs generalizing m0 with
  | nil => simp
  | cons x xs ih =>
    simp only [List.foldl_cons]
    obtain ⟨ih1, ih2, ih3⟩ := ih (if x < m0 then x else m0)
    have hstep1 : (if x < m0 then x else m0) ≤ m0 := by
      split_ifs with h
      · exact h.le
      · exact le_refl _
    have hstep2 : (if x < m0 then x else m0) ≤ x := by
      split_ifs with h
      · exact le_refl _
      · exact not_lt.mp h
    refine ⟨?_, le_trans ih2 hstep1, ?_⟩
    · rcases ih1 with h | h
      · by_cases hx : x < m0
        · right
          rw [h, if_pos hx]
          exact List.mem_cons_self x xs
        · left
          rw [h, if_neg hx]
      · right
        exact List.mem_cons_of_mem x h
    · intro e he
      rcases List.mem_cons.mp he with rfl | hmem
      · exact le_trans ih2 hstep2
      · exact ih3 e hmem

/-- The running maximum: the start value or an element, above the start value and above
every element. -/
theorem foldl_running_max (errs : List ARdouble) (m0 : ARdouble) :
    (errs.foldl (fun m e => if e > m then e else m) m0 = m0 ∨
      errs.foldl (fun m e => if e > m then e else m) m0 ∈ errs) ∧
    m0 ≤ errs.foldl (fun m e => if e > m then e else m) m0 ∧
    ∀ e ∈ errs, e ≤ errs.foldl (fun m e => if e > m then e else m) m0 := by
  induction errs generalizing m0 with
  | nil => simp
  | cons x xs ih =>
    simp only [List.foldl_cons]
    obtain ⟨ih1, ih2, ih3⟩ := ih (if x > m0 then x else m0)
    have hstep1 : m0 ≤ (if x > m0 then x else m0) := by
      split_ifs with h
      · exact h.le
      · exact le_refl _
    have hstep2 : x ≤ (if x > m0 then x else m0) := by
      split_ifs with h
      · exact le_refl _
      · exact not_lt.mp h
    refine ⟨?_, le_trans hstep1 ih2, ?_⟩
    · rcases ih1 with h | h
      · by_cases hx : x > m0
        · right
          rw [h, if_pos hx]
          exact List.mem_cons_self x xs
        · left
          rw [h, if_neg hx]
      · right
        exact List.mem_cons_of_mem x h
    · intro e he
      rcases List.mem_cons.mp he with rfl | hmem
      · exact le_trans hstep2 ih2
      · exact ih3 e hmem

/-- The average that the statistics hold: the sum of the errors over `N + 1`, while
`N + 1` is an `int` value. -/
theorem calcErrorStats_err_avg (N : Int) (errs : List ARdouble) (h0 : 0 ≤ N)
    (hmax : N < INT_MAX) :
    (calcErrorStats N errs).err_avg = errs.sum / ((N : ARdouble) + 1) := by
  have hw : wrapInt (N + 1) = N + 1 := by
    unfold INT_MAX at hmax
    unfold wrapInt
    omega
  simp only [calcErrorStats, foldl_track, hw, zero_add]
  push_cast
  rfl

/-- C16: the average error divides by N+1. For every `N = capturedImageNum ≥ 0` (with
`N + 1` an `int` value), `calc` has `N` per-sample errors and the `err_avg_out` it writes
is their sum divided by `N + 1`. -/
theorem calc_err_avg (env : CalcEnv) (a : CalcArgs) (param : ARParam)
    (h0 : 0 ≤ a.capturedImageNum) (hmax : a.capturedImageNum < INT_MAX) :
    ((calcCamera env a param).errLog.length : Int) = a.capturedImageNum ∧
    (calcCamera env a param).err_avg_out =
      (calcCamera env a param).errLog.sum / ((a.capturedImageNum : ARdouble) + 1) :=
  ⟨calcCamera_errLog_length env a param h0,
    (calcCamera_stats env a param).2.1.trans (calcErrorStats_err_avg _ _ h0 hmax)⟩

/-- Witness of `calc_err_avg`: one sample with the stand-in routines. -/
theorem calc_err_avg_witness :
    ((calcCamera (demoEnv 1 true) (onePointArgs 3 4) zeroParam).errLog.length : Int) =
      (onePointArgs 3 4).capturedImageNum ∧
    (calcCamera (demoEnv 1 true) (onePointArgs 3 4) zeroParam).err_avg_out =
      (calcCamera (demoEnv 1 true) (onePointArgs 3 4) zeroParam).errLog.sum /
        (((onePointArgs 3 4).capturedImageNum : ARdouble) + 1) :=
  calc_err_avg (demoEnv 1 true) (onePointArgs 3 4) zeroParam
    (show (0 : Int) ≤ 1 by decide) (show (1 : Int) < INT_MAX by decide)

/-- The statistics over `N ≥ 1` non-negative errors: the maximum is attained and bounds
every error; the minimum is attained and bounds every error when some error is at most
1000000, and is 1000000 when every error is above that; and the mean lies between the
two. -/
theorem calcErrorStats_extremes (N : Int) (errs : List ARdouble) (hN : 1 ≤ N)
    (hmax : N < INT_MAX) (hlen : (errs.length : Int) = N) (hnn : ∀ e ∈ errs, 0 ≤ e) :
    ((calcErrorStats N errs).err_max ∈ errs ∧ ∀ e ∈ errs, e ≤ (calcErrorStats N errs).err_max) ∧
    ((∃ e ∈ errs, e ≤ 1000000) →
      (calcErrorStats N errs).err_min ∈ errs ∧
        ∀ e ∈ errs, (calcErrorStats N errs).err_min ≤ e) ∧
    ((∀ e ∈ errs, 1000000 < e) → (calcErrorStats N errs).err_min = 1000000) ∧
    (calcErrorStats N errs).err_min ≤
      (calcErrorStats N errs).err_avg * ((N : ARdouble) + 1) / (N : ARdouble) ∧
    (calcErrorStats N errs).err_avg * ((N : ARdouble) + 1) / (N : ARdouble) ≤
      (calcErrorStats N errs).err_max := by
  have havg := calcErrorStats_err_avg N errs (by omega) hmax
  have hmin : (calcErrorStats N errs).err_min =
      errs.foldl (fun m e => if e < m then e else m) 1000000 := by
    simp only [calcErrorStats, foldl_track]
  have hmx : (calcErrorStats N errs).err_max =
      errs.foldl (fun m e => if e > m then e else m) 0 := by
    simp only [calcErrorStats, foldl_track]
  obtain ⟨a1, a2, a3⟩ := foldl_running_min errs 1000000
  obtain ⟨b1, b2, b3⟩ := foldl_running_max errs 0
  rw [← hmin] at a1 a2 a3
  rw [← hmx] at b1 b2 b3
  have hne : errs ≠ [] := by
    intro h
    rw [h] at hlen
    simp at hlen
    omega
  obtain ⟨e0, he0⟩ := List.exists_mem_of_ne_nil errs hne
  have hNq : (0 : ARdouble) < (N : ARdouble) := by
    have : (0 : Int) < N := by omega
    exact_mod_cast this
  have hN1 : ((N : ARdouble) + 1) ≠ 0 := by positivity
  have hlenq : (errs.length : ARdouble) = (N : ARdouble) := by
    rw [← hlen]
    simp
  have hmean : (calcErrorStats N errs).err_avg * ((N : ARdouble) + 1) / (N : ARdouble) =
      errs.sum / (N : ARdouble) := by
    rw [havg, div_mul_cancel₀ _ hN1]
  have hlow : (calcErrorStats N errs).err_min * (N : ARdouble) ≤ errs.sum := by
    have h := List.card_nsmul_le_sum errs _ a3
    rw [nsmul_eq_mul, hlenq] at h
    linarith
  have hhigh : errs.sum ≤ (calcErrorStats N errs).err_max * (N : ARdouble) := by
    have h := List.sum_le_card_nsmul errs _ b3
    rw [nsmul_eq_mul, hlenq] at h
    linarith
  refine ⟨⟨?_, b3⟩, ?_, ?_, ?_, ?_⟩
  · rcases b1 with h | h
    · have h1 : e0 ≤ 0 := h ▸ b3 e0 he0
      have h2 : e0 = 0 := le_antisymm h1 (hnn e0 he0)
      rw [h, ← h2]
      exact he0
    · exact h
  · rintro ⟨e, he, hle⟩
    refine ⟨?_, a3⟩
    rcases a1 with h | h
    · have h1 : (1000000 : ARdouble) ≤ e := h ▸ a3 e he
      have h2 : e = 1000000 := le_antisymm hle h1
      rw [h, ← h2]
      exact he
    · exact h
  · intro hall
    rcases a1 with h | h
    · exact h
    · exact absurd (hall _ h) (not_lt.mpr a2)
  · rw [hmean, le_div_iff₀ hNq]
    exact hlow
  · rw [hmean, div_le_iff₀ hNq]
    exact hhigh

/-- Every per-sample error of `calc` is a value of `sqrtf`. -/
theorem calcCamera_errLog_sqrtf (env : CalcEnv) (a : CalcArgs) (param : ARParam) :
    ∀ e ∈ (calcCamera env a param).errLog, ∃ x, e = env.sqrtf x := by
  intro e he
  rw [calcCamera_errLog, List.mem_map] at he
  obtain ⟨k, _, rfl⟩ := he
  exact ⟨_, rfl⟩

/-- C17, as stated, fails. With the stand-in routines, one sample whose single corner is
observed at (2000000, 0) has the error 2000000, which is the minimum over the samples;
`calc` writes `err_min_out = 1000000`. -/
theorem calc_err_extremes_counterexample :
    (calcCamera (demoEnv 1 true) (onePointArgs 2000000 0) zeroParam).errLog = [2000000] ∧
    (calcCamera (demoEnv 1 true) (onePointArgs 2000000 0) zeroParam).err_min_out = 1000000 := by
  have hlog : (calcCamera (demoEnv 1 true) (onePointArgs 2000000 0) zeroParam).errLog =
      [2000000] := by
    rw [demoEnv_errLog, if_neg one_ne_zero]
    norm_num [demoSqrt_values.2.2]
  refine ⟨hlog, ?_⟩
  rw [(calcCamera_stats _ _ _).1, hlog]
  norm_num [calcErrorStats, ErrorStats.track]

/-- C17, amended: for every `N = capturedImageNum ≥ 1` (with `N + 1` an `int` value) and
a `sqrtf` that returns no negative value, `err_max_out` is the maximum of the `N`
per-sample errors; `err_min_out` is their minimum when some per-sample error is at most
1000000, and is 1000000 when every per-sample error is above 1000000; and
`err_min_out ≤ err_avg_out * (N+1) / N ≤ err_max_out`. -/
theorem calc_err_extremes (env : CalcEnv) (a : CalcArgs) (param : ARParam)
    (hN : 1 ≤ a.capturedImageNum) (hmax : a.capturedImageNum < INT_MAX)
    (hsqrt : ∀ x, 0 ≤ env.sqrtf x) :
    ((calcCamera env a param).err_max_out ∈ (calcCamera env a param).errLog ∧
      ∀ e ∈ (calcCamera env a param).errLog, e ≤ (calcCamera env a param).err_max_out) ∧
    ((∃ e ∈ (calcCamera env a param).errLog, e ≤ 1000000) →
      (calcCamera env a param).err_min_out ∈ (calcCamera env a param).errLog ∧
        ∀ e ∈ (calcCamera env a param).errLog, (calcCamera env a param).err_min_out ≤ e) ∧
    ((∀ e ∈ (calcCamera env a param).errLog, 1000000 < e) →
      (calcCamera env a param).err_min_out = 1000000) ∧
    (calcCamera env a param).err_min_out ≤
      (calcCamera env a param).err_avg_out * ((a.capturedImageNum : ARdouble) + 1) /
        (a.capturedImageNum : ARdouble) ∧
    (calcCamera env a param).err_avg_out * ((a.capturedImageNum : ARdouble) + 1) /
        (a.capturedImageNum : ARdouble) ≤ (calcCamera env a param).err_max_out := by
  obtain ⟨s1, s2, s3⟩ := calcCamera_stats env a param
  rw [s1, s2, s3]
  refine calcErrorStats_extremes _ _ hN hmax
    (calcCamera_errLog_length env a param (by omega)) ?_
  intro e he
  obtain ⟨x, rfl⟩ := calcCamera_errLog_sqrtf env a param e he
  exact hsqrt x

/-- Witness of `calc_err_extremes`: one sample with the stand-in routines. -/
theorem calc_err_extremes_witness :
    ((calcCamera (demoEnv 1 true) (onePointArgs 3 4) zeroParam).err_max_out ∈
        (calcCamera (demoEnv 1 true) (onePointArgs 3 4) zeroParam).errLog ∧
      ∀ e ∈ (calcCamera (demoEnv 1 true) (onePointArgs 3 4) zeroParam).errLog,
        e ≤ (calcCamera (demoEnv 1 true) (onePointArgs 3 4) zeroParam).err_max_out) ∧
    ((∃ e ∈ (calcCamera (demoEnv 1 true) (onePointArgs 3 4) zeroParam).errLog, e ≤ 1000000) →
      (calcCamera (demoEnv 1 true) (onePointArgs 3 4) zeroParam).err_min_out ∈
          (calcCamera (demoEnv 1 true) (onePointArgs 3 4) zeroParam).errLog ∧
        ∀ e ∈ (calcCamera (demoEnv 1 true) (onePointArgs 3 4) zeroParam).errLog,
          (calcCamera (demoEnv 1 true) (onePointArgs 3 4) zeroParam).err_min_out ≤ e) ∧
    ((∀ e ∈ (calcCamera (demoEnv 1 true) (onePointArgs 3 4) zeroParam).errLog, 1000000 < e) →
      (calcCamera (demoEnv 1 true) (onePointArgs 3 4) zeroParam).err_min_out = 1000000) ∧
    (calcCamera (demoEnv 1 true) (onePointArgs 3 4) zeroParam).err_min_out ≤
      (calcCamera (demoEnv 1 true) (onePointArgs 3 4) zeroParam).err_avg_out *
        (((onePointArgs 3 4).capturedImageNum : ARdouble) + 1) /
        ((onePointArgs 3 4).capturedImageNum : ARdouble) ∧
    (calcCamera (demoEnv 1 true) (onePointArgs 3 4) zeroParam).err_avg_out *
        (((onePointArgs 3 4).capturedImageNum : ARdouble) + 1) /
        ((onePointArgs 3 4).capturedImageNum : ARdouble) ≤
      (calcCamera (demoEnv 1 true) (onePointArgs 3 4) zeroParam).err_max_out :=
  calc_err_extremes (demoEnv 1 true) (onePointArgs 3 4) zeroParam
    (show (1 : Int) ≤ 1 by decide) (show (1 : Int) < INT_MAX by decide) demoSqrt_nonneg

/-! ## Theorems: the range check of `calc` -/

/-- C18, as stated, fails. With the stand-in routines and failing range checks, `calc`
logs the range error, and it still stores parameters through `param_out`: the same
parameters, statistics and per-sample errors as with passing checks. -/
theorem calc_range_check_counterexample :
    (calcCamera (demoEnv 1 false) (onePointArgs 3 4) zeroParam).rangeErrorLogged = true ∧
    (calcCamera (demoEnv 1 false) (onePointArgs 3 4) zeroParam).param_out ≠ none ∧
    (calcCamera (demoEnv 1 false) (onePointArgs 3 4) zeroParam).param_out =
      (calcCamera (demoEnv 1 true) (onePointArgs 3 4) zeroParam).param_out ∧
    (calcCamera (demoEnv 1 false) (onePointArgs 3 4) zeroParam).err_min_out =
      (calcCamera (demoEnv 1 true) (onePointArgs 3 4) zeroParam).err_min_out ∧
    (calcCamera (demoEnv 1 false) (onePointArgs 3 4) zeroParam).err_avg_out =
      (calcCamera (demoEnv 1 true) (onePointArgs 3 4) zeroParam).err_avg_out ∧
    (calcCamera (demoEnv 1 false) (onePointArgs 3 4) zeroParam).err_max_out =
      (calcCamera (demoEnv 1 true) (onePointArgs 3 4) zeroParam).err_max_out :=
  ⟨rfl, fun h => Option.noConfusion h, rfl, rfl, rfl, rfl⟩

/-- C18, amended: the range check of `calc` decides only whether an error is logged. For
every solve, `calc` logs the range error exactly when a check fails, it stores the
converted parameters through `param_out` in either case, and the parameters, the three
statistics and the per-sample errors are the same whatever the two checks return. -/
theorem calc_range_check_only_logs (env : CalcEnv) (a : CalcArgs) (param : ARParam)
    (c1 : (Nat → Nat → ARdouble) → Bool) (c2 : (Nat → ARdouble) → Bool) :
    (calcCamera env a param).rangeErrorLogged =
      !(env.checkRangeIntrinsics (calcSolve env a).intrinsics &&
        env.checkRangeDistortion (calcSolve env a).distortionCoeff) ∧
    (calcCamera env a param).param_out = some (calcParam env a param) ∧
    (calcCamera { env with checkRangeIntrinsics := c1, checkRangeDistortion := c2 } a
        param).param_out = (calcCamera env a param).param_out ∧
    (calcCamera { env with checkRangeIntrinsics := c1, checkRangeDistortion := c2 } a
        param).err_min_out = (calcCamera env a param).err_min_out ∧
    (calcCamera { env with checkRangeIntrinsics := c1, checkRangeDistortion := c2 } a
        param).err_avg_out = (calcCamera env a param).err_avg_out ∧
    (calcCamera { env with checkRangeIntrinsics := c1, checkRangeDistortion := c2 } a
        param).err_max_out = (calcCamera env a param).err_max_out ∧
    (calcCamera { env with checkRangeIntrinsics := c1, checkRangeDistortion := c2 } a
        param).errLog = (calcCamera env a param).errLog :=
  ⟨rfl, rfl, rfl, rfl, rfl, rfl, rfl⟩

/-! ## Theorems: `frame` -/

/-- The method `frame` is its first half followed by its second half. -/
theorem frame_eq_halves (s : Calibration) (vs : ARVideoSource) :
    s.frame vs = (true, s.frameCollect.frameSubmit vs) := rfl

/-- The first half of `frame` does not touch the busy flag, the start flag or the worker
data. -/
theorem frameCollect_keeps (s : Calibration) :
    threadGetBusyStatus s.frameCollect.m_cornerFinderThread =
      threadGetBusyStatus s.m_cornerFinderThread ∧
    s.frameCollect.m_cornerFinderThread.startF = s.m_cornerFinderThread.startF ∧
    s.frameCollect.m_cornerFinderData = s.m_cornerFinderData := by
  unfold Calibration.frameCollect
  split_ifs <;> exact ⟨rfl, rfl, rfl⟩

/-- The second half of `frame` changes nothing while the worker reports busy. -/
theorem frameSubmit_busy (s : Calibration) (vs : ARVideoSource)
    (hbusy : threadGetBusyStatus s.m_cornerFinderThread = true) : s.frameSubmit vs = s := by
  unfold Calibration.frameSubmit
  simp [hbusy]

/-- The session after `frame` when the worker reports busy: the session after the
first half. -/
theorem frame_busy (s : Calibration) (vs : ARVideoSource)
    (hbusy : threadGetBusyStatus s.m_cornerFinderThread = true) :
    (s.frame vs).2 = s.frameCollect := by
  rw [frame_eq_halves]
  exact frameSubmit_busy _ vs ((frameCollect_keeps s).1.trans hbusy)

/-- C19, as stated, fails. In the session `busyWithPendingResult` the worker reports busy
and a finished result awaits collection; `frame` replaces the cached result (flag 0 and
no points before, flag 1 and four points after). -/
theorem frame_while_busy_counterexample :
    threadGetBusyStatus busyWithPendingResult.m_cornerFinderThread = true ∧
    busyWithPendingResult.m_cornerFinderResultData.cornerFoundAllFlag = 0 ∧
    (busyWithPendingResult.frame ⟨none, 2, 2⟩).2.m_cornerFinderResultData.cornerFoundAllFlag = 1 ∧
    (busyWithPendingResult.frame ⟨none, 2, 2⟩).2.m_cornerFinderResultData ≠
      busyWithPendingResult.m_cornerFinderResultData := by
  decide

/-- C19, amended: `frame` while the worker reports busy. For every session state in
which the worker reports busy, `frame` does not write the worker's input buffer (the
worker data stay as they are) and does not signal the worker to start; if no finished
result awaits collection it changes nothing at all, and if one does it collects it: the
cached result becomes a copy of the worker data and the finished flag is reset. -/
theorem frame_while_busy (s : Calibration) (vs : ARVideoSource)
    (hbusy : threadGetBusyStatus s.m_cornerFinderThread = true) :
    (s.frame vs).1 = true ∧
    (s.frame vs).2.m_cornerFinderData = s.m_cornerFinderData ∧
    (s.frame vs).2.m_cornerFinderThread.startF = s.m_cornerFinderThread.startF ∧
    (threadGetStatus s.m_cornerFinderThread = false → (s.frame vs).2 = s) ∧
    (threadGetStatus s.m_cornerFinderThread = true →
      (s.frame vs).2.m_cornerFinderResultData =
        CalibrationCornerFinderData.assign s.m_cornerFinderData ∧
      threadGetStatus (s.frame vs).2.m_cornerFinderThread = false) := by
  rw [frame_busy s vs hbusy]
  obtain ⟨_, k2, k3⟩ := frameCollect_keeps s
  refine ⟨rfl, k3, k2, ?_, ?_⟩
  · intro h
    unfold Calibration.frameCollect
    rw [h]
    rfl
  · intro h
    unfold Calibration.frameCollect
    rw [if_pos h]
    exact ⟨rfl, rfl⟩

/-- Witness of `frame_while_busy`: the session `busyWithPendingResult`. -/
theorem frame_while_busy_witness :
    (busyWithPendingResult.frame ⟨some [9, 9, 9, 9], 2, 2⟩).1 = true ∧
    (busyWithPendingResult.frame ⟨some [9, 9, 9, 9], 2, 2⟩).2.m_cornerFinderData =
      busyWithPendingResult.m_cornerFinderData ∧
    (busyWithPendingResult.frame ⟨some [9, 9, 9, 9], 2, 2⟩).2.m_cornerFinderThread.startF =
      busyWithPendingResult.m_cornerFinderThread.startF ∧
    (threadGetStatus busyWithPendingResult.m_cornerFinderThread = false →
      (busyWithPendingResult.frame ⟨some [9, 9, 9, 9], 2, 2⟩).2 = busyWithPendingResult) ∧
    (threadGetStatus busyWithPendingResult.m_cornerFinderThread = true →
      (busyWithPendingResult.frame ⟨some [9, 9, 9, 9], 2, 2⟩).2.m_cornerFinderResultData =
        CalibrationCornerFinderData.assign busyWithPendingResult.m_cornerFinderData ∧
      threadGetStatus
        (busyWithPendingResult.frame ⟨some [9, 9, 9, 9], 2, 2⟩).2.m_cornerFinderThread = false) :=
  frame_while_busy busyWithPendingResult ⟨some [9, 9, 9, 9], 2, 2⟩ (by decide)

/-- Copy assignment copies the pixels of a buffer that is the one `init()` allocates for
the object's dimensions. -/
theorem assign_videoFrame (d : CalibrationCornerFinderData) (h : d.bufferAllocated) :
    (CalibrationCornerFinderData.assign d).videoFrame = d.videoFrame := by
  obtain ⟨hlen, hfit⟩ := h
  unfold CalibrationCornerFinderData.assign memcpy
  simp only
  by_cases hpos : d.videoWidth > 0 ∧ d.videoHeight > 0
  · obtain ⟨hw, hh⟩ := hpos
    have hprod := hfit hw hh
    have hinit : CalibrationCornerFinderData.init d.videoWidth d.videoHeight =
        List.replicate (wrapInt (d.videoWidth * d.videoHeight)).toNat 0 := by
      unfold CalibrationCornerFinderData.init
      rw [if_pos ⟨hw, hh⟩]
    have hpp : 0 < d.videoWidth * d.videoHeight := Int.mul_pos hw hh
    have hwle : d.videoWidth ≤ d.videoWidth * d.videoHeight := by nlinarith
    have hhle : d.videoHeight ≤ d.videoWidth * d.videoHeight := by nlinarith
    have hwrap : wrapInt (d.videoWidth * d.videoHeight) = d.videoWidth * d.videoHeight := by
      unfold INT_MAX at hprod
      unfold wrapInt
      omega
    have hn : toSizeT d.videoWidth * toSizeT d.videoHeight % 18446744073709551616 =
        (d.videoWidth * d.videoHeight).toNat := by
      have h1 : toSizeT d.videoWidth = d.videoWidth.toNat := by
        unfold INT_MAX at hprod
        unfold toSizeT
        rw [Int.emod_eq_of_lt (by omega) (by omega)]
      have h2 : toSizeT d.videoHeight = d.videoHeight.toNat := by
        unfold INT_MAX at hprod
        unfold toSizeT
        rw [Int.emod_eq_of_lt (by omega) (by omega)]
      have h3 : d.videoWidth.toNat * d.videoHeight.toNat =
          (d.videoWidth * d.videoHeight).toNat := by
        have h4 : ((d.videoWidth.toNat * d.videoHeight.toNat : Nat) : Int) =
            d.videoWidth * d.videoHeight := by
          rw [Nat.cast_mul, Int.toNat_of_nonneg hw.le, Int.toNat_of_nonneg hh.le]
        rw [← h4, Int.toNat_natCast]
      rw [h1, h2, h3]
      unfold INT_MAX at hprod
      omega
    rw [hinit, hwrap] at hlen
    rw [List.length_replicate] at hlen
    rw [hn, hinit, hwrap, ← hlen, List.take_length]
    simp
  · have hinit : CalibrationCornerFinderData.init d.videoWidth d.videoHeight = [] := by
      unfold CalibrationCornerFinderData.init
      rw [if_neg hpos]
    rw [hinit] at hlen
    have hnil : d.videoFrame = [] := List.length_eq_zero.mp hlen
    rw [hinit, hnil]
    simp

/-- Collecting a finished result is a value copy of the worker data at the call. For
every session state in which the worker reports a finished result (its data buffer being the one allocated for its
dimensions) and every video source, after `frame` the cached result has the flag, the
corner list, the frame dimensions and the frame pixels that the worker data had at the
call, the finished flag is reset, and the cached result is the same whatever the call
then writes into the worker's input buffer. -/
theorem frame_collects_at_call (s : Calibration) (vs : ARVideoSource)
    (hready : threadGetStatus s.m_cornerFinderThread = true)
    (hbuf : s.m_cornerFinderData.bufferAllocated) :
    (s.frame vs).2.m_cornerFinderResultData.cornerFoundAllFlag =
      s.m_cornerFinderData.cornerFoundAllFlag ∧
    (s.frame vs).2.m_cornerFinderResultData.corners = s.m_cornerFinderData.corners ∧
    (s.frame vs).2.m_cornerFinderResultData.videoWidth = s.m_cornerFinderData.videoWidth ∧
    (s.frame vs).2.m_cornerFinderResultData.videoHeight = s.m_cornerFinderData.videoHeight ∧
    (s.frame vs).2.m_cornerFinderResultData.videoFrame = s.m_cornerFinderData.videoFrame ∧
    threadGetStatus (s.frame vs).2.m_cornerFinderThread = false ∧
    ∀ vs2 : ARVideoSource,
      (s.frame vs2).2.m_cornerFinderResultData = (s.frame vs).2.m_cornerFinderResultData := by
  have hres : ∀ v : ARVideoSource, (s.frame v).2.m_cornerFinderResultData =
      CalibrationCornerFinderData.assign s.m_cornerFinderData := by
    intro v
    simp only [Calibration.frame, hready, if_true]
    split_ifs <;> cases v.buffLuma <;> rfl
  have hthr : threadGetStatus (s.frame vs).2.m_cornerFinderThread = false := by
    simp only [Calibration.frame, hready, if_true]
    split_ifs <;> cases vs.buffLuma <;> rfl
  refine ⟨?_, ?_, ?_, ?_, ?_, hthr, fun vs2 => (hres vs2).trans (hres vs).symm⟩
  · rw [hres]; rfl
  · rw [hres]; rfl
  · rw [hres]; rfl
  · rw [hres]; rfl
  · rw [hres]
    exact assign_videoFrame _ hbuf

/-! ## Theorems: the cached detection result -/

/-- C28: capture refines the cache in place. After every successful `capture` the last
accepted sample is the cached point sequence as it stands after the call, and both are
the refinement of the points cached before the call; a second successful `capture` with
nothing collected in between appends the refinement of the already refined points:
`cornerSubPix` applied, on the same cached image, to the output of its first
application. -/
theorem capture_refines_cache_in_place (cv : OpenCV) (s : Calibration)
    (h : (s.capture cv).1 = true) :
    (s.capture cv).2.m_corners.getLast? =
      some (s.capture cv).2.m_cornerFinderResultData.corners ∧
    (s.capture cv).2.m_cornerFinderResultData.corners = s.refinedCorners cv ∧
    (((s.capture cv).2.capture cv).1 = true →
      ((s.capture cv).2.capture cv).2.m_corners =
        s.m_corners ++ [s.refinedCorners cv,
          cv.cornerSubPix s.m_cornerFinderResultData.calibImage (s.refinedCorners cv)
            ⟨5, 5⟩ ⟨-1, -1⟩ ⟨CV_TERMCRIT_ITER, 100, 1 / 10⟩]) := by
  have h1 := capture_snd_of_true cv s h
  refine ⟨?_, ?_, ?_⟩
  · rw [h1]
    simp
  · rw [h1]
    rfl
  · intro h2
    rw [capture_snd_of_true cv _ h2, h1]
    simp [Calibration.refinedCorners, CalibrationCornerFinderData.calibImage]

/-- Witness of `capture_refines_cache_in_place`: the session `collectedSession 10`, in
which two captures in a row succeed; the stand-in refinement turns the four cached
points (0, 0) into (1, 0) and then into (1, 1). -/
theorem capture_refines_cache_in_place_witness :
    ((collectedSession 10).capture demoCV).1 = true ∧
    ((((collectedSession 10).capture demoCV).2.capture demoCV).1 = true) ∧
    ((((collectedSession 10).capture demoCV).2.capture demoCV).2.m_corners =
      [[⟨1, 0⟩, ⟨1, 0⟩, ⟨1, 0⟩, ⟨1, 0⟩], [⟨1, 1⟩, ⟨1, 1⟩, ⟨1, 1⟩, ⟨1, 1⟩]]) ∧
    (((collectedSession 10).capture demoCV).2.m_corners.getLast? =
      some ((collectedSession 10).capture demoCV).2.m_cornerFinderResultData.corners ∧
    ((collectedSession 10).capture demoCV).2.m_cornerFinderResultData.corners =
      (collectedSession 10).refinedCorners demoCV ∧
    ((((collectedSession 10).capture demoCV).2.capture demoCV).1 = true →
      (((collectedSession 10).capture demoCV).2.capture demoCV).2.m_corners =
        (collectedSession 10).m_corners ++ [(collectedSession 10).refinedCorners demoCV,
          demoCV.cornerSubPix (collectedSession 10).m_cornerFinderResultData.calibImage
            ((collectedSession 10).refinedCorners demoCV)
            ⟨5, 5⟩ ⟨-1, -1⟩ ⟨CV_TERMCRIT_ITER, 100, 1 / 10⟩])) :=
  ⟨by decide, by decide, by decide,
    capture_refines_cache_in_place demoCV (collectedSession 10) (by decide)⟩

/-- The second half of `frame` touches neither the cached result nor the finished
flag nor the busy flag. -/
theorem frameSubmit_keeps_result (s : Calibration) (vs : ARVideoSource) :
    (s.frameSubmit vs).m_cornerFinderResultData = s.m_cornerFinderResultData ∧
    (s.frameSubmit vs).m_cornerFinderThread.endF = s.m_cornerFinderThread.endF ∧
    (s.frameSubmit vs).m_cornerFinderThread.busyF = s.m_cornerFinderThread.busyF := by
  unfold Calibration.frameSubmit
  by_cases hb : threadGetBusyStatus s.m_cornerFinderThread = true
  · simp [hb]
  · cases hv : vs.buffLuma <;> simp [hb, hv, threadStartSignal]

/-- C21, as stated, fails for `capture`. In the session `collectedSession 10` the cached
points are four times (0, 0); the successful `capture` leaves four times (1, 0) in the
cache, the output of the stand-in refinement. -/
theorem cached_result_immutable_counterexample :
    ((collectedSession 10).capture demoCV).1 = true ∧
    (collectedSession 10).m_cornerFinderResultData.corners =
      [⟨0, 0⟩, ⟨0, 0⟩, ⟨0, 0⟩, ⟨0, 0⟩] ∧
    ((collectedSession 10).capture demoCV).2.m_cornerFinderResultData.corners =
      [⟨1, 0⟩, ⟨1, 0⟩, ⟨1, 0⟩, ⟨1, 0⟩] ∧
    ((collectedSession 10).capture demoCV).2.m_cornerFinderResultData.corners ≠
      (collectedSession 10).m_cornerFinderResultData.corners := by
  decide

/-- C21, amended: for every session state, `uncapture`, `uncaptureAll`, `calib` and
`cornerFinderResultsLockAndFetch` leave the cached result as it is, `capture` leaves the
cached found-all flag as it is and, when it returns false, the cached points too; a
successful `capture` replaces the cached points by their refinement; `frame` leaves the
cached result as it is unless a finished detection awaits collection, and then replaces
it by a copy of the worker data. The worker steps do not touch the cached result. -/
theorem cached_result_changes (cv : OpenCV) (s : Calibration) (vs : ARVideoSource) :
    s.uncapture.2.m_cornerFinderResultData = s.m_cornerFinderResultData ∧
    s.uncaptureAll.2.m_cornerFinderResultData = s.m_cornerFinderResultData ∧
    s.calib.2.m_cornerFinderResultData = s.m_cornerFinderResultData ∧
    s.cornerFinderResultsLockAndFetch.2.2.m_cornerFinderResultData =
      s.m_cornerFinderResultData ∧
    (s.capture cv).2.m_cornerFinderResultData.cornerFoundAllFlag =
      s.m_cornerFinderResultData.cornerFoundAllFlag ∧
    ((s.capture cv).1 = false →
      (s.capture cv).2.m_cornerFinderResultData = s.m_cornerFinderResultData) ∧
    ((s.capture cv).1 = true →
      (s.capture cv).2.m_cornerFinderResultData =
        { s.m_cornerFinderResultData with corners := s.refinedCorners cv }) ∧
    (threadGetStatus s.m_cornerFinderThread = false →
      (s.frame vs).2.m_cornerFinderResultData = s.m_cornerFinderResultData) ∧
    (threadGetStatus s.m_cornerFinderThread = true →
      (s.frame vs).2.m_cornerFinderResultData =
        CalibrationCornerFinderData.assign s.m_cornerFinderData) ∧
    s.cornerFinderWake.m_cornerFinderResultData = s.m_cornerFinderResultData ∧
    (s.cornerFinderRun cv).m_cornerFinderResultData = s.m_cornerFinderResultData := by
  refine ⟨?_, ?_, rfl, rfl, ?_, ?_, ?_, ?_, ?_, ?_, ?_⟩
  · unfold Calibration.uncapture
    split_ifs <;> rfl
  · unfold Calibration.uncaptureAll
    split_ifs <;> rfl
  · unfold Calibration.capture
    split_ifs <;> rfl
  · intro h
    unfold Calibration.capture at h ⊢
    split_ifs at h ⊢ <;> rfl
  · intro h
    rw [capture_snd_of_true cv s h]
    rfl
  · intro h
    rw [frame_eq_halves, (frameSubmit_keeps_result _ vs).1]
    unfold Calibration.frameCollect
    rw [h]
    rfl
  · intro h
    rw [frame_eq_halves, (frameSubmit_keeps_result _ vs).1]
    unfold Calibration.frameCollect
    rw [if_pos h]
  · unfold Calibration.cornerFinderWake
    split <;> rfl
  · unfold Calibration.cornerFinderRun
    split_ifs <;> rfl

/-! ## Theorems: the handshake between `frame` and the worker -/

/-- Every event keeps the three handshake conditions exclusive. -/
theorem step_preserves_exclusive (cv : OpenCV) (s : Calibration) (ev : Event)
    (h : s.m_cornerFinderThread.exclusive) :
    (s.step cv ev).m_cornerFinderThread.exclusive := by
  obtain ⟨h1, h2, h3⟩ := h
  cases ev with
  | frame vs =>
    show ((s.frame vs).2).m_cornerFinderThread.exclusive
    rw [frame_eq_halves]
    unfold Calibration.frameSubmit Calibration.frameCollect THREAD_HANDLE_T.exclusive
    unfold threadGetStatus threadGetBusyStatus threadEndWait threadStartSignal
    cases hs : s.m_cornerFinderThread.startF <;> cases hb : s.m_cornerFinderThread.busyF <;>
      cases he : s.m_cornerFinderThread.endF <;> cases hv : vs.buffLuma <;>
      simp_all
  | capture =>
    show ((s.capture cv).2).m_cornerFinderThread.exclusive
    unfold Calibration.capture
    split_ifs <;> exact ⟨h1, h2, h3⟩
  | uncapture =>
    show (s.uncapture.2).m_cornerFinderThread.exclusive
    unfold Calibration.uncapture
    split_ifs <;> exact ⟨h1, h2, h3⟩
  | uncaptureAll =>
    show (s.uncaptureAll.2).m_cornerFinderThread.exclusive
    unfold Calibration.uncaptureAll
    split_ifs <;> exact ⟨h1, h2, h3⟩
  | calib => exact ⟨h1, h2, h3⟩
  | workerWake =>
    show (s.cornerFinderWake).m_cornerFinderThread.exclusive
    unfold Calibration.cornerFinderWake threadStartWait THREAD_HANDLE_T.exclusive
    cases hs : s.m_cornerFinderThread.startF <;> cases hb : s.m_cornerFinderThread.busyF <;>
      cases he : s.m_cornerFinderThread.endF <;> simp_all
  | workerRun =>
    show (s.cornerFinderRun cv).m_cornerFinderThread.exclusive
    unfold Calibration.cornerFinderRun threadGetBusyStatus threadEndSignal
      THREAD_HANDLE_T.exclusive
    cases hs : s.m_cornerFinderThread.startF <;> cases hb : s.m_cornerFinderThread.busyF <;>
      cases he : s.m_cornerFinderThread.endF <;> simp_all

/-- Every sequence of events keeps the three handshake conditions exclusive. -/
theorem run_preserves_exclusive (cv : OpenCV) (evs : List Event) (s : Calibration)
    (h : s.m_cornerFinderThread.exclusive) :
    (s.run cv evs).m_cornerFinderThread.exclusive := by
  induction evs generalizing s with
  | nil => exact h
  | cons ev evs ih => exact ih _ (step_preserves_exclusive cv s ev h)

/-- After every `frame` call no finished result awaits collection. -/
theorem frame_leaves_nothing_finished (s : Calibration) (vs : ARVideoSource) :
    threadGetStatus (s.frame vs).2.m_cornerFinderThread = false := by
  rw [frame_eq_halves]
  show (s.frameCollect.frameSubmit vs).m_cornerFinderThread.endF = false
  rw [(frameSubmit_keeps_result _ vs).2.1]
  unfold Calibration.frameCollect threadGetStatus threadEndWait
  cases he : s.m_cornerFinderThread.endF <;> simp [he]

/-- C22, as stated, fails. In the session `submittedSession` image A is submitted: the
start is signalled, and the detection has neither finished nor been collected. The next
`frame` call overwrites the worker's input buffer with image B = 5, 6, 7, 8 and signals
the start again; the worker then detects on B, and the result that the following `frame`
call collects carries image B. Image A is never detected. -/
theorem one_detection_in_flight_counterexample :
    submittedSession.m_cornerFinderThread = ⟨true, false, false⟩ ∧
    submittedSession.m_cornerFinderData.videoFrame = [1, 2, 3, 4] ∧
    (submittedSession.frame ⟨some [5, 6, 7, 8], 2, 2⟩).2.m_cornerFinderData.videoFrame =
      [5, 6, 7, 8] ∧
    (submittedSession.frame ⟨some [5, 6, 7, 8], 2, 2⟩).2.m_cornerFinderThread =
      threadStartSignal submittedSession.m_cornerFinderThread ∧
    (Calibration.run demoCV submittedSession
      [.frame ⟨some [5, 6, 7, 8], 2, 2⟩, .workerWake, .workerRun,
        .frame ⟨none, 2, 2⟩]).m_cornerFinderResultData.videoFrame = [5, 6, 7, 8] := by
  decide

/-- C22, amended: one detection running at a time. For every interleaving of calls of
the public methods and worker steps, from construction and with each call taken as one
step, the three conditions start signalled, worker busy and result ready exclude each
other; a `frame` call in the reached state never overwrites the worker's input buffer
and never signals a start while the worker is busy; it collects a finished result, as a
copy of the worker data at the call, before it submits again; and after it no finished
result awaits collection. (While a start is signalled and the worker has not picked it
up, `frame` does overwrite the input buffer and signals again.) -/
theorem one_detection_running (cv : OpenCV) (patternType : CalibrationPatternType)
    (calibImageCountMax : Int) (patternSize : Size)
    (chessboardSquareWidth videoWidth videoHeight : Int) (evs : List Event)
    (vs : ARVideoSource) :
    ((Calibration.construct patternType calibImageCountMax patternSize chessboardSquareWidth
        videoWidth videoHeight).run cv evs).m_cornerFinderThread.exclusive ∧
    (threadGetBusyStatus ((Calibration.construct patternType calibImageCountMax patternSize
        chessboardSquareWidth videoWidth videoHeight).run cv evs).m_cornerFinderThread = true →
      (((Calibration.construct patternType calibImageCountMax patternSize
          chessboardSquareWidth videoWidth videoHeight).run cv evs).frame vs).2.m_cornerFinderData =
        ((Calibration.construct patternType calibImageCountMax patternSize
          chessboardSquareWidth videoWidth videoHeight).run cv evs).m_cornerFinderData ∧
      (((Calibration.construct patternType calibImageCountMax patternSize
          chessboardSquareWidth videoWidth videoHeight).run cv evs).frame
            vs).2.m_cornerFinderThread.startF =
        ((Calibration.construct patternType calibImageCountMax patternSize
          chessboardSquareWidth videoWidth videoHeight).run cv
            evs).m_cornerFinderThread.startF) ∧
    (threadGetStatus ((Calibration.construct patternType calibImageCountMax patternSize
        chessboardSquareWidth videoWidth videoHeight).run cv evs).m_cornerFinderThread = true →
      (((Calibration.construct patternType calibImageCountMax patternSize
          chessboardSquareWidth videoWidth videoHeight).run cv evs).frame
            vs).2.m_cornerFinderResultData =
        CalibrationCornerFinderData.assign ((Calibration.construct patternType
          calibImageCountMax patternSize chessboardSquareWidth videoWidth videoHeight).run cv
            evs).m_cornerFinderData) ∧
    threadGetStatus (((Calibration.construct patternType calibImageCountMax patternSize
        chessboardSquareWidth videoWidth videoHeight).run cv evs).frame
          vs).2.m_cornerFinderThread = false := by
  refine ⟨run_preserves_exclusive cv evs _ ?_, ?_, ?_, frame_leaves_nothing_finished _ vs⟩
  · unfold Calibration.construct threadInit THREAD_HANDLE_T.exclusive
    simp
  · intro hbusy
    rw [frame_busy _ vs hbusy]
    exact ⟨(frameCollect_keeps _).2.2, (frameCollect_keeps _).2.1⟩
  · intro h
    rw [frame_eq_halves, (frameSubmit_keeps_result _ vs).1]
    unfold Calibration.frameCollect
    rw [if_pos h]

/-! ## Theorems: the pattern spacing -/

/-- No event changes the pattern type, the pattern size or the stored spacing of a
session. -/
theorem step_keeps_pattern (cv : OpenCV) (s : Calibration) (ev : Event) :
    (s.step cv ev).m_patternType = s.m_patternType ∧
    (s.step cv ev).m_patternSize = s.m_patternSize ∧
    (s.step cv ev).m_chessboardSquareWidth = s.m_chessboardSquareWidth := by
  cases ev with
  | frame vs =>
    show ((s.frame vs).2).m_patternType = _ ∧ ((s.frame vs).2).m_patternSize = _ ∧
      ((s.frame vs).2).m_chessboardSquareWidth = _
    rw [frame_eq_halves]
    unfold Calibration.frameSubmit Calibration.frameCollect
    cases hv : vs.buffLuma <;> (split_ifs <;> exact ⟨rfl, rfl, rfl⟩)
  | capture =>
    show ((s.capture cv).2).m_patternType = _ ∧ ((s.capture cv).2).m_patternSize = _ ∧
      ((s.capture cv).2).m_chessboardSquareWidth = _
    unfold Calibration.capture
    split_ifs <;> exact ⟨rfl, rfl, rfl⟩
  | uncapture =>
    show (s.uncapture.2).m_patternType = _ ∧ (s.uncapture.2).m_patternSize = _ ∧
      (s.uncapture.2).m_chessboardSquareWidth = _
    unfold Calibration.uncapture
    split_ifs <;> exact ⟨rfl, rfl, rfl⟩
  | uncaptureAll =>
    show (s.uncaptureAll.2).m_patternType = _ ∧ (s.uncaptureAll.2).m_patternSize = _ ∧
      (s.uncaptureAll.2).m_chessboardSquareWidth = _
    unfold Calibration.uncaptureAll
    split_ifs <;> exact ⟨rfl, rfl, rfl⟩
  | calib => exact ⟨rfl, rfl, rfl⟩
  | workerWake =>
    show (s.cornerFinderWake).m_patternType = _ ∧ (s.cornerFinderWake).m_patternSize = _ ∧
      (s.cornerFinderWake).m_chessboardSquareWidth = _
    unfold Calibration.cornerFinderWake
    split <;> exact ⟨rfl, rfl, rfl⟩
  | workerRun =>
    show (s.cornerFinderRun cv).m_patternType = _ ∧ (s.cornerFinderRun cv).m_patternSize = _ ∧
      (s.cornerFinderRun cv).m_chessboardSquareWidth = _
    unfold Calibration.cornerFinderRun
    split_ifs <;> exact ⟨rfl, rfl, rfl⟩

/-- No sequence of events changes the pattern type, the pattern size or the stored
spacing of a session. -/
theorem run_keeps_pattern (cv : OpenCV) (evs : List Event) (s : Calibration) :
    (s.run cv evs).m_patternType = s.m_patternType ∧
    (s.run cv evs).m_patternSize = s.m_patternSize ∧
    (s.run cv evs).m_chessboardSquareWidth = s.m_chessboardSquareWidth := by
  induction evs generalizing s with
  | nil => exact ⟨rfl, rfl, rfl⟩
  | cons ev evs ih =>
    obtain ⟨h1, h2, h3⟩ := step_keeps_pattern cv s ev
    obtain ⟨k1, k2, k3⟩ := ih (s.step cv ev)
    exact ⟨k1.trans h1, k2.trans h2, k3.trans h3⟩

/-- The integer part of a rational whose magnitude is below 2^31 fits an `int`, so the
conversion delivers it. -/
theorem floatToInt_of_fits (x : ℚ) (hlo : -2147483649 < x) (hhi : x < 2147483648) :
    floatToInt x = truncQ x := by
  have hfit : isInt (truncQ x) := by
    unfold isInt INT_MIN INT_MAX truncQ
    by_cases h0 : 0 ≤ x
    · rw [if_pos h0]
      have h1 : (0 : Int) ≤ ⌊x⌋ := Int.floor_nonneg.mpr h0
      have h2 : ⌊x⌋ < 2147483648 := Int.floor_lt.mpr (by exact_mod_cast hhi)
      omega
    · rw [if_neg h0]
      have h1 : ⌈x⌉ ≤ 0 := Int.ceil_le.mpr (by exact_mod_cast (le_of_lt (not_le.mp h0)))
      have h2 : (-2147483649 : Int) < ⌈x⌉ := Int.lt_ceil.mpr (by exact_mod_cast hlo)
      omega
  unfold floatToInt
  rw [if_pos hfit]

/-- The integer part of 2.5 is 2. -/
theorem truncQ_five_halves : truncQ (5 / 2) = 2 := by
  unfold truncQ
  rw [if_pos (by norm_num)]
  exact Int.floor_eq_iff.mpr ⟨by norm_num, by norm_num⟩

/-- The object points of a 2 x 2 chessboard with spacing `d`. -/
theorem calcChessboardCorners_two_by_two (d : ℚ) :
    calcChessboardCorners .CHESSBOARD ⟨2, 2⟩ d =
      [⟨0, 0, 0⟩, ⟨d, 0, 0⟩, ⟨0, d, 0⟩, ⟨d, d, 0⟩] := by
  have h2 : (2 : Int).toNat = 2 := rfl
  have hr : List.range 2 = [0, 1] := rfl
  simp [calcChessboardCorners, h2, hr]

/-- C30: the pattern spacing is truncated to an integer. For every configured spacing
whose integer part fits an `int`, the session constructed in `calib_camera.cpp` stores
the integer part (fractional part discarded) of the spacing; after every sequence of
events, `calib` passes that integer as the pattern spacing to `calc`, and the object
points `calc` generates are those of the truncated spacing, not of the configured
one. -/
theorem spacing_truncated (cv : OpenCV) (patternType : CalibrationPatternType)
    (calibImageCountMax : Int) (patternSize : Size) (spacing : ℚ)
    (videoWidth videoHeight : Int) (evs : List Event)
    (hlo : -2147483649 < spacing) (hhi : spacing < 2147483648) :
    ((newCalibration patternType calibImageCountMax patternSize spacing videoWidth
        videoHeight).run cv evs).calib.1.patternSpacing = (truncQ spacing : ℚ) ∧
    calcObjectPoints ((newCalibration patternType calibImageCountMax patternSize spacing
        videoWidth videoHeight).run cv evs).calib.1 =
      List.replicate ((newCalibration patternType calibImageCountMax patternSize spacing
          videoWidth videoHeight).run cv evs).calib.1.capturedImageNum.toNat
        (calcChessboardCorners patternType patternSize (truncQ spacing : ℚ)) ∧
    (0 ≤ spacing → (truncQ spacing : ℚ) ≤ spacing ∧ spacing < truncQ spacing + 1) ∧
    (spacing < 0 → spacing ≤ (truncQ spacing : ℚ) ∧ (truncQ spacing : ℚ) < spacing + 1) := by
  obtain ⟨k1, k2, k3⟩ := run_keeps_pattern cv evs
    (newCalibration patternType calibImageCountMax patternSize spacing videoWidth videoHeight)
  have hs : ((newCalibration patternType calibImageCountMax patternSize spacing videoWidth
        videoHeight).run cv evs).calib.1.patternSpacing = (truncQ spacing : ℚ) := by
    show ((((newCalibration patternType calibImageCountMax patternSize spacing videoWidth
        videoHeight).run cv evs).m_chessboardSquareWidth : Int) : ℚ) = _
    rw [k3]
    show ((floatToInt spacing : Int) : ℚ) = _
    rw [floatToInt_of_fits spacing hlo hhi]
  refine ⟨hs, ?_, ?_, ?_⟩
  · unfold calcObjectPoints
    rw [hs]
    show List.replicate _ (calcChessboardCorners
      ((newCalibration patternType calibImageCountMax patternSize spacing videoWidth
        videoHeight).run cv evs).m_patternType
      ((newCalibration patternType calibImageCountMax patternSize spacing videoWidth
        videoHeight).run cv evs).m_patternSize _) = _
    rw [k1, k2]
    rfl
  · intro h0
    unfold truncQ
    rw [if_pos h0]
    exact ⟨Int.floor_le spacing, Int.lt_floor_add_one spacing⟩
  · intro h0
    unfold truncQ
    rw [if_neg (not_le.mpr h0)]
    exact ⟨Int.le_ceil spacing, Int.ceil_lt_add_one spacing⟩

/-- Witness of `spacing_truncated`: a 2 x 2 chessboard with configured spacing 2.5, after
one detection has been collected and captured. The spacing that reaches `calc` is 2, and
the object points lie at multiples of 2: (0, 0), (2, 0), (0, 2), (2, 2). -/
theorem spacing_truncated_witness :
    ((newCalibration .CHESSBOARD 10 ⟨2, 2⟩ (5 / 2) 2 2).run demoCV
      [.frame ⟨some [1, 2, 3, 4], 2, 2⟩, .workerWake, .workerRun, .frame ⟨none, 2, 2⟩,
        .capture]).calib.1.patternSpacing = 2 ∧
    calcObjectPoints ((newCalibration .CHESSBOARD 10 ⟨2, 2⟩ (5 / 2) 2 2).run demoCV
      [.frame ⟨some [1, 2, 3, 4], 2, 2⟩, .workerWake, .workerRun, .frame ⟨none, 2, 2⟩,
        .capture]).calib.1 = [[⟨0, 0, 0⟩, ⟨2, 0, 0⟩, ⟨0, 2, 0⟩, ⟨2, 2, 0⟩]] := by
  obtain ⟨h1, h2, _, _⟩ := spacing_truncated demoCV .CHESSBOARD 10 ⟨2, 2⟩ (5 / 2) 2 2
    [.frame ⟨some [1, 2, 3, 4], 2, 2⟩, .workerWake, .workerRun, .frame ⟨none, 2, 2⟩, .capture]
    (by norm_num) (by norm_num)
  rw [truncQ_five_halves] at h1 h2
  refine ⟨by rw [h1]; norm_num, ?_⟩
  rw [h2]
  have hn : ((newCalibration .CHESSBOARD 10 ⟨2, 2⟩ (5 / 2) 2 2).run demoCV
      [.frame ⟨some [1, 2, 3, 4], 2, 2⟩, .workerWake, .workerRun, .frame ⟨none, 2, 2⟩,
        .capture]).calib.1.capturedImageNum.toNat = 1 := by
    have hw : floatToInt (5 / 2) = 2 := by
      rw [floatToInt_of_fits _ (by norm_num) (by norm_num), truncQ_five_halves]
    unfold newCalibration
    rw [hw]
    decide
  rw [hn, calcChessboardCorners_two_by_two]
  norm_num

/-! ## Theorems: `calc` without samples, and the divisions of `convParam` -/

/-- C27: error statistics with no samples. For `capturedImageNum = 0` the error loop of
`calc` does not run (no per-sample error is computed or logged) and `calc` writes
`err_min_out = 1000000`, `err_avg_out = 0` and `err_max_out = 0`, so that the minimum is
above the maximum. -/
theorem calc_no_samples (env : CalcEnv) (a : CalcArgs) (param : ARParam)
    (h : a.capturedImageNum = 0) :
    (calcCamera env a param).errLog = [] ∧
    (calcCamera env a param).err_min_out = 1000000 ∧
    (calcCamera env a param).err_avg_out = 0 ∧
    (calcCamera env a param).err_max_out = 0 ∧
    (calcCamera env a param).err_max_out < (calcCamera env a param).err_min_out := by
  have hlog : (calcCamera env a param).errLog = [] := by
    rw [calcCamera_errLog, h]
    rfl
  obtain ⟨h1, h2, h3⟩ := calcCamera_stats env a param
  rw [hlog, h] at h1 h2 h3
  have k1 : (calcCamera env a param).err_min_out = 1000000 := by
    rw [h1]
    rfl
  have k2 : (calcCamera env a param).err_avg_out = 0 := by
    rw [h2]
    simp [calcErrorStats]
  have k3 : (calcCamera env a param).err_max_out = 0 := by
    rw [h3]
    rfl
  refine ⟨hlog, k1, k2, k3, ?_⟩
  rw [k1, k3]
  norm_num

/-- Witness of `calc_no_samples`: `calc` on `noSampleArgs`. -/
theorem calc_no_samples_witness :
    noSampleArgs.capturedImageNum = 0 ∧
    (calcCamera (demoEnv 1 true) noSampleArgs zeroParam).errLog = [] ∧
    (calcCamera (demoEnv 1 true) noSampleArgs zeroParam).err_min_out = 1000000 ∧
    (calcCamera (demoEnv 1 true) noSampleArgs zeroParam).err_avg_out = 0 ∧
    (calcCamera (demoEnv 1 true) noSampleArgs zeroParam).err_max_out = 0 ∧
    (calcCamera (demoEnv 1 true) noSampleArgs zeroParam).err_max_out <
      (calcCamera (demoEnv 1 true) noSampleArgs zeroParam).err_min_out :=
  ⟨rfl, calc_no_samples (demoEnv 1 true) noSampleArgs zeroParam rfl⟩

/-- C29: no division by zero when the principal point is inside the image. For every
image size and every `dist_factor` with `0 < dist_factor[6] < xsize` and
`0 < dist_factor[7] < ysize`, and every observed-to-ideal mapping, every observed length
`olen` by which `getSizeFactor` divides is strictly positive and the returned scale
factor is strictly positive; so for every call of `convParam` with that principal point
in `intr`, the scale factor `s` by which it divides four entries is not zero, and
neither is the scale it stores in `dist_factor[8]`. -/
theorem convParam_divisor_pos
    (arParamObserv2Ideal : (Nat → ARdouble) → ARdouble → ARdouble → Int → ARdouble × ARdouble)
    (dist_factor : Nat → ARdouble) (xsize ysize dist_function_version : Int)
    (h6 : 0 < dist_factor 6) (h6x : dist_factor 6 < xsize)
    (h7 : 0 < dist_factor 7) (h7y : dist_factor 7 < ysize) :
    (∀ c ∈ sizeFactorCandidates arParamObserv2Ideal dist_factor xsize ysize
        dist_function_version, 0 < c.2) ∧
    0 < getSizeFactor arParamObserv2Ideal dist_factor xsize ysize dist_function_version ∧
    ∀ (intr : Nat → Nat → ARdouble) (dist : Nat → ARdouble) (param : ARParam),
      intr 0 2 = dist_factor 6 → intr 1 2 = dist_factor 7 →
      0 < getSizeFactor arParamObserv2Ideal (convParamDistFactor intr dist param.dist_factor)
        xsize ysize 4 ∧
      (convParam arParamObserv2Ideal intr dist xsize ysize param).mat 0 0 =
        intr 0 0 / getSizeFactor arParamObserv2Ideal
          (convParamDistFactor intr dist param.dist_factor) xsize ysize 4 ∧
      (convParam arParamObserv2Ideal intr dist xsize ysize param).mat 0 1 =
        intr 0 1 / getSizeFactor arParamObserv2Ideal
          (convParamDistFactor intr dist param.dist_factor) xsize ysize 4 ∧
      (convParam arParamObserv2Ideal intr dist xsize ysize param).mat 1 0 =
        intr 1 0 / getSizeFactor arParamObserv2Ideal
          (convParamDistFactor intr dist param.dist_factor) xsize ysize 4 ∧
      (convParam arParamObserv2Ideal intr dist xsize ysize param).mat 1 1 =
        intr 1 1 / getSizeFactor arParamObserv2Ideal
          (convParamDistFactor intr dist param.dist_factor) xsize ysize 4 ∧
      (convParam arParamObserv2Ideal intr dist xsize ysize param).dist_factor 8 ≠ 0 := by
  refine ⟨sizeFactorCandidates_olen_pos arParamObserv2Ideal dist_factor xsize ysize
      dist_function_version h6 h6x h7 h7y,
    getSizeFactor_pos_of_inside arParamObserv2Ideal dist_factor xsize ysize
      dist_function_version h6 h6x h7 h7y, ?_⟩
  intro intr dist param hi6 hi7
  obtain ⟨_, _, _, _, _, _, e6, e7, _⟩ := convParamDistFactor_entries intr dist param.dist_factor
  have hs : 0 < getSizeFactor arParamObserv2Ideal
      (convParamDistFactor intr dist param.dist_factor) xsize ysize 4 :=
    getSizeFactor_pos_of_inside arParamObserv2Ideal _ xsize ysize 4
      (by rw [e6, hi6]; exact h6) (by rw [e6, hi6]; exact h6x)
      (by rw [e7, hi7]; exact h7) (by rw [e7, hi7]; exact h7y)
  obtain ⟨m00, m01, m10, m11, _, d8⟩ :=
    convParam_entries arParamObserv2Ideal intr dist xsize ysize param
  refine ⟨hs, m00, m01, m10, m11, ?_⟩
  rw [d8]
  exact ne_of_gt hs

/-- Witness of `convParam_divisor_pos`: a 640 x 480 image with principal point
(320, 240) and the stretching map. -/
theorem convParam_divisor_pos_witness :
    (∀ c ∈ sizeFactorCandidates stretchObserv2Ideal (fun k => if k = 6 then 320 else 240)
        640 480 4, 0 < c.2) ∧
    0 < getSizeFactor stretchObserv2Ideal (fun k => if k = 6 then 320 else 240) 640 480 4 :=
  ⟨(convParam_divisor_pos stretchObserv2Ideal (fun k => if k = 6 then 320 else 240) 640 480 4
      (by norm_num) (by norm_num) (by norm_num) (by norm_num)).1,
    (convParam_divisor_pos stretchObserv2Ideal (fun k => if k = 6 then 320 else 240) 640 480 4
      (by norm_num) (by norm_num) (by norm_num) (by norm_num)).2.1⟩

/-! ## Theorems: the index of the error loop -/

/-- The error of a sample is the root of its accumulated squared error over the point
count. -/
theorem sampleError_eq_accumulated (env : CalcEnv) (param : ARParam)
    (trans : Nat → Nat → ARdouble) (objectPoints0 : List Point3f) (corners : List Point2f)
    (patternSize : Size) :
    sampleError env param trans objectPoints0 corners patternSize =
      env.sqrtf (accumulatedSquaredError env param trans objectPoints0 corners patternSize /
        ((wrapInt (patternSize.width * patternSize.height) : Int) : ARdouble)) := rfl

/-- The point count of a pattern with non-negative width and height, as a natural
number. -/
theorem pointCount_toNat (w h : Int) (hw : 0 ≤ w) (hh : 0 ≤ h) :
    (w * h).toNat = w.toNat * h.toNat := by
  have h1 : ((w.toNat * h.toNat : Nat) : Int) = w * h := by
    rw [Nat.cast_mul, Int.toNat_of_nonneg hw, Int.toNat_of_nonneg hh]
  rw [← h1, Int.toNat_natCast]

/-- The accumulated squared error of a sample is the sum, over the indices below the
point count at which the projective depth is not 0, of the squared pixel distance. -/
theorem accumulatedSquaredError_eq (env : CalcEnv) (param : ARParam)
    (trans : Nat → Nat → ARdouble) (objectPoints0 : List Point3f) (corners : List Point2f)
    (patternSize : Size) (hw : 0 ≤ patternSize.width) (hh : 0 ≤ patternSize.height)
    (hwh : patternSize.width * patternSize.height ≤ INT_MAX) :
    accumulatedSquaredError env param trans objectPoints0 corners patternSize =
      (((List.range (patternSize.width * patternSize.height).toNat).filter
          fun n => pointDepth param trans objectPoints0 n ≠ 0).map
        (pointSquaredError env param trans objectPoints0 corners)).sum := by
  unfold accumulatedSquaredError
  simp only [pointErrorStep_eq]
  simp only [foldl_add_eq_sum]
  rw [zero_add, pointCount_toNat _ _ hw hh, ← sum_map_ite_zero, ← sum_range_grid]
  congr 1
  apply List.map_congr_left
  intro i hi
  congr 1
  apply List.map_congr_left
  intro j hj
  rw [errorLoop_index patternSize.width patternSize.height i j hh hwh
    (List.mem_range.mp hi) (List.mem_range.mp hj)]

/-- The index map `(i, j) ↦ i * h + j` with `i < w`, `j < h` is a bijection onto the
indices below `w * h`. -/
theorem gridIndex_bijective (w h : Nat) :
    (∀ i j : Nat, i < w → j < h → i * h + j < w * h) ∧
    ∀ n : Nat, n < w * h →
      ∃ p : Nat × Nat, (p.1 < w ∧ p.2 < h ∧ p.1 * h + p.2 = n) ∧
        ∀ q : Nat × Nat, q.1 < w ∧ q.2 < h ∧ q.1 * h + q.2 = n → q = p := by
  refine ⟨?_, ?_⟩
  · intro i j hi hj
    have h1 : (i + 1) * h ≤ w * h := Nat.mul_le_mul_right h hi
    have h2 : (i + 1) * h = i * h + h := Nat.succ_mul i h
    omega
  · intro n hn
    have hpos : 0 < h := by
      rcases Nat.eq_zero_or_pos h with h0 | h0
      · rw [h0, Nat.mul_zero] at hn
        omega
      · exact h0
    refine ⟨(n / h, n % h), ⟨?_, Nat.mod_lt n hpos, ?_⟩, ?_⟩
    · exact Nat.div_lt_of_lt_mul (by rw [Nat.mul_comm]; exact hn)
    · show n / h * h + n % h = n
      rw [Nat.mul_comm]
      exact Nat.div_add_mod n h
    · rintro ⟨q1, q2⟩ ⟨_, hq2, hq⟩
      simp only at hq2 hq
      have e1 : n / h = q1 := by
        rw [← hq, Nat.add_comm, Nat.add_mul_div_right _ _ hpos, Nat.div_eq_of_lt hq2,
          Nat.zero_add]
      have e2 : n % h = q2 := by
        rw [← hq, Nat.add_comm, Nat.add_mul_mod_self_right, Nat.mod_eq_of_lt hq2]
      rw [e1, e2]

/-- C26, as stated, fails in its conclusion. With the stand-in routines and translation 0
the single point of the 1 x 1 pattern has projective depth `h = 0`: the loop skips it and
the accumulated squared error is 0, while the sum over all indices below the point count
of the squared distance to the observed point (3, 4) is 25. -/
theorem error_loop_sum_counterexample :
    accumulatedSquaredError (demoEnv 0 true)
      (calcParam (demoEnv 0 true) (onePointArgs 3 4) zeroParam)
      (calcTrans (demoEnv 0 true) (calcSolve (demoEnv 0 true) (onePointArgs 3 4)) 0)
      [⟨0, 0, 0⟩] [⟨3, 4⟩] ⟨1, 1⟩ = 0 ∧
    ((List.range ((1 : Int) * 1).toNat).map
      (pointSquaredError (demoEnv 0 true)
        (calcParam (demoEnv 0 true) (onePointArgs 3 4) zeroParam)
        (calcTrans (demoEnv 0 true) (calcSolve (demoEnv 0 true) (onePointArgs 3 4)) 0)
        [⟨0, 0, 0⟩] [⟨3, 4⟩])).sum = 25 := by
  have hr : List.range ((1 : Int) * 1).toNat = [0] := rfl
  refine ⟨?_, ?_⟩
  · rw [accumulatedSquaredError_eq _ _ _ _ _ _ (show (0 : Int) ≤ 1 by decide)
      (show (0 : Int) ≤ 1 by decide) (show (1 : Int) * 1 ≤ INT_MAX by decide)]
    show (((List.range ((1 : Int) * 1).toNat).filter _).map _).sum = 0
    rw [hr]
    have hd : pointDepth (calcParam (demoEnv 0 true) (onePointArgs 3 4) zeroParam)
        (calcTrans (demoEnv 0 true) (calcSolve (demoEnv 0 true) (onePointArgs 3 4)) 0)
        [⟨0, 0, 0⟩] 0 = 0 := by
      unfold pointDepth
      simp only [List.getD_cons_zero]
      rw [demoEnv_projectPoint]
    simp [hd]
  · rw [hr]
    simp only [List.map_cons, List.map_nil, List.sum_cons, List.sum_nil,
      demoEnv_pointSquaredError]
    norm_num

/-- C26, amended: the error loop visits every pattern point exactly once. For every
pattern size `(w, h)` with `w, h >= 1` whose point count fits an `int`, the index
`i * h + j` that the loop computes in `int` is the natural number `i * h + j`; the map
`(i, j) ↦ i * h + j` (`i < w`, `j < h`) is a bijection onto the indices below `w * h`;
the loop body uses the one index for the object point and for the observed point; and
the accumulated squared error of a sample is the sum, over the indices `n` below `w * h`
whose object point has projective depth `h ≠ 0`, of the squared distance between the
projection of object point `n` and observed point `n`: over all indices when no depth
is 0. -/
theorem error_loop_visits_each_point (env : CalcEnv) (param : ARParam)
    (trans : Nat → Nat → ARdouble) (objectPoints0 : List Point3f) (corners : List Point2f)
    (w h : Int) (hw : 1 ≤ w) (hh : 1 ≤ h) (hwh : w * h ≤ INT_MAX) :
    (∀ i j : Nat, i < w.toNat → j < h.toNat →
      toSizeT (wrapInt (wrapInt ((i : Int) * h) + (j : Int))) = i * h.toNat + j ∧
      i * h.toNat + j < (w * h).toNat) ∧
    (∀ n : Nat, n < (w * h).toNat →
      ∃ p : Nat × Nat, (p.1 < w.toNat ∧ p.2 < h.toNat ∧ p.1 * h.toNat + p.2 = n) ∧
        ∀ q : Nat × Nat, q.1 < w.toNat ∧ q.2 < h.toNat ∧ q.1 * h.toNat + q.2 = n → q = p) ∧
    (∀ (idx : Nat) (err : ARdouble),
      pointErrorStep env param trans objectPoints0 corners idx err =
        err + (if pointDepth param trans objectPoints0 idx = 0 then 0
          else pointSquaredError env param trans objectPoints0 corners idx)) ∧
    accumulatedSquaredError env param trans objectPoints0 corners ⟨w, h⟩ =
      (((List.range (w * h).toNat).filter
          fun n => pointDepth param trans objectPoints0 n ≠ 0).map
        (pointSquaredError env param trans objectPoints0 corners)).sum ∧
    ((∀ n : Nat, n < (w * h).toNat → pointDepth param trans objectPoints0 n ≠ 0) →
      accumulatedSquaredError env param trans objectPoints0 corners ⟨w, h⟩ =
        ((List.range (w * h).toNat).map
          (pointSquaredError env param trans objectPoints0 corners)).sum) := by
  have hw0 : 0 ≤ w := by omega
  have hh0 : 0 ≤ h := by omega
  have hcount := pointCount_toNat w h hw0 hh0
  have hacc := accumulatedSquaredError_eq env param trans objectPoints0 corners ⟨w, h⟩
    hw0 hh0 hwh
  obtain ⟨hlt, hbij⟩ := gridIndex_bijective w.toNat h.toNat
  refine ⟨?_, ?_, pointErrorStep_eq env param trans objectPoints0 corners, hacc, ?_⟩
  · intro i j hi hj
    refine ⟨errorLoop_index w h i j hh0 hwh hi hj, ?_⟩
    rw [hcount]
    exact hlt i j hi hj
  · intro n hn
    rw [hcount] at hn
    exact hbij n hn
  · intro hall
    rw [hacc]
    have hf : (List.range (w * h).toNat).filter
        (fun n => pointDepth param trans objectPoints0 n ≠ 0) = List.range (w * h).toNat := by
      apply List.filter_eq_self.mpr
      intro n hn
      simpa using hall n (List.mem_range.mp hn)
    show ((((List.range (w * h).toNat).filter
        fun n => pointDepth param trans objectPoints0 n ≠ 0).map _).sum) = _
    rw [hf]

/-- Witness of `error_loop_visits_each_point`: the 1 x 1 pattern of `onePointArgs 3 4`
with translation `(0, 0, 1)`, where the accumulated squared error is 25. -/
theorem error_loop_visits_each_point_witness :
    (1 : Int) ≤ 1 ∧ (1 : Int) * 1 ≤ INT_MAX ∧
    accumulatedSquaredError (demoEnv 1 true)
      (calcParam (demoEnv 1 true) (onePointArgs 3 4) zeroParam)
      (calcTrans (demoEnv 1 true) (calcSolve (demoEnv 1 true) (onePointArgs 3 4)) 0)
      [⟨0, 0, 0⟩] [⟨3, 4⟩] ⟨1, 1⟩ =
    (((List.range ((1 : Int) * 1).toNat).filter
        fun n => pointDepth (calcParam (demoEnv 1 true) (onePointArgs 3 4) zeroParam)
          (calcTrans (demoEnv 1 true) (calcSolve (demoEnv 1 true) (onePointArgs 3 4)) 0)
          [⟨0, 0, 0⟩] n ≠ 0).map
      (pointSquaredError (demoEnv 1 true)
        (calcParam (demoEnv 1 true) (onePointArgs 3 4) zeroParam)
        (calcTrans (demoEnv 1 true) (calcSolve (demoEnv 1 true) (onePointArgs 3 4)) 0)
        [⟨0, 0, 0⟩] [⟨3, 4⟩])).sum :=
  ⟨by decide, by decide,
    (error_loop_visits_each_point (demoEnv 1 true)
      (calcParam (demoEnv 1 true) (onePointArgs 3 4) zeroParam)
      (calcTrans (demoEnv 1 true) (calcSolve (demoEnv 1 true) (onePointArgs 3 4)) 0)
      [⟨0, 0, 0⟩] [⟨3, 4⟩] 1 1 (by decide) (by decide) (by decide)).2.2.2.1⟩

/-! ## Theorems: the upload status -/

/-- C23: the return codes of `fileUploaderStatusGet`. The result is -1 exactly when the
handle is null. For a non-null handle it is 0, 1 or 2: it is 0 when the stored message is
empty, and whenever it is 0 no message is stored after the call and `statusBuf` is left
alone; a message that is not set to be hidden is shown; when a message is shown the
result is 1 if the upload thread has not signalled completion and 2 if it has, and in
both cases `statusBuf` receives the stored message and the handle, with its stored
message, is unchanged. The stored message is the string in the 128-byte array
`uploadStatus`, so it has fewer than 128 characters. -/
theorem fileUploaderStatusGet_codes (handle : Option FILE_UPLOAD_HANDLE_t)
    (statusBuf : List Char) (currentTime : timeval)
    (hlen : ∀ h, handle = some h → h.uploadStatus.length < UPLOAD_STATUS_BUFFER_LEN) :
    ((fileUploaderStatusGet handle statusBuf currentTime).1 = -1 ↔ handle = none) ∧
    ∀ h, handle = some h →
      ((fileUploaderStatusGet handle statusBuf currentTime).1 = 0 ∨
        (fileUploaderStatusGet handle statusBuf currentTime).1 = 1 ∨
        (fileUploaderStatusGet handle statusBuf currentTime).1 = 2) ∧
      (h.uploadStatus = [] → (fileUploaderStatusGet handle statusBuf currentTime).1 = 0) ∧
      ((fileUploaderStatusGet handle statusBuf currentTime).1 = 0 →
        (∃ h1, (fileUploaderStatusGet handle statusBuf currentTime).2.1 = some h1 ∧
          h1.uploadStatus = []) ∧
        (fileUploaderStatusGet handle statusBuf currentTime).2.2 = statusBuf) ∧
      (h.uploadStatus ≠ [] → h.uploadStatusHide = false →
        (fileUploaderStatusGet handle statusBuf currentTime).1 ≠ 0) ∧
      ((fileUploaderStatusGet handle statusBuf currentTime).1 ≠ 0 →
        h.uploadStatus ≠ [] ∧
        (fileUploaderStatusGet handle statusBuf currentTime).2.2 = h.uploadStatus ∧
        (fileUploaderStatusGet handle statusBuf currentTime).2.1 = some h ∧
        (threadGetStatus h.uploadThread = false →
          (fileUploaderStatusGet handle statusBuf currentTime).1 = 1) ∧
        (threadGetStatus h.uploadThread = true →
          (fileUploaderStatusGet handle statusBuf currentTime).1 = 2)) := by
  refine ⟨?_, ?_⟩
  · cases handle with
    | none => simp [fileUploaderStatusGet]
    | some h =>
      simp only [fileUploaderStatusGet, reduceCtorEq, iff_false]
      split_ifs <;> simp
  · intro h hh
    subst hh
    have hl := hlen h rfl
    have htake : strncpy statusBuf h.uploadStatus UPLOAD_STATUS_BUFFER_LEN = h.uploadStatus :=
      List.take_of_length_le (le_of_lt hl)
    simp only [fileUploaderStatusGet]
    by_cases he : h.uploadStatus = []
    · simp [he]
    · rw [if_pos he]
      by_cases hhide : h.uploadStatusHide = true ∧
          currentTime.tv_sec ≥ h.uploadStatusHideAtTime.tv_sec ∧
          currentTime.tv_usec ≥ h.uploadStatusHideAtTime.tv_usec
      · rw [if_pos hhide]
        simp [he, hhide.1]
      · rw [if_neg hhide]
        cases ht : threadGetStatus h.uploadThread <;> simp [he, htake]

/-- Witness of `fileUploaderStatusGet_codes`: the handle `uploadedHandle` at time
99 s, before its hide time; the call returns 2 and hands out the message. -/
theorem fileUploaderStatusGet_codes_witness :
    fileUploaderStatusGet (some uploadedHandle) [] ⟨99, 0⟩ =
      (2, some uploadedHandle, "Uploaded 1 file".toList) ∧
    ((fileUploaderStatusGet (some uploadedHandle) [] ⟨99, 0⟩).1 = -1 ↔
      some uploadedHandle = none) :=
  ⟨by decide,
    (fileUploaderStatusGet_codes (some uploadedHandle) [] ⟨99, 0⟩
      (fun h hh => by
        cases hh
        decide)).1⟩

/-- C25, at the failing input: the handle `uploadedHandle` holds a non-empty message
with `uploadStatusHide` set and hide time 100 s 600000 µs. The current time
101 s 200000 µs is after the hide time, ordered by seconds, then microseconds; yet
`fileUploaderStatusGet` returns 2, hands out the message and leaves the handle as it is,
because its test asks for the microseconds to be at least 600000 as well. -/
theorem status_not_hidden_after_hide_time :
    uploadedHandle.uploadStatus ≠ [] ∧ uploadedHandle.uploadStatusHide = true ∧
    (uploadedHandle.uploadStatusHideAtTime.tv_sec < 101 ∨
      (uploadedHandle.uploadStatusHideAtTime.tv_sec = 101 ∧
        uploadedHandle.uploadStatusHideAtTime.tv_usec ≤ 200000)) ∧
    fileUploaderStatusGet (some uploadedHandle) [] ⟨101, 200000⟩ =
      (2, some uploadedHandle, "Uploaded 1 file".toList) := by
  decide

/-- When `fileUploaderStatusGet` hides the message: for a handle with a non-empty
message and `uploadStatusHide` set, the call clears the message, resets
`uploadStatusHide` and returns 0 exactly when both the seconds and the microseconds of
the current time are at least those of the hide time. -/
theorem fileUploaderStatusGet_hides_iff (h : FILE_UPLOAD_HANDLE_t) (statusBuf : List Char)
    (currentTime : timeval) (hne : h.uploadStatus ≠ []) (hhide : h.uploadStatusHide = true) :
    fileUploaderStatusGet (some h) statusBuf currentTime =
        (0, some { h with uploadStatus := [], uploadStatusHide := false }, statusBuf) ↔
      h.uploadStatusHideAtTime.tv_sec ≤ currentTime.tv_sec ∧
      h.uploadStatusHideAtTime.tv_usec ≤ currentTime.tv_usec := by
  simp only [fileUploaderStatusGet]
  rw [if_pos hne]
  by_cases hc : currentTime.tv_sec ≥ h.uploadStatusHideAtTime.tv_sec ∧
      currentTime.tv_usec ≥ h.uploadStatusHideAtTime.tv_usec
  · rw [if_pos ⟨hhide, hc⟩]
    simpa using hc
  · rw [if_neg (fun hx => hc hx.2)]
    constructor
    · intro heq
      have h1 := congrArg Prod.fst heq
      split_ifs at h1 <;> simp at h1
    · intro hx
      exact absurd hx hc

/-! ## Theorems: the upload index file -/

/-- Reading never lengthens the stream, and what is read followed by what is left is the
stream. -/
theorem fgetsChars_append (k : Nat) (cs : List Char) :
    (fgetsChars k cs).1 ++ (fgetsChars k cs).2 = cs := by
  induction k generalizing cs with
  | zero => cases cs <;> rfl
  | succ k ih =>
    cases cs with
    | nil => rfl
    | cons c cs =>
      unfold fgetsChars
      split_ifs with hc
      · rfl
      · simp [ih cs]

/-- Reading with room for at least one character takes at least one character off a
non-empty stream. -/
theorem fgetsChars_rest_lt (k : Nat) (cs : List Char) (hk : 0 < k) (hcs : cs ≠ []) :
    (fgetsChars k cs).2.length < cs.length := by
  cases k with
  | zero => omega
  | succ k =>
    cases cs with
    | nil => exact absurd rfl hcs
    | cons c cs =>
      have hle : (fgetsChars k cs).2.length ≤ cs.length := by
        have h := congrArg List.length (fgetsChars_append k cs)
        rw [List.length_append] at h
        omega
      unfold fgetsChars
      split_ifs with hc
      · simp
      · simp only [List.length_cons]
        omega

/-- A successful `fgets` with `n >= 2` leaves a shorter stream. -/
theorem fgets_rest_lt (n : Nat) (fp buf rest : List Char) (hn : 2 ≤ n)
    (h : fgets n fp = some (buf, rest)) : rest.length < fp.length := by
  unfold fgets at h
  split_ifs at h with he
  simp only [Option.some.injEq] at h
  have := fgetsChars_rest_lt (n - 1) fp (by omega) he
  rw [h] at this
  exact this

/-- The loop of `get_buff` gives the same result for every number of rounds above the
number of unread characters. -/
theorem get_buffLoop_rounds (n : Nat) (skipblanks : Bool) (hn : 2 ≤ n) (r1 r2 : Nat)
    (fp : List Char) (h1 : fp.length < r1) (h2 : fp.length < r2) :
    get_buffLoop r1 n fp skipblanks = get_buffLoop r2 n fp skipblanks := by
  induction r1 generalizing r2 fp with
  | zero => omega
  | succ r1 ih =>
    cases r2 with
    | zero => omega
    | succ r2 =>
      unfold get_buffLoop
      cases hf : fgets n fp with
      | none => rfl
      | some p =>
        obtain ⟨buf, rest⟩ := p
        have hlt := fgets_rest_lt n fp buf rest hn hf
        simp only
        split_ifs
        · exact ih r2 rest (by omega) (by omega)
        · rfl

/-- A successful run of the loop of `get_buff` with `n >= 2` leaves a shorter stream. -/
theorem get_buffLoop_rest_lt (n : Nat) (skipblanks : Bool) (hn : 2 ≤ n) (r : Nat)
    (fp buf rest : List Char) (h : get_buffLoop r n fp skipblanks = some (buf, rest)) :
    rest.length < fp.length := by
  induction r generalizing fp with
  | zero => simp [get_buffLoop] at h
  | succ r ih =>
    unfold get_buffLoop at h
    cases hf : fgets n fp with
    | none =>
      rw [hf] at h
      simp at h
    | some p =>
      obtain ⟨b, q⟩ := p
      rw [hf] at h
      have hlt := fgets_rest_lt n fp b q hn hf
      simp only at h
      split_ifs at h
      · have := ih q h
        omega
      · simp only [Option.some.injEq, Prod.mk.injEq] at h
        rw [← h.2]
        exact hlt

/-- A successful `get_buff` with `n >= 2` leaves a shorter stream. -/
theorem get_buff_rest_lt (n : Nat) (skipblanks : Bool) (hn : 2 ≤ n) (fp buf rest : List Char)
    (h : get_buff n fp skipblanks = some (buf, rest)) : rest.length < fp.length :=
  get_buffLoop_rest_lt n skipblanks hn _ fp buf rest h

/-- One round of `get_buff` for `n >= 2`: a null result at end of file; otherwise read
and strip, and read on when the string is a comment or blank. -/
theorem get_buff_eq (n : Nat) (fp : List Char) (skipblanks : Bool) (hn : 2 ≤ n) :
    get_buff n fp skipblanks =
      match fgets n fp with
      | none => none
      | some (buf, rest) =>
        if (stripEol buf).head? = some charHash ∨ (skipblanks = true ∧ stripEol buf = []) then
          get_buff n rest skipblanks
        else some (stripEol buf, rest) := by
  have e : get_buff n fp skipblanks =
      match fgets n fp with
      | none => none
      | some (buf, rest) =>
        if (stripEol buf).head? = some charHash ∨ (skipblanks = true ∧ stripEol buf = []) then
          get_buffLoop fp.length n rest skipblanks
        else some (stripEol buf, rest) := rfl
  rw [e]
  cases hf : fgets n fp with
  | none => rfl
  | some p =>
    obtain ⟨buf, rest⟩ := p
    have hlt := fgets_rest_lt n fp buf rest hn hf
    simp only
    split_ifs
    · exact get_buffLoop_rounds n skipblanks hn _ _ rest (by omega) (by omega)
    · rfl

/-- The reading loop gives the same form parts for every number of rounds above the
number of unread characters. -/
theorem indexFormFieldsLoop_rounds (r1 r2 : Nat) (fp : List Char)
    (h1 : fp.length < r1) (h2 : fp.length < r2) :
    indexFormFieldsLoop r1 fp = indexFormFieldsLoop r2 fp := by
  induction r1 generalizing r2 fp with
  | zero => omega
  | succ r1 ih =>
    cases r2 with
    | zero => omega
    | succ r2 =>
      unfold indexFormFieldsLoop
      cases hg : get_buff BUFSIZE fp true with
      | none => rfl
      | some p =>
        obtain ⟨buf, rest⟩ := p
        have hlt := get_buff_rest_lt BUFSIZE true (by decide) fp buf rest hg
        simp only
        rw [ih r2 rest (by omega) (by omega)]

/-- One round of the reading loop: no more parts at a null result of `get_buff`;
otherwise the parts of the string, then those of the rest of the file. -/
theorem indexFormFields_eq (fp : List Char) :
    indexFormFields fp =
      match get_buff BUFSIZE fp true with
      | none => []
      | some (buf, rest) => lineFormFields buf ++ indexFormFields rest := by
  have e : indexFormFields fp =
      match get_buff BUFSIZE fp true with
      | none => []
      | some (buf, rest) => lineFormFields buf ++ indexFormFieldsLoop fp.length rest := rfl
  rw [e]
  cases hg : get_buff BUFSIZE fp true with
  | none => rfl
  | some p =>
    obtain ⟨buf, rest⟩ := p
    have hlt := get_buff_rest_lt BUFSIZE true (by decide) fp buf rest hg
    simp only
    rw [indexFormFieldsLoop_rounds (fp.length) (rest.length + 1) rest (by omega) (by omega)]
    rfl

/-- Reading a line that fits: with room for more characters than the line has, `fgets`
stores the line with its newline and leaves what follows the newline. -/
theorem fgetsChars_line (k : Nat) (line rest : List Char) (hnl : charLF ∉ line)
    (hlen : line.length < k) :
    fgetsChars k (line ++ charLF :: rest) = (line ++ [charLF], rest) := by
  induction line generalizing k with
  | nil =>
    cases k with
    | zero => simp at hlen
    | succ k => simp [fgetsChars]
  | cons c cs ih =>
    cases k with
    | zero => simp at hlen
    | succ k =>
      have hc : c ≠ charLF := fun h => hnl (by simp [h])
      have hcs : charLF ∉ cs := fun h => hnl (List.mem_cons_of_mem c h)
      have hl : cs.length < k := by
        simp only [List.length_cons] at hlen
        omega
      show fgetsChars (k + 1) (c :: (cs ++ charLF :: rest)) = _
      have e := ih k hcs hl
      simp only [fgetsChars, if_neg hc, e]
      rfl

/-- Reading a last line without newline: with room for at least as many characters as
the line has, `fgets` stores the line and leaves nothing. -/
theorem fgetsChars_lastLine (k : Nat) (line : List Char) (hnl : charLF ∉ line)
    (hlen : line.length ≤ k) : fgetsChars k line = (line, []) := by
  induction line generalizing k with
  | nil => cases k <;> rfl
  | cons c cs ih =>
    cases k with
    | zero => simp at hlen
    | succ k =>
      have hc : c ≠ charLF := fun h => hnl (by simp [h])
      have hcs : charLF ∉ cs := fun h => hnl (List.mem_cons_of_mem c h)
      have hl : cs.length ≤ k := by
        simp only [List.length_cons] at hlen
        omega
      simp only [fgetsChars, if_neg hc, ih k hcs hl]

/-- Reading a line that does not fit: `fgets` stores as many characters of it as there
is room for and leaves the others. -/
theorem fgetsChars_full (k : Nat) (part rest : List Char) (hnl : charLF ∉ part)
    (hlen : part.length = k) : fgetsChars k (part ++ rest) = (part, rest) := by
  induction part generalizing k with
  | nil =>
    simp only [List.length_nil] at hlen
    subst hlen
    cases rest <;> rfl
  | cons c cs ih =>
    cases k with
    | zero => simp at hlen
    | succ k =>
      have hc : c ≠ charLF := fun h => hnl (by simp [h])
      have hcs : charLF ∉ cs := fun h => hnl (List.mem_cons_of_mem c h)
      have hl : cs.length = k := by
        simp only [List.length_cons] at hlen
        omega
      show fgetsChars (k + 1) (c :: (cs ++ rest)) = _
      have e := ih k hcs hl
      simp only [fgetsChars, if_neg hc, e]

/-- Stripping removes a newline at the end. -/
theorem stripEol_append_LF (line : List Char) : stripEol (line ++ [charLF]) = stripEol line := by
  simp [stripEol, List.dropWhile_cons]

/-- Stripping leaves a string alone that ends in a character other than newline and
carriage return. -/
theorem stripEol_append_other (s : List Char) (c : Char) (h1 : c ≠ charLF) (h2 : c ≠ charCR) :
    stripEol (s ++ [c]) = s ++ [c] := by
  simp [stripEol, List.dropWhile_cons, h1, h2]

/-- Splitting at the first occurrence finds nothing exactly when the character does not
occur. -/
theorem splitAtFirst_eq_none (c : Char) (s : List Char) :
    splitAtFirst c s = none ↔ c ∉ s := by
  induction s with
  | nil => simp [splitAtFirst]
  | cons x xs ih =>
    unfold splitAtFirst
    by_cases hx : x = c
    · simp [hx]
    · rw [if_neg hx]
      have hx2 : ¬ c = x := fun h => hx h.symm
      cases hs : splitAtFirst c xs with
      | none =>
        have := ih.mp hs
        simp [this, hx2]
      | some p =>
        have : ¬ (c ∉ xs) := fun h => by
          rw [ih.mpr h] at hs
          exact Option.noConfusion hs
        simp only [reduceCtorEq, false_iff, not_not, List.mem_cons]
        exact Or.inr (not_not.mp this)

/-- Splitting at the first occurrence: the text before it and the entire text after
it. -/
theorem splitAtFirst_append (c : Char) (name contents : List Char) (h : c ∉ name) :
    splitAtFirst c (name ++ c :: contents) = some (name, contents) := by
  induction name with
  | nil => simp [splitAtFirst]
  | cons x xs ih =>
    have hx : x ≠ c := fun e => h (by simp [e])
    have hxs : c ∉ xs := fun e => h (List.mem_cons_of_mem x e)
    show splitAtFirst c (x :: (xs ++ c :: contents)) = _
    have e := ih hxs
    simp only [splitAtFirst, if_neg hx, e]

/-- The form parts of a file that begins with a line of fewer than `BUFSIZE - 1`
characters: those of the stripped line, none if it is empty or a comment, then those of
the rest of the file. -/
theorem indexFormFields_short_line (line rest : List Char) (hnl : charLF ∉ line)
    (hlen : line.length + 1 < BUFSIZE) :
    indexFormFields (line ++ charLF :: rest) =
      (if (stripEol line).head? = some charHash ∨ stripEol line = [] then []
        else lineFormFields (stripEol line)) ++ indexFormFields rest := by
  have hf : fgets BUFSIZE (line ++ charLF :: rest) = some (line ++ [charLF], rest) := by
    unfold fgets
    rw [if_neg (by simp), fgetsChars_line _ line rest hnl (by omega)]
  have hg : get_buff BUFSIZE (line ++ charLF :: rest) true =
      if (stripEol line).head? = some charHash ∨ stripEol line = [] then
        get_buff BUFSIZE rest true
      else some (stripEol line, rest) := by
    rw [get_buff_eq BUFSIZE _ true (by decide), hf]
    simp only [stripEol_append_LF, true_and]
  rw [indexFormFields_eq, hg]
  by_cases hr : (stripEol line).head? = some charHash ∨ stripEol line = []
  · rw [if_pos hr, if_pos hr, List.nil_append, ← indexFormFields_eq]
  · rw [if_neg hr, if_neg hr]

/-- The form parts of a file that begins with a line of fewer than `BUFSIZE`
characters: those of the stripped line, none if it is empty or a comment, then those of
the rest of the file. A line of exactly `BUFSIZE - 1` characters fills the buffer, and
its newline is read as a blank line of its own. -/
theorem indexFormFields_line (line rest : List Char) (hnl : charLF ∉ line)
    (hlen : line.length < BUFSIZE) :
    indexFormFields (line ++ charLF :: rest) =
      (if (stripEol line).head? = some charHash ∨ stripEol line = [] then []
        else lineFormFields (stripEol line)) ++ indexFormFields rest := by
  by_cases hshort : line.length + 1 < BUFSIZE
  · exact indexFormFields_short_line line rest hnl hshort
  · have hfull : line.length = BUFSIZE - 1 := by omega
    have hblank : indexFormFields (charLF :: rest) = indexFormFields rest := by
      have h := indexFormFields_short_line [] rest (List.not_mem_nil _) (by decide)
      have hs : stripEol [] = [] := rfl
      rw [hs, if_pos (Or.inr rfl)] at h
      exact h
    have hf : fgets BUFSIZE (line ++ charLF :: rest) = some (line, charLF :: rest) := by
      unfold fgets
      rw [if_neg (by simp), fgetsChars_full _ line _ hnl hfull]
    have hg : get_buff BUFSIZE (line ++ charLF :: rest) true =
        if (stripEol line).head? = some charHash ∨ stripEol line = [] then
          get_buff BUFSIZE (charLF :: rest) true
        else some (stripEol line, charLF :: rest) := by
      rw [get_buff_eq BUFSIZE _ true (by decide), hf]
      simp only [true_and]
    rw [indexFormFields_eq, hg]
    by_cases hr : (stripEol line).head? = some charHash ∨ stripEol line = []
    · rw [if_pos hr, if_pos hr, List.nil_append, ← indexFormFields_eq, hblank]
    · rw [if_neg hr, if_neg hr]
      show lineFormFields (stripEol line) ++ indexFormFields (charLF :: rest) = _
      rw [hblank]

/-- The form parts of a file that consists of one line without a newline, of fewer than
`BUFSIZE` characters. -/
theorem indexFormFields_lastLine (line : List Char) (hnl : charLF ∉ line)
    (hlen : line.length < BUFSIZE) :
    indexFormFields line =
      if (stripEol line).head? = some charHash ∨ stripEol line = [] then []
      else lineFormFields (stripEol line) := by
  have hnil : indexFormFields [] = [] := rfl
  cases hl : line with
  | nil => rfl
  | cons c cs =>
    rw [← hl]
    have hne : line ≠ [] := by
      rw [hl]
      exact List.cons_ne_nil c cs
    have hf : fgets BUFSIZE line = some (line, []) := by
      unfold fgets
      rw [if_neg hne, fgetsChars_lastLine _ line hnl (by omega)]
    have hg0 : get_buff BUFSIZE [] true = none := rfl
    rw [indexFormFields_eq, get_buff_eq BUFSIZE _ true (by decide), hf]
    simp only [true_and]
    by_cases hr : (stripEol line).head? = some charHash ∨ stripEol line = []
    · rw [if_pos hr, if_pos hr, hg0]
    · rw [if_neg hr, if_neg hr]
      simp only [hnil, List.append_nil]

/-- Stripping leaves a string alone that holds neither newline nor carriage return. -/
theorem stripEol_of_not_mem (s : List Char) (h1 : charLF ∉ s) (h2 : charCR ∉ s) :
    stripEol s = s := by
  unfold stripEol
  cases hr : s.reverse with
  | nil =>
    rw [List.reverse_eq_nil_iff.mp hr]
    rfl
  | cons c cs =>
    have hc : c ∈ s := by
      rw [← List.mem_reverse, hr]
      exact List.mem_cons_self c cs
    have hc1 : c ≠ charLF := fun e => h1 (e ▸ hc)
    have hc2 : c ≠ charCR := fun e => h2 (e ▸ hc)
    rw [List.dropWhile_cons_of_neg (by simp [hc1, hc2]), ← hr, List.reverse_reverse]

/-- The form parts of a file whose only line is `a,`, then a text `xs` of 1021
characters other than newline and carriage return, then `,b`: the line does not fit the
read buffer, and its last two characters are read as a line of their own. -/
theorem indexFormFields_line_too_long (xs : List Char) (h1 : charLF ∉ xs) (h2 : charCR ∉ xs)
    (hlen : xs.length = 1021) :
    indexFormFields ('a' :: charComma :: (xs ++ [charComma, 'b']) ++ [charLF]) =
      [⟨['a'], xs, false⟩, ⟨[], ['b'], false⟩] := by
  have hsplit : 'a' :: charComma :: (xs ++ [charComma, 'b']) ++ [charLF] =
      ('a' :: charComma :: xs) ++ [charComma, 'b', charLF] := by
    simp
  have hpart1 : charLF ∉ 'a' :: charComma :: xs := by
    simp only [List.mem_cons, not_or]
    exact ⟨by decide, by decide, h1⟩
  have hpart2 : charCR ∉ 'a' :: charComma :: xs := by
    simp only [List.mem_cons, not_or]
    exact ⟨by decide, by decide, h2⟩
  have hf : fgets BUFSIZE (('a' :: charComma :: xs) ++ [charComma, 'b', charLF]) =
      some ('a' :: charComma :: xs, [charComma, 'b', charLF]) := by
    unfold fgets
    rw [if_neg (by simp), fgetsChars_full _ _ _ hpart1 (by simp [BUFSIZE, hlen])]
  have hg : get_buff BUFSIZE (('a' :: charComma :: xs) ++ [charComma, 'b', charLF]) true =
      some ('a' :: charComma :: xs, [charComma, 'b', charLF]) := by
    rw [get_buff_eq BUFSIZE _ true (by decide), hf]
    simp only [stripEol_of_not_mem _ hpart1 hpart2]
    rw [if_neg (by simp; decide)]
  have hline : lineFormFields ('a' :: charComma :: xs) = [⟨['a'], xs, false⟩] := by
    have hs : splitAtFirst charComma ('a' :: charComma :: xs) = some (['a'], xs) :=
      splitAtFirst_append charComma ['a'] xs (by decide)
    unfold lineFormFields
    rw [hs]
    rfl
  have htail : indexFormFields [charComma, 'b', charLF] = [⟨[], ['b'], false⟩] := by decide
  rw [hsplit, indexFormFields_eq, hg]
  show lineFormFields ('a' :: charComma :: xs) ++ indexFormFields [charComma, 'b', charLF] = _
  rw [hline, htail]
  rfl

/-- C24, at the failing input: the line `longLine` of an index file has 1025 characters,
is not empty, holds neither newline nor carriage return, does not start with `#`, and
its first comma follows the name `a`; by the documented format it gives one form part
named `a` whose contents are the 1021 times `x` followed by `,b`. The reading loop gets
only its first 1023 characters from `fgets`, and the other two as a line of their own:
it adds a part `a` with the 1021 times `x` alone, and a second part with the empty name
and the contents `b`. -/
theorem index_long_line_split :
    charLF ∉ longLine ∧ charCR ∉ longLine ∧ longLine.length = 1025 ∧
    longLine.head? = some 'a' ∧
    longLine = ['a'] ++ charComma :: (List.replicate 1021 'x' ++ [charComma, 'b']) ∧
    indexFormFields (longLine ++ [charLF]) =
      [⟨['a'], List.replicate 1021 'x', false⟩, ⟨[], ['b'], false⟩] ∧
    indexFormFields (longLine ++ [charLF]) ≠
      [⟨['a'], List.replicate 1021 'x' ++ [charComma, 'b'], false⟩] := by
  have hx1 : charLF ∉ List.replicate 1021 'x' := fun h =>
    absurd (List.eq_of_mem_replicate h) (by decide)
  have hx2 : charCR ∉ List.replicate 1021 'x' := fun h =>
    absurd (List.eq_of_mem_replicate h) (by decide)
  have hfields := indexFormFields_line_too_long (List.replicate 1021 'x') hx1 hx2
    (List.length_replicate 1021 'x')
  have hmem : ∀ c : Char, c ≠ 'a' → c ≠ charComma → c ≠ 'b' → c ∉ List.replicate 1021 'x' →
      c ∉ longLine := by
    intro c ha hc hb hx
    unfold longLine
    simp only [List.mem_cons, List.mem_append, List.not_mem_nil, or_false, not_or]
    exact ⟨ha, hc, hx, hc, hb⟩
  refine ⟨hmem _ (by decide) (by decide) (by decide) hx1,
    hmem _ (by decide) (by decide) (by decide) hx2, ?_, rfl, rfl, hfields, ?_⟩
  · unfold longLine
    rw [List.length_cons, List.length_cons, List.length_append, List.length_replicate]
    rfl
  · unfold longLine
    rw [hfields]
    intro h
    exact absurd (congrArg List.length h) (by decide)

/-- The upload index line format, for lines that fit the read buffer. For
every line of an index file that has at most `BUFSIZE - 1 = 1023` characters before its
newline (or is the last line, without newline), with `s` the line after its trailing
carriage returns are removed: if `s` is empty, starts with `#` or holds no comma, the
line adds no form part; otherwise it adds exactly one part, whose name is the text of
`s` before the first comma and whose contents are the entire rest of `s` after that
comma, later commas included; the part is a file to upload exactly when the name is
`file`. The parts of the following lines come after it. -/
theorem index_line_format (line rest : List Char) (hnl : charLF ∉ line)
    (hlen : line.length < BUFSIZE) :
    ((stripEol line = [] ∨ (stripEol line).head? = some charHash ∨
        charComma ∉ stripEol line) →
      indexFormFields (line ++ charLF :: rest) = indexFormFields rest ∧
      indexFormFields line = []) ∧
    ∀ name contents : List Char, stripEol line = name ++ charComma :: contents →
      charComma ∉ name → (stripEol line).head? ≠ some charHash →
      indexFormFields (line ++ charLF :: rest) =
        ⟨name, contents, decide (name = "file".toList)⟩ :: indexFormFields rest ∧
      indexFormFields line = [⟨name, contents, decide (name = "file".toList)⟩] := by
  have h1 := indexFormFields_line line rest hnl hlen
  have h2 := indexFormFields_lastLine line hnl hlen
  refine ⟨?_, ?_⟩
  · intro hrej
    by_cases hr : (stripEol line).head? = some charHash ∨ stripEol line = []
    · rw [if_pos hr] at h1 h2
      exact ⟨h1, h2⟩
    · rw [if_neg hr] at h1 h2
      have hc : charComma ∉ stripEol line := by
        rcases hrej with h | h | h
        · exact absurd (Or.inr h) hr
        · exact absurd (Or.inl h) hr
        · exact h
      have hl : lineFormFields (stripEol line) = [] := by
        unfold lineFormFields
        rw [(splitAtFirst_eq_none charComma _).mpr hc]
      rw [hl] at h1 h2
      exact ⟨h1, h2⟩
  · intro name contents hs hname hhash
    have hr : ¬ ((stripEol line).head? = some charHash ∨ stripEol line = []) := by
      rintro (h | h)
      · exact hhash h
      · rw [h] at hs
        exact List.cons_ne_nil _ _ (List.append_eq_nil.mp hs.symm).2
    rw [if_neg hr] at h1 h2
    have hl : lineFormFields (stripEol line) =
        [⟨name, contents, decide (name = "file".toList)⟩] := by
      unfold lineFormFields
      rw [hs, splitAtFirst_append charComma name contents hname]
      show (if name = "file".toList then [(⟨name, contents, true⟩ : FormField)]
        else [⟨name, contents, false⟩]) = _
      by_cases hfile : name = "file".toList
      · rw [if_pos hfile, decide_eq_true hfile]
      · rw [if_neg hfile, decide_eq_false hfile]
    rw [hl] at h1 h2
    exact ⟨h1, h2⟩

/-- An instance of `index_line_format`: the line `file,/tmp/a,b.dat` with a carriage return
before its newline, followed by the line `id,7`: a file part with the path
`/tmp/a,b.dat`, then an ordinary part. -/
theorem index_line_format_example :
    indexFormFields ("file,/tmp/a,b.dat\r".toList ++ charLF :: "id,7".toList) =
      [⟨"file".toList, "/tmp/a,b.dat".toList, true⟩, ⟨"id".toList, "7".toList, false⟩] := by
  have h := (index_line_format "file,/tmp/a,b.dat\r".toList "id,7".toList (by decide)
    (by decide)).2 "file".toList "/tmp/a,b.dat".toList (by decide) (by decide) (by decide)
  rw [h.1]
  decide

/-! ## Theorems: collecting a finished result -/

/-- The worker step that finishes a detection, from a state whose handshake conditions
exclude each other: afterwards only the finished flag is set. -/
theorem cornerFinderRun_finished (cv : OpenCV) (s : Calibration)
    (hex : s.m_cornerFinderThread.exclusive)
    (hbusy : threadGetBusyStatus s.m_cornerFinderThread = true) :
    (s.cornerFinderRun cv).m_cornerFinderThread = ⟨false, true, false⟩ := by
  obtain ⟨h1, _, _⟩ := hex
  unfold threadGetBusyStatus at hbusy
  have hs : s.m_cornerFinderThread.startF = false := by
    cases hst : s.m_cornerFinderThread.startF
    · rfl
    · exact absurd ⟨hst, hbusy⟩ h1
  unfold Calibration.cornerFinderRun threadGetBusyStatus
  rw [if_pos hbusy]
  show threadEndSignal s.m_cornerFinderThread = _
  unfold threadEndSignal
  rw [← hs]

/-- While only the finished flag is set, every event other than a `frame` call leaves
the handshake flags and the worker data as they are. -/
theorem step_keeps_finished (cv : OpenCV) (s : Calibration) (ev : Event)
    (hnf : ∀ v, ev ≠ Event.frame v)
    (ht : s.m_cornerFinderThread = ⟨false, true, false⟩) :
    (s.step cv ev).m_cornerFinderThread = s.m_cornerFinderThread ∧
    (s.step cv ev).m_cornerFinderData = s.m_cornerFinderData := by
  cases ev with
  | frame vs => exact absurd rfl (hnf vs)
  | capture =>
    show ((s.capture cv).2).m_cornerFinderThread = _ ∧ ((s.capture cv).2).m_cornerFinderData = _
    unfold Calibration.capture
    split_ifs <;> exact ⟨rfl, rfl⟩
  | uncapture =>
    show (s.uncapture.2).m_cornerFinderThread = _ ∧ (s.uncapture.2).m_cornerFinderData = _
    unfold Calibration.uncapture
    split_ifs <;> exact ⟨rfl, rfl⟩
  | uncaptureAll =>
    show (s.uncaptureAll.2).m_cornerFinderThread = _ ∧ (s.uncaptureAll.2).m_cornerFinderData = _
    unfold Calibration.uncaptureAll
    split_ifs <;> exact ⟨rfl, rfl⟩
  | calib => exact ⟨rfl, rfl⟩
  | workerWake =>
    show (s.cornerFinderWake).m_cornerFinderThread = _ ∧ (s.cornerFinderWake).m_cornerFinderData = _
    have e : s.cornerFinderWake = s := by
      simp [Calibration.cornerFinderWake, threadStartWait, ht]
    rw [e]
    exact ⟨rfl, rfl⟩
  | workerRun =>
    show (s.cornerFinderRun cv).m_cornerFinderThread = _ ∧
      (s.cornerFinderRun cv).m_cornerFinderData = _
    have e : s.cornerFinderRun cv = s := by
      simp [Calibration.cornerFinderRun, threadGetBusyStatus, ht]
    rw [e]
    exact ⟨rfl, rfl⟩

/-- While only the finished flag is set, every sequence of events without a `frame` call
leaves the handshake flags and the worker data as they are. -/
theorem run_keeps_finished (cv : OpenCV) (evs : List Event) (s : Calibration)
    (hnf : ∀ ev ∈ evs, ∀ v, ev ≠ Event.frame v)
    (ht : s.m_cornerFinderThread = ⟨false, true, false⟩) :
    (s.run cv evs).m_cornerFinderThread = s.m_cornerFinderThread ∧
    (s.run cv evs).m_cornerFinderData = s.m_cornerFinderData := by
  induction evs generalizing s with
  | nil => exact ⟨rfl, rfl⟩
  | cons ev evs ih =>
    obtain ⟨h1, h2⟩ := step_keeps_finished cv s ev (hnf ev (List.mem_cons_self ev evs)) ht
    obtain ⟨k1, k2⟩ := ih (s.step cv ev)
      (fun e he => hnf e (List.mem_cons_of_mem ev he)) (h1.trans ht)
    exact ⟨k1.trans h1, k2.trans h2⟩

/-- C20, as stated, fails. In the session `finishedInsideFrame` the worker has just
finished its detection on image A = 1, 2, 3, 4, inside a `frame` call that has made its
first test already. That call goes on and submits image B = 5, 6, 7, 8, the worker
starts on B, and the session is `busyWithPendingResult`: the worker reports a finished
result, and its buffer is the allocated one. The `frame` call that collects caches the
flag and the points of A with the pixels of B, not the worker data as they were when the
detection finished. -/
theorem frame_collects_by_value_counterexample :
    busyWithPendingResult =
      (finishedInsideFrame.frameSubmit ⟨some [5, 6, 7, 8], 2, 2⟩).cornerFinderWake ∧
    finishedInsideFrame.m_cornerFinderData.cornerFoundAllFlag = 1 ∧
    finishedInsideFrame.m_cornerFinderData.videoFrame = [1, 2, 3, 4] ∧
    threadGetStatus busyWithPendingResult.m_cornerFinderThread = true ∧
    busyWithPendingResult.m_cornerFinderData.bufferAllocated ∧
    (busyWithPendingResult.frame ⟨none, 2, 2⟩).2.m_cornerFinderResultData.cornerFoundAllFlag = 1 ∧
    (busyWithPendingResult.frame ⟨none, 2, 2⟩).2.m_cornerFinderResultData.videoFrame =
      [5, 6, 7, 8] ∧
    (busyWithPendingResult.frame ⟨none, 2, 2⟩).2.m_cornerFinderResultData ≠
      CalibrationCornerFinderData.assign finishedInsideFrame.m_cornerFinderData :=
  ⟨by decide, by decide, by decide, by decide, ⟨by decide, fun _ _ => by decide⟩, by decide,
    by decide, by decide⟩

/-- C20, amended: collecting a finished result is a value copy of the worker data at the
call. For every session state in which the worker reports a finished result (its data
buffer being the one allocated for its dimensions) and every video source, after `frame`
the cached result has the flag, the corner list, the frame dimensions and the frame
pixels that the worker data have at the call, the finished flag is reset, and the cached
result is the same whatever the call then writes into the worker's input buffer. When
every call runs as one step, these are the worker data as they were when the detection
finished: for every interleaving of calls and worker steps from construction that ends
with the worker busy, after the worker step that finishes the detection and any further
events other than `frame`, the worker still reports a finished result and `frame` caches
a copy of the worker data as that worker step left them. -/
theorem frame_collects_by_value (s : Calibration) (vs : ARVideoSource)
    (hready : threadGetStatus s.m_cornerFinderThread = true)
    (hbuf : s.m_cornerFinderData.bufferAllocated)
    (cv : OpenCV) (patternType : CalibrationPatternType) (calibImageCountMax : Int)
    (patternSize : Size) (chessboardSquareWidth videoWidth videoHeight : Int)
    (evs1 evs2 : List Event)
    (hbusy : threadGetBusyStatus ((Calibration.construct patternType calibImageCountMax
      patternSize chessboardSquareWidth videoWidth videoHeight).run cv
        evs1).m_cornerFinderThread = true)
    (hnf : ∀ ev ∈ evs2, ∀ v, ev ≠ Event.frame v) :
    (s.frame vs).2.m_cornerFinderResultData.cornerFoundAllFlag =
      s.m_cornerFinderData.cornerFoundAllFlag ∧
    (s.frame vs).2.m_cornerFinderResultData.corners = s.m_cornerFinderData.corners ∧
    (s.frame vs).2.m_cornerFinderResultData.videoWidth = s.m_cornerFinderData.videoWidth ∧
    (s.frame vs).2.m_cornerFinderResultData.videoHeight = s.m_cornerFinderData.videoHeight ∧
    (s.frame vs).2.m_cornerFinderResultData.videoFrame = s.m_cornerFinderData.videoFrame ∧
    threadGetStatus (s.frame vs).2.m_cornerFinderThread = false ∧
    (∀ vs2 : ARVideoSource,
      (s.frame vs2).2.m_cornerFinderResultData = (s.frame vs).2.m_cornerFinderResultData) ∧
    threadGetStatus ((((Calibration.construct patternType calibImageCountMax patternSize
      chessboardSquareWidth videoWidth videoHeight).run cv evs1).cornerFinderRun cv).run cv
        evs2).m_cornerFinderThread = true ∧
    (((((Calibration.construct patternType calibImageCountMax patternSize
      chessboardSquareWidth videoWidth videoHeight).run cv evs1).cornerFinderRun cv).run cv
        evs2).frame vs).2.m_cornerFinderResultData =
      CalibrationCornerFinderData.assign
        (((Calibration.construct patternType calibImageCountMax patternSize
          chessboardSquareWidth videoWidth videoHeight).run cv evs1).cornerFinderRun
            cv).m_cornerFinderData := by
  obtain ⟨a1, a2, a3, a4, a5, a6, a7⟩ := frame_collects_at_call s vs hready hbuf
  have hex : ((Calibration.construct patternType calibImageCountMax patternSize
      chessboardSquareWidth videoWidth videoHeight).run cv
        evs1).m_cornerFinderThread.exclusive := by
    apply run_preserves_exclusive
    unfold Calibration.construct threadInit THREAD_HANDLE_T.exclusive
    simp
  have hfin := cornerFinderRun_finished cv _ hex hbusy
  obtain ⟨k1, k2⟩ := run_keeps_finished cv evs2 _ hnf hfin
  have hready2 : threadGetStatus ((((Calibration.construct patternType calibImageCountMax
      patternSize chessboardSquareWidth videoWidth videoHeight).run cv evs1).cornerFinderRun
        cv).run cv evs2).m_cornerFinderThread = true := by
    rw [k1, hfin]
    rfl
  refine ⟨a1, a2, a3, a4, a5, a6, a7, hready2, ?_⟩
  rw [frame_eq_halves, (frameSubmit_keeps_result _ vs).1]
  unfold Calibration.frameCollect
  rw [if_pos hready2]
  show CalibrationCornerFinderData.assign _ = _
  rw [k2]

/-- Witness of `frame_collects_by_value`: the session `finishedSession` with a video
source that hands out a new image; and the run in which the first image is submitted
and picked up, the worker finishes, and a rejected `capture`, two idle worker steps and
`calib` come before the collecting `frame` call. -/
theorem frame_collects_by_value_witness :
    (finishedSession.frame ⟨some [5, 6, 7, 8], 2, 2⟩).2.m_cornerFinderResultData.cornerFoundAllFlag =
      finishedSession.m_cornerFinderData.cornerFoundAllFlag ∧
    (finishedSession.frame ⟨some [5, 6, 7, 8], 2, 2⟩).2.m_cornerFinderResultData.videoFrame =
      finishedSession.m_cornerFinderData.videoFrame ∧
    threadGetStatus (((((Calibration.construct .CHESSBOARD 10 ⟨2, 2⟩ 30 2 2).run demoCV
      [.frame ⟨some [1, 2, 3, 4], 2, 2⟩, .workerWake]).cornerFinderRun demoCV).run demoCV
        [.capture, .workerWake, .workerRun, .calib]).m_cornerFinderThread) = true ∧
    ((((((Calibration.construct .CHESSBOARD 10 ⟨2, 2⟩ 30 2 2).run demoCV
      [.frame ⟨some [1, 2, 3, 4], 2, 2⟩, .workerWake]).cornerFinderRun demoCV).run demoCV
        [.capture, .workerWake, .workerRun, .calib]).frame
          ⟨some [5, 6, 7, 8], 2, 2⟩).2.m_cornerFinderResultData) =
      CalibrationCornerFinderData.assign
        ((((Calibration.construct .CHESSBOARD 10 ⟨2, 2⟩ 30 2 2).run demoCV
          [.frame ⟨some [1, 2, 3, 4], 2, 2⟩, .workerWake]).cornerFinderRun
            demoCV).m_cornerFinderData) := by
  obtain ⟨a1, _, _, _, a5, _, _, b1, b2⟩ :=
    frame_collects_by_value finishedSession ⟨some [5, 6, 7, 8], 2, 2⟩ (by decide)
      ⟨by decide, fun _ _ => by decide⟩ demoCV .CHESSBOARD 10 ⟨2, 2⟩ 30 2 2
      [.frame ⟨some [1, 2, 3, 4], 2, 2⟩, .workerWake]
      [.capture, .workerWake, .workerRun, .calib] (by decide) (by simp)
  exact ⟨a1, a5, b1, b2⟩

end ARToolKit
